import Mathlib

/-!
# PDF redaction coordinate pipeline

A shallow embedding of `features/pdf-redact/feature.js`: the module state object, the
part of the document tree the feature reads and writes, the coordinate mapper, the draw
and pan controllers, the render coordinator, the selection store and the export
assembler, followed by theorems about them.

JavaScript numbers are modelled by `JSNum`: an exact rational, or one of the non-finite
values `±Infinity` and `NaN`.  The operations of `JSNum` are exact and zero carries no
sign; the statements about them are statements in exact arithmetic.  The rounding of
IEEE-754 doubles is modelled by the operations `Double.add`, `Double.sub`, `Double.mul`
and `Double.div`, over which the functions of the coordinate pipeline are embedded a
second time (`Double.displayToOriginal`, `Double.addSelection`, `Double.renderPage`,
...); they show where a statement of exact arithmetic fails in doubles.  The rotation
logic of `features/pdf-rotate/feature.js` is embedded as well.
-/

namespace PdfRedact

/-! ## JavaScript numbers -/

/-- A JavaScript number in exact arithmetic: a rational, `Infinity` (`inf false`),
`-Infinity` (`inf true`) or `NaN`. -/
inductive JSNum where
  | fin (q : ℚ)
  | inf (neg : Bool)
  | nan
  deriving DecidableEq

namespace JSNum

/-- Addition of JavaScript numbers. -/
def add : JSNum → JSNum → JSNum
  | fin a, fin b => fin (a + b)
  | fin _, inf s => inf s
  | inf s, fin _ => inf s
  | inf s, inf t => if s = t then inf s else nan
  | _, _ => nan

/-- Unary minus. -/
def neg : JSNum → JSNum
  | fin a => fin (-a)
  | inf s => inf (!s)
  | nan => nan

/-- Subtraction of JavaScript numbers. -/
def sub (a b : JSNum) : JSNum := add a (neg b)

/-- Multiplication of JavaScript numbers. -/
def mul : JSNum → JSNum → JSNum
  | fin a, fin b => fin (a * b)
  | fin a, inf s => if a = 0 then nan else inf (xor s (decide (a < 0)))
  | inf s, fin b => if b = 0 then nan else inf (xor s (decide (b < 0)))
  | inf s, inf t => inf (xor s t)
  | _, _ => nan

/-- Division of JavaScript numbers; a finite non-zero value divided by zero is an
infinity of the dividend's sign, `0 / 0` is `NaN`. -/
def div : JSNum → JSNum → JSNum
  | fin a, fin b =>
      if b = 0 then (if a = 0 then nan else inf (decide (a < 0))) else fin (a / b)
  | fin _, inf _ => fin 0
  | inf s, fin b => inf (xor s (decide (b < 0)))
  | inf _, inf _ => nan
  | _, _ => nan

instance : Add JSNum := ⟨add⟩
instance : Sub JSNum := ⟨sub⟩
instance : Mul JSNum := ⟨mul⟩
instance : Div JSNum := ⟨div⟩
instance : Neg JSNum := ⟨neg⟩
instance : Coe ℚ JSNum := ⟨fin⟩
instance : Inhabited JSNum := ⟨fin 0⟩

/-- The comparison `a < b` of JavaScript (false whenever an operand is `NaN`). -/
def lt : JSNum → JSNum → Bool
  | fin a, fin b => decide (a < b)
  | fin _, inf s => !s
  | inf s, fin _ => s
  | inf s, inf t => s && !t
  | _, _ => false

/-- The comparison `a > b`. -/
def gt (a b : JSNum) : Bool := lt b a

/-- The comparison `a <= b` (false whenever an operand is `NaN`). -/
def le : JSNum → JSNum → Bool
  | fin a, fin b => decide (a ≤ b)
  | fin _, inf s => !s
  | inf s, fin _ => s
  | inf s, inf t => s || !t
  | _, _ => false

/-- The comparison `a >= b`. -/
def ge (a b : JSNum) : Bool := le b a

/-- `Math.min` of two numbers (`NaN` if either is). -/
def min2 : JSNum → JSNum → JSNum
  | nan, _ => nan
  | _, nan => nan
  | a, b => if lt b a then b else a

/-- `Math.max` of two numbers (`NaN` if either is). -/
def max2 : JSNum → JSNum → JSNum
  | nan, _ => nan
  | _, nan => nan
  | a, b => if lt a b then b else a

/-- `Math.abs`. -/
def abs : JSNum → JSNum
  | fin a => fin |a|
  | inf _ => inf false
  | nan => nan

/-- The number is finite and at least zero. -/
def NonNeg : JSNum → Prop
  | fin a => 0 ≤ a
  | _ => False

instance : DecidablePred NonNeg := fun a =>
  match a with
  | fin q => inferInstanceAs (Decidable (0 ≤ q))
  | inf _ => isFalse (fun h => h)
  | nan => isFalse (fun h => h)

end JSNum

open JSNum

/-! ## Data model -/

/-- A point `{ x, y }`. -/
structure Point where
  x : JSNum
  y : JSNum
  deriving DecidableEq

/-- An entry of `state.pageDimensions`: the page's size at scale 1.0. -/
structure PageDim where
  width : JSNum
  height : JSNum
  deriving DecidableEq

/-- The live preview rectangle `state.currentRect`. -/
structure DrawRect where
  left : JSNum
  top : JSNum
  width : JSNum
  height : JSNum
  deriving DecidableEq

/-- A stored selection `{ id, page, x, y, width, height }`. -/
structure Selection where
  id : String
  page : Nat
  x : JSNum
  y : JSNum
  width : JSNum
  height : JSNum
  deriving DecidableEq

/-- The document handle of the external rendering library: the intrinsic size of each
page, page `i` (1-based) at position `i - 1`.  `getViewport({ scale })` of a page of
intrinsic size `(W, H)` is `(W * scale, H * scale)`. -/
structure PdfDoc where
  pages : List PageDim
  deriving DecidableEq

/-- The interface language. -/
inductive Lang where
  | ja
  | en
  deriving DecidableEq

/-! ## Constants -/

/-- `RENDER_SCALE = 3.0`. -/
def RENDER_SCALE : JSNum := fin 3
/-- `MIN_ZOOM = 0.5`. -/
def MIN_ZOOM : JSNum := fin (1 / 2)
/-- `MAX_ZOOM = 3.0`. -/
def MAX_ZOOM : JSNum := fin 3
/-- `ZOOM_STEP = 0.25`. -/
def ZOOM_STEP : JSNum := fin (1 / 4)

/-! ## Module state -/

/-- The module-level `state` object.  `pdfFile` holds the file's name and
`pageDimensions` the entries of the object keyed by page number. -/
structure State where
  pdfFile : Option String
  pdfDoc : Option PdfDoc
  currentPage : Nat
  totalPages : Nat
  baseScale : JSNum
  zoomLevel : JSNum
  minScale : JSNum
  maxScale : JSNum
  selections : List Selection
  currentLang : Lang
  processing : Bool
  thumbnails : List Nat
  panToolActive : Bool
  isDrawing : Bool
  drawStart : Option Point
  currentRect : Option DrawRect
  pageDimensions : List (Nat × PageDim)
  panX : JSNum
  panY : JSNum
  isPanning : Bool
  lastMouseX : JSNum
  lastMouseY : JSNum
  deriving DecidableEq

/-- The initial value of `state`. -/
def initialState : State :=
  { pdfFile := none, pdfDoc := none, currentPage := 1, totalPages := 0,
    baseScale := fin 1, zoomLevel := fin 1, minScale := MIN_ZOOM, maxScale := MAX_ZOOM,
    selections := [], currentLang := Lang.ja, processing := false, thumbnails := [],
    panToolActive := false, isDrawing := false, drawStart := none, currentRect := none,
    pageDimensions := [], panX := fin 0, panY := fin 0, isPanning := false,
    lastMouseX := fin 0, lastMouseY := fin 0 }

/-- The function `resetState`. -/
def resetState (s : State) : State :=
  { s with
    pdfFile := none, pdfDoc := none, currentPage := 1, totalPages := 0,
    baseScale := fin 1, zoomLevel := fin 1, selections := [], processing := false,
    thumbnails := [], isDrawing := false, drawStart := none, currentRect := none,
    pageDimensions := [], panX := fin 0, panY := fin 0, isPanning := false }

/-- The lookup `state.pageDimensions[n]` (`none` for `undefined`). -/
def pageDimAt (dims : List (Nat × PageDim)) (n : Nat) : Option PageDim :=
  (dims.find? (fun e => e.1 == n)).map (fun e => e.2)

/-- The assignment `state.pageDimensions[n] = d`. -/
def setPageDim (dims : List (Nat × PageDim)) (n : Nat) (d : PageDim) :
    List (Nat × PageDim) :=
  if dims.any (fun e => e.1 == n) then
    dims.map (fun e => if e.1 == n then (n, d) else e)
  else dims ++ [(n, d)]

/-! ## Document tree

Only what the feature reads back or what a claim speaks of is kept: sizes, positions,
pan translation, the overlay's rectangles, the drawing layer and its preview, and the
selection list.  Colours, cursors, texts and class names are left out.  A length
written as `n + "px"` and read back with `parseFloat` is stored as the number `n`; a
length never written is `NaN`. -/

/-- The element `#pdfCanvasWrapper`; its client size is a whole number of pixels. -/
structure Wrapper where
  clientWidth : Nat
  clientHeight : Nat
  deriving DecidableEq

/-- The element `#pdfCanvas`: bitmap size, CSS size and pan translation. -/
structure Canvas where
  width : JSNum
  height : JSNum
  styleWidth : JSNum
  styleHeight : JSNum
  transform : Option Point
  deriving DecidableEq

/-- The element `#drawingLayer` built by `setupDrawingLayer`. -/
structure DrawLayer where
  left : JSNum
  top : JSNum
  width : JSNum
  height : JSNum
  pointerEventsAuto : Bool
  preview : Option DrawRect
  transform : Option Point
  deriving DecidableEq

/-- A `.selection-highlight` rectangle of the overlay. -/
structure SelDiv where
  id : String
  left : JSNum
  top : JSNum
  width : JSNum
  height : JSNum
  deriving DecidableEq

/-- The element `#redactionOverlay`. -/
structure Overlay where
  left : JSNum
  top : JSNum
  width : JSNum
  height : JSNum
  children : List SelDiv
  transform : Option Point
  deriving DecidableEq

/-- The part of the document tree the feature works on.  `redactionList` holds the
selections shown as `.redaction-item` rows, in row order; an absent element is `none`. -/
structure Dom where
  wrapper : Option Wrapper
  canvas : Option Canvas
  overlay : Option Overlay
  drawingLayer : Option DrawLayer
  redactionList : Option (List Selection)
  deriving DecidableEq

/-- Module state and document tree together. -/
structure World where
  state : State
  dom : Dom
  deriving DecidableEq

/-- A mouse event: button and viewport position (finite numbers). -/
structure MouseEv where
  button : Nat
  clientX : ℚ
  clientY : ℚ
  deriving DecidableEq

/-- The top-left corner of `drawLayer.getBoundingClientRect()` at the time of an
event. -/
structure ClientRect where
  left : ℚ
  top : ℚ
  deriving DecidableEq

/-! ## Coordinate conversion -/

/-- The function `displayToOriginal`. -/
def displayToOriginal (w : World) (displayX displayY : JSNum) : Point :=
  match pageDimAt w.state.pageDimensions w.state.currentPage, w.dom.canvas with
  | some pageDim, some canvas =>
      let displayWidth := canvas.styleWidth
      let displayHeight := canvas.styleHeight
      { x := (displayX / displayWidth) * pageDim.width,
        y := (displayY / displayHeight) * pageDim.height }
  | _, _ => { x := displayX, y := displayY }

/-- The function `originalToDisplay`. -/
def originalToDisplay (w : World) (originalX originalY : JSNum) : Point :=
  match pageDimAt w.state.pageDimensions w.state.currentPage, w.dom.canvas with
  | some pageDim, some canvas =>
      let displayWidth := canvas.styleWidth
      let displayHeight := canvas.styleHeight
      { x := (originalX / pageDim.width) * displayWidth,
        y := (originalY / pageDim.height) * displayHeight }
  | _, _ => { x := originalX, y := originalY }

/-! ## Selection overlay and selection list -/

/-- The rectangle `drawSelections` builds for one selection: both corners are mapped
by `originalToDisplay`, the size is their difference. -/
def selectionDiv (w : World) (sel : Selection) : SelDiv :=
  let topLeft := originalToDisplay w sel.x sel.y
  let bottomRight := originalToDisplay w (sel.x + sel.width) (sel.y + sel.height)
  { id := sel.id, left := topLeft.x, top := topLeft.y,
    width := bottomRight.x - topLeft.x, height := bottomRight.y - topLeft.y }

/-- The filter of `drawSelections`: the stored selections of page `n`. -/
def pageSelections (sels : List Selection) (n : Nat) : List Selection :=
  sels.filter (fun s => s.page == n)

/-- The function `drawSelections`. -/
def drawSelections (w : World) : World :=
  match w.dom.overlay with
  | none => w
  | some overlay =>
    let cleared : Overlay := { overlay with children := [] }
    match w.dom.wrapper, w.dom.canvas with
    | some wrapper, some canvas =>
        let displayWidth := canvas.styleWidth
        let displayHeight := canvas.styleHeight
        let wrapperWidth := fin wrapper.clientWidth
        let wrapperHeight := fin wrapper.clientHeight
        let left := (wrapperWidth - displayWidth) / fin 2
        let top := (wrapperHeight - displayHeight) / fin 2
        let sels := pageSelections w.state.selections w.state.currentPage
        let drawn : Overlay :=
          { cleared with
            left := left, top := top, width := displayWidth, height := displayHeight,
            children := sels.map (selectionDiv w) }
        { w with dom := { w.dom with overlay := some drawn } }
    | _, _ => { w with dom := { w.dom with overlay := some cleared } }

/-- The function `renderSelectionList`: the rows are a copy of the store sorted by page
number (the sort is stable); the store itself is not touched. -/
def renderSelectionList (w : World) : World :=
  match w.dom.redactionList with
  | none => w
  | some _ =>
    let sorted := w.state.selections.insertionSort (fun a b => a.page ≤ b.page)
    { w with dom := { w.dom with redactionList := some sorted } }

/-! ## Selection management -/

/-- The function `addSelection`; `newId` is the value returned by
`utils.generateId()`. -/
def addSelection (w : World) (left top width height : JSNum) (newId : String) : World :=
  let topLeftOriginal := displayToOriginal w left top
  let bottomRightOriginal := displayToOriginal w (left + width) (top + height)
  let sel : Selection :=
    { id := newId, page := w.state.currentPage,
      x := topLeftOriginal.x, y := topLeftOriginal.y,
      width := bottomRightOriginal.x - topLeftOriginal.x,
      height := bottomRightOriginal.y - topLeftOriginal.y }
  let w1 : World := { w with state := { w.state with selections := w.state.selections ++ [sel] } }
  renderSelectionList (drawSelections w1)

/-- The function `deleteSelection`: the first selection with the given id is spliced
out. -/
def deleteSelection (w : World) (id : String) : World :=
  match w.state.selections.findIdx? (fun s => s.id == id) with
  | none => w
  | some idx =>
    let w1 : World :=
      { w with state := { w.state with selections := w.state.selections.eraseIdx idx } }
    renderSelectionList (drawSelections w1)

/-- The function `clearAllSelections`; `confirmed` is the answer of the `confirm`
dialog, asked only when the store is not empty. -/
def clearAllSelections (w : World) (confirmed : Bool) : World :=
  if w.state.selections.length = 0 then w
  else if !confirmed then w
  else
    let w1 : World := { w with state := { w.state with selections := [] } }
    renderSelectionList (drawSelections w1)

/-! ## Drawing handlers -/

/-- The function `handleDrawStart`. -/
def handleDrawStart (w : World) (e : MouseEv) (rect : ClientRect) : World :=
  if e.button ≠ 0 ∨ w.state.isPanning = true then w
  else
    match w.dom.drawingLayer with
    | none => w
    | some _ =>
      let x := fin e.clientX - fin rect.left
      let y := fin e.clientY - fin rect.top
      { w with state := { w.state with isDrawing := true, drawStart := some { x := x, y := y } } }

/-- The function `drawCurrentSelection`. -/
def drawCurrentSelection (w : World) : World :=
  match w.state.currentRect with
  | none => w
  | some r =>
    match w.dom.drawingLayer with
    | none => w
    | some layer =>
      { w with dom := { w.dom with drawingLayer := some { layer with preview := some r } } }

/-- The function `handleDrawMove`. -/
def handleDrawMove (w : World) (e : MouseEv) (rect : ClientRect) : World :=
  match w.state.isDrawing, w.state.drawStart with
  | true, some drawStart =>
    match w.dom.drawingLayer with
    | none => w
    | some _ =>
      let x := fin e.clientX - fin rect.left
      let y := fin e.clientY - fin rect.top
      let left := min2 drawStart.x x
      let top := min2 drawStart.y y
      let width := abs (x - drawStart.x)
      let height := abs (y - drawStart.y)
      drawCurrentSelection
        { w with state := { w.state with
            currentRect := some { left := left, top := top, width := width, height := height } } }
  | _, _ => w

/-- The function `handleDrawEnd`; `newId` is the id `utils.generateId()` returns if the
gesture is committed. -/
def handleDrawEnd (w : World) (e : MouseEv) (rect : ClientRect) (newId : String) : World :=
  match w.state.isDrawing, w.state.drawStart with
  | true, some drawStart =>
    match w.dom.drawingLayer with
    | none => w
    | some _ =>
      let x := fin e.clientX - fin rect.left
      let y := fin e.clientY - fin rect.top
      let left := min2 drawStart.x x
      let top := min2 drawStart.y y
      let width := abs (x - drawStart.x)
      let height := abs (y - drawStart.y)
      let w1 :=
        if gt width (fin 10) && gt height (fin 10) then
          addSelection w left top width height newId
        else w
      let w2 : World :=
        { w1 with state := { w1.state with
            isDrawing := false, drawStart := none, currentRect := none } }
      { w2 with dom := { w2.dom with
          drawingLayer := w2.dom.drawingLayer.map (fun l => { l with preview := none }) } }
  | _, _ => w

/-- The function `handleDrawCancel`. -/
def handleDrawCancel (w : World) : World :=
  if w.state.isDrawing = false then w
  else
    { state := { w.state with isDrawing := false, drawStart := none, currentRect := none },
      dom := { w.dom with
        drawingLayer := w.dom.drawingLayer.map (fun l => { l with preview := none }) } }

/-! ## Render coordinator -/

/-- What the external renderer does during one `renderPage`: whether
`pdfDoc.getPage` resolves and whether `page.render(...)` resolves. -/
structure RenderEnv where
  getPageOk : Bool
  renderOk : Bool
  deriving DecidableEq

/-- The call `pdfDoc.getPage(n)` of the rendering library: the page's intrinsic size,
or `none` when the promise rejects. -/
def getPage (ok : Bool) (doc : PdfDoc) (n : Nat) : Option PageDim :=
  if ok then (if n = 0 then none else doc.pages.get? (n - 1)) else none

/-- The call `page.getViewport({ scale })` of the rendering library. -/
def getViewport (page : PageDim) (scale : JSNum) : PageDim :=
  { width := page.width * scale, height := page.height * scale }

/-- The function `applyPanTransform`. -/
def applyPanTransform (w : World) : World :=
  let t : Point := { x := w.state.panX, y := w.state.panY }
  { w with dom := { w.dom with
      canvas := w.dom.canvas.map (fun c => { c with transform := some t }),
      overlay := w.dom.overlay.map (fun o => { o with transform := some t }),
      drawingLayer := w.dom.drawingLayer.map (fun l => { l with transform := some t }) } }

/-- The function `updateCanvasCursor`, of which the pointer-events switch of the
drawing layer is kept. -/
def updateCanvasCursor (w : World) : World :=
  if w.state.panToolActive = true ∧ gt w.state.zoomLevel (fin 1) = true then
    { w with dom := { w.dom with
        drawingLayer := w.dom.drawingLayer.map (fun l => { l with pointerEventsAuto := false }) } }
  else
    { w with dom := { w.dom with
        drawingLayer := w.dom.drawingLayer.map (fun l => { l with pointerEventsAuto := true }) } }

/-- The function `setupDrawingLayer`. -/
def setupDrawingLayer (w : World) : World :=
  match w.dom.wrapper, w.dom.canvas with
  | some wrapper, some canvas =>
      let displayWidth := canvas.styleWidth
      let displayHeight := canvas.styleHeight
      let wrapperWidth := fin wrapper.clientWidth
      let wrapperHeight := fin wrapper.clientHeight
      let left := (wrapperWidth - displayWidth) / fin 2
      let top := (wrapperHeight - displayHeight) / fin 2
      let layer : DrawLayer :=
        { left := left, top := top, width := displayWidth, height := displayHeight,
          pointerEventsAuto := true, preview := none, transform := none }
      { w with dom := { w.dom with drawingLayer := some layer } }
  | _, _ => w

/-- The function `renderPage`.  A rejected promise and the `TypeError` of a missing
canvas end the `try` block where they occur; what was written before stays written. -/
def renderPage (env : RenderEnv) (w : World) : World :=
  match w.state.pdfDoc with
  | none => w
  | some doc =>
    if w.state.currentPage < 1 ∨ w.state.currentPage > w.state.totalPages then w
    else
      match getPage env.getPageOk doc w.state.currentPage with
      | none => w
      | some page =>
        let originalViewport := getViewport page (fin 1)
        let originalWidth := originalViewport.width
        let originalHeight := originalViewport.height
        let st1 : State :=
          match w.dom.wrapper with
          | some wrapper =>
              let containerWidth := fin wrapper.clientWidth - fin 80
              let containerHeight := fin wrapper.clientHeight - fin 80
              let fit := min2 (min2 (containerWidth / originalWidth)
                (containerHeight / originalHeight)) (fin 1)
              { w.state with baseScale := fit }
          | none => w.state
        let finalScale := st1.baseScale * st1.zoomLevel * RENDER_SCALE
        let viewport := getViewport page finalScale
        match w.dom.canvas with
        | none => { w with state := st1 }
        | some canvas =>
          let displayWidth := viewport.width / RENDER_SCALE
          let displayHeight := viewport.height / RENDER_SCALE
          let canvas1 : Canvas :=
            { canvas with width := viewport.width, height := viewport.height,
                          styleWidth := displayWidth, styleHeight := displayHeight }
          let w1 : World := { state := st1, dom := { w.dom with canvas := some canvas1 } }
          if env.renderOk = false then w1
          else updateCanvasCursor (applyPanTransform (drawSelections (setupDrawingLayer w1)))

/-! ## Zoom, pan and navigation -/

/-- The click handler of `#zoomInBtn`. -/
def zoomIn (env : RenderEnv) (w : World) : World :=
  if lt w.state.zoomLevel w.state.maxScale then
    renderPage env { w with state := { w.state with
      zoomLevel := min2 (w.state.zoomLevel + ZOOM_STEP) w.state.maxScale } }
  else w

/-- The click handler of `#zoomOutBtn`. -/
def zoomOut (env : RenderEnv) (w : World) : World :=
  if gt w.state.zoomLevel w.state.minScale then
    renderPage env { w with state := { w.state with
      zoomLevel := max2 (w.state.zoomLevel - ZOOM_STEP) w.state.minScale } }
  else w

/-- The click handler of `#resetZoomBtn`. -/
def resetZoom (env : RenderEnv) (w : World) : World :=
  renderPage env { w with state := { w.state with
    zoomLevel := fin 1, panX := fin 0, panY := fin 0 } }

/-- The click handler of `#panToolBtn`. -/
def togglePanTool (w : World) : World :=
  updateCanvasCursor { w with state := { w.state with
    panToolActive := !w.state.panToolActive } }

/-- The `mousedown` listener `setupPanListeners` puts on the canvas. -/
def panMouseDown (w : World) (e : MouseEv) : World :=
  if w.state.panToolActive = false ∨ le w.state.zoomLevel (fin 1) = true
      ∨ w.state.isDrawing = true then w
  else
    { w with state := { w.state with
        isPanning := true, lastMouseX := fin e.clientX, lastMouseY := fin e.clientY } }

/-- The `mousemove` listener `setupPanListeners` puts on the document. -/
def panMouseMove (w : World) (e : MouseEv) : World :=
  if w.state.isPanning = false then w
  else
    let deltaX := fin e.clientX - w.state.lastMouseX
    let deltaY := fin e.clientY - w.state.lastMouseY
    applyPanTransform { w with state := { w.state with
      panX := w.state.panX + deltaX, panY := w.state.panY + deltaY,
      lastMouseX := fin e.clientX, lastMouseY := fin e.clientY } }

/-- The `mouseup` listener `setupPanListeners` puts on the document. -/
def panMouseUp (w : World) : World :=
  if w.state.isPanning = true then
    updateCanvasCursor { w with state := { w.state with isPanning := false } }
  else w

/-- The function `goToPage`. -/
def goToPage (env : RenderEnv) (w : World) (pageNum : Nat) : World :=
  if pageNum < 1 ∨ pageNum > w.state.totalPages ∨ pageNum = w.state.currentPage then w
  else renderPage env { w with state := { w.state with currentPage := pageNum } }

/-! ## File handling -/

/-- What the collaborators do during one `handleFile`: the verdict of
`utils.validatePdfFile`, whether the file can be read, whether `window.pdfjsLib` is
there, the document the loading task resolves to (`none`: it rejects), the page whose
`getPage` rejects while the sizes are cached (if any), whether `#thumbnailContainer`
exists, the pages whose thumbnail fails, and the renderer during the final
`renderPage`. -/
structure LoadEnv where
  fileName : String
  valid : Bool
  readOk : Bool
  pdfjsLoaded : Bool
  doc : Option PdfDoc
  failAt : Option Nat
  thumbnailContainer : Bool
  thumbnailFails : List Nat
  render : RenderEnv
  deriving DecidableEq

/-- The loop of `handleFile` that caches the page sizes, over the page numbers still to
visit; the flag tells whether it ran to the end. -/
def cachePageDimensions (doc : PdfDoc) (failAt : Option Nat) :
    List Nat → List (Nat × PageDim) → List (Nat × PageDim) × Bool
  | [], dims => (dims, true)
  | i :: rest, dims =>
    match getPage (decide (failAt ≠ some i)) doc i with
    | none => (dims, false)
    | some page =>
      let viewport := getViewport page (fin 1)
      cachePageDimensions doc failAt rest
        (setPageDim dims i { width := viewport.width, height := viewport.height })

/-- The function `renderAllThumbnails`, of which the bookkeeping in `state.thumbnails`
is kept: a page is recorded when its thumbnail was painted. -/
def renderAllThumbnails (env : LoadEnv) (w : World) : World :=
  if env.thumbnailContainer = false then w
  else
    let painted := (List.range' 1 w.state.totalPages).filter
      (fun n => !(env.thumbnailFails.contains n))
    let marks := painted.foldl (fun acc n => if acc.contains n then acc else acc ++ [n])
      w.state.thumbnails
    { w with state := { w.state with thumbnails := marks } }

/-- The function `handleFile`.  The `finally` clause clears `processing` on every path
that entered the `try` block. -/
def handleFile (env : LoadEnv) (w : World) : World :=
  if env.valid = false then w
  else
    let s0 : State := { w.state with processing := true }
    if env.readOk = false then { w with state := { s0 with processing := false } }
    else
      let s1 : State := { s0 with pdfFile := some env.fileName }
      if env.pdfjsLoaded = false then { w with state := { s1 with processing := false } }
      else
        match env.doc with
        | none => { w with state := { s1 with processing := false } }
        | some doc =>
          let s2 : State :=
            { s1 with pdfDoc := some doc, totalPages := doc.pages.length, currentPage := 1 }
          let cached := cachePageDimensions doc env.failAt
            (List.range' 1 s2.totalPages) s2.pageDimensions
          let s3 : State := { s2 with pageDimensions := cached.1 }
          if cached.2 = false then { w with state := { s3 with processing := false } }
          else
            let w4 := renderAllThumbnails env { w with state := s3 }
            let w5 := renderPage env.render w4
            { w5 with state := { w5.state with processing := false } }

/-! ## Save -/

/-- A call `page.drawRectangle({ x, y, width, height, color })` on the page with the
given 0-based index of the document library's document. -/
structure RectRequest where
  pageIndex : Int
  x : JSNum
  y : JSNum
  width : JSNum
  height : JSNum
  deriving DecidableEq

/-- What the collaborators do during one `saveRedactedPdf`: whether the document
library is available, whether the file can be read, the heights of the pages of the
document the library loads (`none`: loading rejects), the position in the sequence of
`drawRectangle` calls of a call that throws (if any), whether serialisation succeeds,
whether `window.electronAPI.savePdfFile` is there to be called, and the host's answer
(`none`: the call rejects, `some b`: `result.success` is `b`). -/
structure SaveEnv where
  pdfLib : Bool
  readOk : Bool
  pageHeights : Option (List JSNum)
  drawFailAt : Option Nat
  saveOk : Bool
  hostApi : Bool
  hostResult : Option Bool
  deriving DecidableEq

/-- What one `saveRedactedPdf` did: the state afterwards, whether the document library
was asked to load the file (`PDFDocument.load`), the rectangles requested of it in call
order, the file name handed to the host (if the host was called) and whether the
success dialog was shown. -/
structure SaveOutcome where
  world : World
  loadCall : Bool
  requests : List RectRequest
  hostCall : Option String
  success : Bool
  deriving DecidableEq

/-- One round of the `forEach` that fills `byPage`: the selection is pushed onto the
array of its page, which is created first if the key is new. -/
def pushByPage (byPage : List (Nat × List Selection)) (s : Selection) :
    List (Nat × List Selection) :=
  if byPage.any (fun e => e.1 == s.page) then
    byPage.map (fun e => if e.1 == s.page then (e.1, e.2 ++ [s]) else e)
  else byPage ++ [(s.page, [s])]

/-- The `forEach` that fills `byPage`: the keys in the order they were first added,
each with its selections in store order. -/
def groupByPage : List Selection → List (Nat × List Selection) → List (Nat × List Selection)
  | [], byPage => byPage
  | s :: rest, byPage => groupByPage rest (pushByPage byPage s)

/-- The order of `Object.entries`: keys that are array indices (below `2^32 - 1`) come
first in ascending order, the other keys follow in the order they were added. -/
def objectEntries (o : List (Nat × List Selection)) : List (Nat × List Selection) :=
  (o.filter (fun e => decide (e.1 < 2 ^ 32 - 1))).insertionSort (fun a b => a.1 ≤ b.1)
    ++ o.filter (fun e => !decide (e.1 < 2 ^ 32 - 1))

/-- The call `pdfDoc.getPage(index).getSize().height` of the document library; `none`
when the index is out of range and `getPage` throws. -/
def libPageHeight (heights : List JSNum) (index : Int) : Option JSNum :=
  if index < 0 then none else heights.get? index.toNat

/-- The rectangle requested for one selection on a page of the given height. -/
def rectRequest (index : Int) (height : JSNum) (sel : Selection) : RectRequest :=
  let pdfY := height - sel.y - sel.height
  { pageIndex := index, x := sel.x, y := pdfY, width := sel.width, height := sel.height }

/-- The loop of `saveRedactedPdf` over the entries of `byPage`: the rectangles requested
and whether the loop ran to the end (`getPage` did not throw). -/
def drawPages (heights : List JSNum) :
    List (Nat × List Selection) → List RectRequest × Bool
  | [] => ([], true)
  | (pageNum, sels) :: rest =>
    let index : Int := (pageNum : Int) - 1
    match libPageHeight heights index with
    | none => ([], false)
    | some height =>
      let later := drawPages heights rest
      (sels.map (rectRequest index height) ++ later.1, later.2)

/-- The rectangles `saveRedactedPdf` requests for a store, and whether all were drawn:
the loop of `drawPages`, cut short at a `drawRectangle` call that throws. -/
def drawAll (heights : List JSNum) (drawFailAt : Option Nat) (sels : List Selection) :
    List RectRequest × Bool :=
  let run := drawPages heights (objectEntries (groupByPage sels []))
  match drawFailAt with
  | none => run
  | some k => if k < run.1.length then (run.1.take k, false) else run

/-- The function `saveRedactedPdf`.  Reading a file that is `null` fails. -/
def saveRedactedPdf (env : SaveEnv) (w : World) : SaveOutcome :=
  if w.state.processing = true ∨ w.state.selections.length = 0 then
    { world := w, loadCall := false, requests := [], hostCall := none, success := false }
  else
    let failed (loaded : Bool) (reqs : List RectRequest) : SaveOutcome :=
      { world := { w with state := { w.state with processing := false } },
        loadCall := loaded, requests := reqs, hostCall := none, success := false }
    if env.pdfLib = false then failed false []
    else
      match w.state.pdfFile, env.readOk, env.pageHeights with
      | some name, true, some heights =>
        let drawn := drawAll heights env.drawFailAt w.state.selections
        if drawn.2 = false then failed true drawn.1
        else if env.saveOk = false then failed true drawn.1
        else if env.hostApi = false then failed true drawn.1
        else
          let fileName := "redacted_" ++ name
          { world := { w with state := { w.state with processing := false } },
            loadCall := true, requests := drawn.1, hostCall := some fileName,
            success := decide (env.hostResult = some true) }
      | some _, true, none => failed true []
      | _, _, _ => failed false []

/-! ## The feature as a transition system -/

/-- The operations of the feature, each with what its collaborators answer.  `reset`
is `resetState` (back to upload, redact more, cleanup); `resize` is the environment
changing the client size of the wrapper, on which no code of the feature runs. -/
inductive Op where
  | load (env : LoadEnv)
  | drawStart (e : MouseEv) (rect : ClientRect)
  | drawMove (e : MouseEv) (rect : ClientRect)
  | drawEnd (e : MouseEv) (rect : ClientRect) (newId : String)
  | drawCancel
  | zoomIn (env : RenderEnv)
  | zoomOut (env : RenderEnv)
  | zoomReset (env : RenderEnv)
  | panToggle
  | panDown (e : MouseEv)
  | panMove (e : MouseEv)
  | panUp
  | goToPage (env : RenderEnv) (pageNum : Nat)
  | delete (id : String)
  | clear (confirmed : Bool)
  | save (env : SaveEnv)
  | reset
  | resize (clientWidth clientHeight : Nat)
  deriving DecidableEq

/-- One operation applied to a world. -/
def step (w : World) : Op → World
  | Op.load env => handleFile env w
  | Op.drawStart e rect => handleDrawStart w e rect
  | Op.drawMove e rect => handleDrawMove w e rect
  | Op.drawEnd e rect newId => handleDrawEnd w e rect newId
  | Op.drawCancel => handleDrawCancel w
  | Op.zoomIn env => zoomIn env w
  | Op.zoomOut env => zoomOut env w
  | Op.zoomReset env => resetZoom env w
  | Op.panToggle => togglePanTool w
  | Op.panDown e => panMouseDown w e
  | Op.panMove e => panMouseMove w e
  | Op.panUp => panMouseUp w
  | Op.goToPage env n => goToPage env w n
  | Op.delete id => deleteSelection w id
  | Op.clear confirmed => clearAllSelections w confirmed
  | Op.save env => (saveRedactedPdf env w).world
  | Op.reset => { w with state := resetState w.state }
  | Op.resize cw ch =>
      { w with dom := { w.dom with
          wrapper := w.dom.wrapper.map (fun _ => { clientWidth := cw, clientHeight := ch }) } }

/-- A sequence of operations applied from left to right. -/
def run (w : World) (ops : List Op) : World := ops.foldl step w

/-- The world the feature starts in: the initial module state over a document tree
in which nothing has been rendered yet. -/
def initialWorld (dom : Dom) : World := { state := initialState, dom := dom }

/-- A draw gesture on the drawing layer: pointer-down, any number of pointer-moves,
pointer-up; each event comes with the layer's bounding rectangle at that moment. -/
def drawGesture (w : World) (down : MouseEv) (rdown : ClientRect)
    (moves : List (MouseEv × ClientRect)) (up : MouseEv) (rup : ClientRect)
    (newId : String) : World :=
  handleDrawEnd
    (moves.foldl (fun v m => handleDrawMove v m.1 m.2) (handleDrawStart w down rdown))
    up rup newId

/-- The view operations: zoom in, zoom out, zoom reset, pan-mode toggle and the pan
pointer events on the bitmap. -/
def Op.isViewOp : Op → Bool
  | Op.zoomIn _ => true
  | Op.zoomOut _ => true
  | Op.zoomReset _ => true
  | Op.panToggle => true
  | Op.panDown _ => true
  | Op.panMove _ => true
  | Op.panUp => true
  | _ => false

/-- The height the document library reports for page `pageNum` (1-based). -/
def heightAt (heights : List JSNum) (pageNum : Nat) : JSNum :=
  (libPageHeight heights ((pageNum : Int) - 1)).getD nan

/-- The rectangle the export is to request for a stored selection: on the page with
0-based index `page - 1`, with the y coordinate flipped against that page's height. -/
def expectedRequest (heights : List JSNum) (sel : Selection) : RectRequest :=
  rectRequest ((sel.page : Int) - 1) (heightAt heights sel.page) sel

/-- A save in which every collaborator succeeds, on a document of the given page
heights. -/
def saveAllOk (heights : List JSNum) : SaveEnv :=
  { pdfLib := true, readOk := true, pageHeights := some heights, drawFailAt := none,
    saveOk := true, hostApi := true, hostResult := some true }

/-! ## Sample worlds -/

/-- A document tree before the first render: every static element present, no
drawing layer, no length written yet. -/
def sampleDom : Dom :=
  { wrapper := some { clientWidth := 380, clientHeight := 480 },
    canvas := some { width := fin 300, height := fin 150, styleWidth := nan,
                     styleHeight := nan, transform := none },
    overlay := some { left := nan, top := nan, width := nan, height := nan,
                      children := [], transform := none },
    drawingLayer := none,
    redactionList := some [] }

/-- A one-page document of intrinsic size 600 x 800. -/
def sampleDoc : PdfDoc := { pages := [{ width := fin 600, height := fin 800 }] }

/-- A load of `sampleDoc` in which every collaborator succeeds. -/
def sampleLoad : LoadEnv :=
  { fileName := "a.pdf", valid := true, readOk := true, pdfjsLoaded := true,
    doc := some sampleDoc, failAt := none, thumbnailContainer := false,
    thumbnailFails := [], render := { getPageOk := true, renderOk := true } }

/-- The sample world with one selection stored on page 1 and one on page 2. -/
def sampleStore : List Selection :=
  [{ id := "s1", page := 1, x := fin 200, y := fin 200, width := fin 100, height := fin 120 },
   { id := "s2", page := 2, x := fin 10, y := fin 20, width := fin 30, height := fin 40 }]

/-- A world showing page 1 of `sampleDoc` at display size 300 x 400 (scale 0.5), with
an empty store and a drawing layer in place. -/
def sampleWorld : World :=
  { state := { initialState with
      pdfFile := some "a.pdf", pdfDoc := some sampleDoc, totalPages := 1,
      baseScale := fin (1 / 2),
      pageDimensions := [(1, { width := fin 600, height := fin 800 })] },
    dom := { sampleDom with
      canvas := some { width := fin 900, height := fin 1200, styleWidth := fin 300,
                       styleHeight := fin 400, transform := some { x := fin 0, y := fin 0 } },
      overlay := some { left := fin 40, top := fin 40, width := fin 300, height := fin 400,
                        children := [], transform := some { x := fin 0, y := fin 0 } },
      drawingLayer := some { left := fin 40, top := fin 40, width := fin 300,
                             height := fin 400, pointerEventsAuto := true, preview := none,
                             transform := some { x := fin 0, y := fin 0 } } } }

/-- The sample world after the display rectangle (100, 100, 50, 60) was committed. -/
def sampleCommitted : World :=
  addSelection sampleWorld (fin 100) (fin 100) (fin 50) (fin 60) "s1"

/-- The sample world after the commit and one zoom-in (display size 375 x 500). -/
def sampleZoomed : World :=
  zoomIn { getPageOk := true, renderOk := true } sampleCommitted

/-- The sample world with two selections stored on page 1. -/
def exportWorld : World :=
  { sampleWorld with state := { sampleWorld.state with selections :=
      [{ id := "s1", page := 1, x := fin 200, y := fin 200, width := fin 100, height := fin 120 },
       { id := "s2", page := 1, x := fin 10, y := fin 20, width := fin 30, height := fin 40 }] } }

/-- The sample session: the sample document is loaded in a wrapper of 380 x 480 and a
gesture from display point (100, 100) to (150, 160) is drawn. -/
def sampleOps : List Op :=
  [Op.load sampleLoad,
   Op.drawStart { button := 0, clientX := 140, clientY := 140 } { left := 40, top := 40 },
   Op.drawEnd { button := 0, clientX := 190, clientY := 200 } { left := 40, top := 40 } "s1"]

/-- The selection the sample session commits. -/
def sampleSelection : Selection :=
  { id := "s1", page := 1, x := fin 200, y := fin 200, width := fin 100, height := fin 120 }

/-- The operations that lead from the initial world to a page shown at display size
0 x 0 under a drawing layer of size 300 x 400: the sample document is loaded in a
wrapper of 380 x 480, the wrapper shrinks to a width of 80, and a zoom-in re-renders
the page, the renderer failing to paint. -/
def zeroDisplayOps : List Op :=
  [Op.load sampleLoad, Op.resize 80 480, Op.zoomIn { getPageOk := true, renderOk := false }]

/-- The world after `zeroDisplayOps`. -/
def zeroDisplayWorld : World := run (initialWorld sampleDom) zeroDisplayOps

/-- What holds of `byPage` after the selections `pre` were pushed: no key twice, every
entry holds the selections of its page in store order, every page is a key, and the
arrays together hold the selections pushed. -/
structure GroupInv (pre : List Selection) (acc : List (Nat × List Selection)) : Prop where
  nodup : (acc.map Prod.fst).Nodup
  entries : ∀ e ∈ acc, e.2 = pre.filter (fun s => s.page == e.1)
  covered : ∀ s ∈ pre, s.page ∈ acc.map Prod.fst
  perm : (acc.flatMap Prod.snd).Perm pre
  used : ∀ e ∈ acc, ∃ s ∈ pre, s.page = e.1

/-- The number is finite and greater than zero. -/
def JSNum.Pos : JSNum → Prop
  | fin a => 0 < a
  | _ => False

/-- What the environment is assumed to provide for the selection invariant: a loaded
document reports positive (finite) page sizes, and the wrapper stays wider and taller
than the 80 pixels of padding `renderPage` subtracts. -/
def Op.WellSized : Op → Prop
  | Op.load env => ∀ doc, env.doc = some doc → ∀ p ∈ doc.pages, p.width.Pos ∧ p.height.Pos
  | Op.resize cw ch => 80 < cw ∧ 80 < ch
  | _ => True

/-- The part of the selection invariant that speaks of the module state: stored
selections have a finite width and height of at least zero, cached and loaded page
sizes are positive, base scale and zoom level are positive, the zoom bounds are the
constants, and a recorded start point is finite. -/
structure StateInv (s : State) : Prop where
  sels : ∀ sel ∈ s.selections, sel.width.NonNeg ∧ sel.height.NonNeg
  dims : ∀ e ∈ s.pageDimensions, e.2.width.Pos ∧ e.2.height.Pos
  doc : ∀ d, s.pdfDoc = some d → ∀ p ∈ d.pages, p.width.Pos ∧ p.height.Pos
  base : s.baseScale.Pos
  zoom : s.zoomLevel.Pos
  minS : s.minScale = MIN_ZOOM
  maxS : s.maxScale = MAX_ZOOM
  start : ∀ p, s.drawStart = some p → ∃ x y : ℚ, p = { x := fin x, y := fin y }

/-- The part of the selection invariant that speaks of the document tree: the wrapper
is wider and taller than 80 pixels, and under a drawing layer the canvas has a
positive display size. -/
structure DomInv (d : Dom) : Prop where
  wrap : ∀ wr, d.wrapper = some wr → 80 < wr.clientWidth ∧ 80 < wr.clientHeight
  canvas : ∀ c, d.canvas = some c → d.drawingLayer.isSome = true →
    c.styleWidth.Pos ∧ c.styleHeight.Pos

/-- The function `renderPage` with the constant `RENDER_SCALE` made a parameter: the
bitmap is requested at `baseScale * zoomLevel * renderScale` and the display size is
the bitmap size divided by `renderScale`.  `renderPage` is `renderPageAt RENDER_SCALE`. -/
def renderPageAt (renderScale : JSNum) (env : RenderEnv) (w : World) : World :=
  match w.state.pdfDoc with
  | none => w
  | some doc =>
    if w.state.currentPage < 1 ∨ w.state.currentPage > w.state.totalPages then w
    else
      match getPage env.getPageOk doc w.state.currentPage with
      | none => w
      | some page =>
        let originalViewport := getViewport page (fin 1)
        let originalWidth := originalViewport.width
        let originalHeight := originalViewport.height
        let st1 : State :=
          match w.dom.wrapper with
          | some wrapper =>
              let containerWidth := fin wrapper.clientWidth - fin 80
              let containerHeight := fin wrapper.clientHeight - fin 80
              let fit := min2 (min2 (containerWidth / originalWidth)
                (containerHeight / originalHeight)) (fin 1)
              { w.state with baseScale := fit }
          | none => w.state
        let finalScale := st1.baseScale * st1.zoomLevel * renderScale
        let viewport := getViewport page finalScale
        match w.dom.canvas with
        | none => { w with state := st1 }
        | some canvas =>
          let displayWidth := viewport.width / renderScale
          let displayHeight := viewport.height / renderScale
          let canvas1 : Canvas :=
            { canvas with width := viewport.width, height := viewport.height,
                          styleWidth := displayWidth, styleHeight := displayHeight }
          let w1 : World := { state := st1, dom := { w.dom with canvas := some canvas1 } }
          if env.renderOk = false then w1
          else updateCanvasCursor (applyPanTransform (drawSelections (setupDrawingLayer w1)))

/-- The zoom clamp: the zoom level is a finite number between 0.5 and 3.0, and the
bounds kept in the state are the constants `MIN_ZOOM` and `MAX_ZOOM`. -/
def ZoomInv (s : State) : Prop :=
  ∃ z : ℚ, s.zoomLevel = fin z ∧ 1 / 2 ≤ z ∧ z ≤ 3 ∧
    s.minScale = MIN_ZOOM ∧ s.maxScale = MAX_ZOOM

/-- The sample world after four zoom-ins (zoom level 2.0) and a pan gesture from
(100, 100) to (130, 90). -/
def zoomedPannedWorld : World :=
  run sampleWorld
    [Op.zoomIn { getPageOk := true, renderOk := true },
     Op.zoomIn { getPageOk := true, renderOk := true },
     Op.zoomIn { getPageOk := true, renderOk := true },
     Op.zoomIn { getPageOk := true, renderOk := true },
     Op.panToggle,
     Op.panDown { button := 0, clientX := 100, clientY := 100 },
     Op.panMove { button := 0, clientX := 130, clientY := 90 },
     Op.panUp]

/-- A two-page document: page 1 of size 600 x 800, page 2 of size 800 x 600. -/
def twoPageDoc : PdfDoc :=
  { pages := [{ width := fin 600, height := fin 800 }, { width := fin 800, height := fin 600 }] }

/-- The initial world after `twoPageDoc` was loaded, the page zoomed in twice, pan mode
switched on and the page panned by (30, -10). -/
def pannedTwoPageWorld : World :=
  run (initialWorld sampleDom)
    [Op.load { sampleLoad with doc := some twoPageDoc },
     Op.zoomIn { getPageOk := true, renderOk := true },
     Op.zoomIn { getPageOk := true, renderOk := true },
     Op.panToggle,
     Op.panDown { button := 0, clientX := 100, clientY := 100 },
     Op.panMove { button := 0, clientX := 130, clientY := 90 },
     Op.panUp]

/-! ## The rotate feature

The rotation logic of `src/features/pdf-rotate/feature.js`.  Of an entry of
`state.pdfFiles` the fields the rotation logic reads and writes are kept. -/

/-- The two values the field `orientation` takes. -/
inductive Orientation where
  | portrait
  | landscape
  deriving DecidableEq, Repr

/-- An entry of `state.pdfFiles`: `rotation` counts quarter turns. -/
structure PdfEntry where
  id : String
  rotation : Int
  orientation : Orientation
  deriving DecidableEq, Repr

/-- The state of the rotate feature: the loaded files and the selection mode. -/
structure RotateState where
  pdfFiles : List PdfEntry
  selectionMode : String
  deriving DecidableEq, Repr

/-- The entry `loadPdfFile` returns for a file whose first page has the given viewport
size: no rotation, landscape when the page is wider than high. -/
def loadPdfFile (id : String) (width height : JSNum) : PdfEntry :=
  let isLandscape := gt width height
  { id := id, rotation := 0,
    orientation := if isLandscape then Orientation.landscape else Orientation.portrait }

/-- The function `isSelected` of the rotate feature. -/
def isSelected (st : RotateState) (pdf : PdfEntry) : Bool :=
  match st.selectionMode with
  | "all" => true
  | "portrait" => pdf.orientation == Orientation.portrait
  | "landscape" => pdf.orientation == Orientation.landscape
  | _ => false

/-- The function `updateOrientation`: nothing on an even rotation, a flip on an odd
one. -/
def updateOrientation (pdf : PdfEntry) : PdfEntry :=
  if Int.tmod pdf.rotation 2 = 0 then pdf
  else
    { pdf with orientation :=
        if pdf.orientation = Orientation.portrait then Orientation.landscape
        else Orientation.portrait }

/-- The update of the first entry with the given id, the others staying in place: what
`find` followed by writes to the entry found does to the array. -/
def updateFirst (id : String) (f : PdfEntry → PdfEntry) : List PdfEntry → List PdfEntry
  | [] => []
  | p :: rest => if p.id = id then f p :: rest else p :: updateFirst id f rest

/-- The function `rotatePdfIndividual`. -/
def rotatePdfIndividual (st : RotateState) (id : String) : RotateState :=
  match st.pdfFiles.find? (fun p => p.id == id) with
  | none => st
  | some _ =>
    let rotate : PdfEntry → PdfEntry := fun pdf =>
      updateOrientation { pdf with rotation := Int.tmod (pdf.rotation + 1) 4 }
    { st with pdfFiles := updateFirst id rotate st.pdfFiles }

/-- The function `rotateSelected`. -/
def rotateSelected (st : RotateState) (direction : String) : RotateState :=
  let selectedPdfs := st.pdfFiles.filter (isSelected st)
  if selectedPdfs.length = 0 then st
  else
    { st with pdfFiles := st.pdfFiles.map (fun pdf =>
        if isSelected st pdf then
          if direction = "left" then
            updateOrientation { pdf with rotation := Int.tmod (pdf.rotation - 1 + 4) 4 }
          else
            updateOrientation { pdf with rotation := Int.tmod (pdf.rotation + 1) 4 }
        else pdf) }

/-- The function `resetAllRotations`. -/
def resetAllRotations (st : RotateState) : RotateState :=
  let reset : PdfEntry → PdfEntry := fun pdf => updateOrientation { pdf with rotation := 0 }
  { st with pdfFiles := st.pdfFiles.map reset }

/-- The state of the rotate feature after one portrait file (page 600 x 800) was
loaded, in selection mode `all`. -/
def rotateSample : RotateState :=
  { pdfFiles := [loadPdfFile "a" (fin 600) (fin 800)], selectionMode := "all" }

/-! ## Sample loads -/

/-- The keys of `pageDimensions`, in the order of the object. -/
def dimKeys (dims : List (Nat × PageDim)) : List Nat := dims.map (fun e => e.1)

/-- The initial world while an operation is in flight: `processing` is set. -/
def busyWorld : World :=
  { initialWorld sampleDom with state := { initialState with processing := true } }

/-- A load of `twoPageDoc` in which `getPage(2)` rejects while the page sizes are
cached. -/
def failingLoad : LoadEnv := { sampleLoad with doc := some twoPageDoc, failAt := some 2 }

/-- The operations that load `twoPageDoc`, go to page 2 and draw a gesture from display
point (100, 100) to (150, 160) there. -/
def twoPageOps : List Op :=
  [Op.load { sampleLoad with doc := some twoPageDoc },
   Op.goToPage { getPageOk := true, renderOk := true } 2,
   Op.drawStart { button := 0, clientX := 140, clientY := 140 } { left := 40, top := 40 },
   Op.drawEnd { button := 0, clientX := 190, clientY := 200 } { left := 40, top := 40 } "s1"]

/-- The world after `twoPageOps`: `twoPageDoc` loaded, one selection stored on page 2. -/
def twoPageStore : World := run (initialWorld sampleDom) twoPageOps

/-- The sample world after the zoom level was set to 2.0 and before the page is
rendered again: the state in which the zoom handlers call `renderPage`. -/
def zoomPending : World :=
  { sampleWorld with state := { sampleWorld.state with zoomLevel := fin 2 } }

/-! ## Generated ids -/

/-- The ids `utils.generateId()` returns during one operation: `addSelection` is its
only caller, so the id that comes with a pointer-up is returned exactly when the
pointer-up extends the store. -/
def Op.generated (w : World) : Op → List String
  | Op.drawEnd e rect newId =>
    if (handleDrawEnd w e rect newId).state.selections.length = w.state.selections.length
    then [] else [newId]
  | _ => []

/-- The ids `utils.generateId()` returns while a sequence of operations runs, in the
order of the calls. -/
def generatedIds : World → List Op → List String
  | _, [] => []
  | w, op :: ops => op.generated w ++ generatedIds (step w op) ops

/-! ## Page indices -/

/-- What the page counters and the stored page numbers satisfy: the current page is at
least 1 and, unless the page count is 0, at most the page count; so is the page of
every stored selection; and the page count is that of the loaded document. -/
structure PageInv (s : State) : Prop where
  cur : 1 ≤ s.currentPage ∧ (s.totalPages = 0 ∨ s.currentPage ≤ s.totalPages)
  sels : ∀ sel ∈ s.selections, 1 ≤ sel.page ∧ (s.totalPages = 0 ∨ sel.page ≤ s.totalPages)
  doc : ∀ d, s.pdfDoc = some d → s.totalPages = d.pages.length

/-- A world showing page 1 of `twoPageDoc` with `sampleStore`: one selection stored on
page 1 and one on page 2. -/
def isolationWorld : World :=
  { sampleWorld with state := { sampleWorld.state with
      pdfDoc := some twoPageDoc, totalPages := 2, selections := sampleStore,
      pageDimensions := [(1, { width := fin 600, height := fin 800 }),
                         (2, { width := fin 800, height := fin 600 })] } }

/-! ## Double arithmetic

The numbers of the source are IEEE-754 doubles.  The operations of `JSNum` are exact;
the operations below round the exact result to the nearest double (round to nearest,
ties to even, 53-bit significand, subnormal numbers and overflow to an infinity
included; zero is unsigned as in `JSNum`), and the functions whose results depend on
the rounding are embedded a second time over them. -/

/-- The quotient `n / d` of two naturals rounded to the nearest natural, ties to the
even one. -/
def Double.roundHalfEven (n d : Nat) : Nat :=
  let q := n / d
  let r := n % d
  if 2 * r < d then q
  else if d < 2 * r then q + 1
  else if q % 2 = 0 then q else q + 1

/-- Whether `n / d < 2 ^ k`, for an integer `k`. -/
def Double.belowPow (n d : Nat) (k : Int) : Bool :=
  if 0 ≤ k then decide (n < d * 2 ^ k.toNat) else decide (n * 2 ^ (-k).toNat < d)

/-- The position of the leading bit of `n` (0 for `n < 2`), by halving at most `fuel`
times. -/
def Double.leadingBit : Nat → Nat → Nat
  | 0, _ => 0
  | fuel + 1, n => if n < 2 then 0 else Double.leadingBit fuel (n / 2) + 1

/-- The exponent `e` of the unit in the last place `2 ^ e` of the doubles around the
positive rational `n / d`: 52 below the exponent of the leading bit, and not below
-1074, that of the subnormal numbers. -/
def Double.ulpExponent (n d : Nat) : Int :=
  let e0 : Int := (Double.leadingBit n n : Int) - (Double.leadingBit d d : Int)
  let e1 : Int := if Double.belowPow n d e0 then e0 - 1 else e0
  max (e1 - 52) (-1074)

/-- The double nearest to the non-negative rational `n / d`, as a rational; `none` when
the rounded value is not below `2 ^ 1024` (overflow). -/
def Double.nearest (n d : Nat) : Option ℚ :=
  if n = 0 then some 0
  else
    let e := Double.ulpExponent n d
    if 0 ≤ e then
      let m := Double.roundHalfEven n (d * 2 ^ e.toNat)
      if m * 2 ^ e.toNat < 2 ^ 1024 then some (mkRat ((m * 2 ^ e.toNat : Nat) : Int) 1)
      else none
    else
      let m := Double.roundHalfEven (n * 2 ^ (-e).toNat) d
      some (mkRat ((m : Nat) : Int) (2 ^ (-e).toNat))

/-- The double an operation returns whose exact result is given: a finite result is
rounded to the nearest double, to an infinity of its sign on overflow; infinities and
`NaN` stay. -/
def Double.rnd : JSNum → JSNum
  | fin q =>
    match Double.nearest q.num.natAbs q.den with
    | some r => fin (if q.num < 0 then -r else r)
    | none => inf (decide (q.num < 0))
  | x => x

/-- Addition of doubles. -/
def Double.add (a b : JSNum) : JSNum := Double.rnd (a + b)

/-- Subtraction of doubles. -/
def Double.sub (a b : JSNum) : JSNum := Double.rnd (a - b)

/-- Multiplication of doubles. -/
def Double.mul (a b : JSNum) : JSNum := Double.rnd (a * b)

/-- Division of doubles. -/
def Double.div (a b : JSNum) : JSNum := Double.rnd (a / b)

/-- The call `page.getViewport({ scale })`, in doubles. -/
def Double.getViewport (page : PageDim) (scale : JSNum) : PageDim :=
  { width := Double.mul page.width scale, height := Double.mul page.height scale }

/-- The function `displayToOriginal`, in doubles. -/
def Double.displayToOriginal (w : World) (displayX displayY : JSNum) : Point :=
  match pageDimAt w.state.pageDimensions w.state.currentPage, w.dom.canvas with
  | some pageDim, some canvas =>
      let displayWidth := canvas.styleWidth
      let displayHeight := canvas.styleHeight
      { x := Double.mul (Double.div displayX displayWidth) pageDim.width,
        y := Double.mul (Double.div displayY displayHeight) pageDim.height }
  | _, _ => { x := displayX, y := displayY }

/-- The function `originalToDisplay`, in doubles. -/
def Double.originalToDisplay (w : World) (originalX originalY : JSNum) : Point :=
  match pageDimAt w.state.pageDimensions w.state.currentPage, w.dom.canvas with
  | some pageDim, some canvas =>
      let displayWidth := canvas.styleWidth
      let displayHeight := canvas.styleHeight
      { x := Double.mul (Double.div originalX pageDim.width) displayWidth,
        y := Double.mul (Double.div originalY pageDim.height) displayHeight }
  | _, _ => { x := originalX, y := originalY }

/-- The rectangle `drawSelections` places for one selection, in doubles. -/
def Double.selectionDiv (w : World) (sel : Selection) : SelDiv :=
  let topLeft := Double.originalToDisplay w sel.x sel.y
  let bottomRight := Double.originalToDisplay w
    (Double.add sel.x sel.width) (Double.add sel.y sel.height)
  { id := sel.id, left := topLeft.x, top := topLeft.y,
    width := Double.sub bottomRight.x topLeft.x, height := Double.sub bottomRight.y topLeft.y }

/-- The function `drawSelections`, in doubles. -/
def Double.drawSelections (w : World) : World :=
  match w.dom.overlay with
  | none => w
  | some overlay =>
    let cleared : Overlay := { overlay with children := [] }
    match w.dom.wrapper, w.dom.canvas with
    | some wrapper, some canvas =>
        let displayWidth := canvas.styleWidth
        let displayHeight := canvas.styleHeight
        let wrapperWidth := fin wrapper.clientWidth
        let wrapperHeight := fin wrapper.clientHeight
        let left := Double.div (Double.sub wrapperWidth displayWidth) (fin 2)
        let top := Double.div (Double.sub wrapperHeight displayHeight) (fin 2)
        let sels := pageSelections w.state.selections w.state.currentPage
        let drawn : Overlay :=
          { cleared with
            left := left, top := top, width := displayWidth, height := displayHeight,
            children := sels.map (Double.selectionDiv w) }
        { w with dom := { w.dom with overlay := some drawn } }
    | _, _ => { w with dom := { w.dom with overlay := some cleared } }

/-- The function `addSelection`, in doubles. -/
def Double.addSelection (w : World) (left top width height : JSNum) (newId : String) :
    World :=
  let topLeftOriginal := Double.displayToOriginal w left top
  let bottomRightOriginal :=
    Double.displayToOriginal w (Double.add left width) (Double.add top height)
  let sel : Selection :=
    { id := newId, page := w.state.currentPage,
      x := topLeftOriginal.x, y := topLeftOriginal.y,
      width := Double.sub bottomRightOriginal.x topLeftOriginal.x,
      height := Double.sub bottomRightOriginal.y topLeftOriginal.y }
  let w1 : World := { w with state := { w.state with selections := w.state.selections ++ [sel] } }
  renderSelectionList (Double.drawSelections w1)

/-- The function `handleDrawStart`, in doubles. -/
def Double.handleDrawStart (w : World) (e : MouseEv) (rect : ClientRect) : World :=
  if e.button ≠ 0 ∨ w.state.isPanning = true then w
  else
    match w.dom.drawingLayer with
    | none => w
    | some _ =>
      let x := Double.sub (fin e.clientX) (fin rect.left)
      let y := Double.sub (fin e.clientY) (fin rect.top)
      { w with state := { w.state with isDrawing := true, drawStart := some { x := x, y := y } } }

/-- The function `handleDrawEnd`, in doubles. -/
def Double.handleDrawEnd (w : World) (e : MouseEv) (rect : ClientRect) (newId : String) :
    World :=
  match w.state.isDrawing, w.state.drawStart with
  | true, some drawStart =>
    match w.dom.drawingLayer with
    | none => w
    | some _ =>
      let x := Double.sub (fin e.clientX) (fin rect.left)
      let y := Double.sub (fin e.clientY) (fin rect.top)
      let left := min2 drawStart.x x
      let top := min2 drawStart.y y
      let width := abs (Double.sub x drawStart.x)
      let height := abs (Double.sub y drawStart.y)
      let w1 :=
        if gt width (fin 10) && gt height (fin 10) then
          Double.addSelection w left top width height newId
        else w
      let w2 : World :=
        { w1 with state := { w1.state with
            isDrawing := false, drawStart := none, currentRect := none } }
      { w2 with dom := { w2.dom with
          drawingLayer := w2.dom.drawingLayer.map (fun l => { l with preview := none }) } }
  | _, _ => w

/-- The function `setupDrawingLayer`, in doubles. -/
def Double.setupDrawingLayer (w : World) : World :=
  match w.dom.wrapper, w.dom.canvas with
  | some wrapper, some canvas =>
      let displayWidth := canvas.styleWidth
      let displayHeight := canvas.styleHeight
      let wrapperWidth := fin wrapper.clientWidth
      let wrapperHeight := fin wrapper.clientHeight
      let left := Double.div (Double.sub wrapperWidth displayWidth) (fin 2)
      let top := Double.div (Double.sub wrapperHeight displayHeight) (fin 2)
      let layer : DrawLayer :=
        { left := left, top := top, width := displayWidth, height := displayHeight,
          pointerEventsAuto := true, preview := none, transform := none }
      { w with dom := { w.dom with drawingLayer := some layer } }
  | _, _ => w

/-- The function `renderPage`, in doubles, with the quality multiplier as a
parameter. -/
def Double.renderPageAt (renderScale : JSNum) (env : RenderEnv) (w : World) : World :=
  match w.state.pdfDoc with
  | none => w
  | some doc =>
    if w.state.currentPage < 1 ∨ w.state.currentPage > w.state.totalPages then w
    else
      match getPage env.getPageOk doc w.state.currentPage with
      | none => w
      | some page =>
        let originalViewport := Double.getViewport page (fin 1)
        let originalWidth := originalViewport.width
        let originalHeight := originalViewport.height
        let st1 : State :=
          match w.dom.wrapper with
          | some wrapper =>
              let containerWidth := Double.sub (fin wrapper.clientWidth) (fin 80)
              let containerHeight := Double.sub (fin wrapper.clientHeight) (fin 80)
              let fit := min2 (min2 (Double.div containerWidth originalWidth)
                (Double.div containerHeight originalHeight)) (fin 1)
              { w.state with baseScale := fit }
          | none => w.state
        let finalScale := Double.mul (Double.mul st1.baseScale st1.zoomLevel) renderScale
        let viewport := Double.getViewport page finalScale
        match w.dom.canvas with
        | none => { w with state := st1 }
        | some canvas =>
          let displayWidth := Double.div viewport.width renderScale
          let displayHeight := Double.div viewport.height renderScale
          let canvas1 : Canvas :=
            { canvas with width := viewport.width, height := viewport.height,
                          styleWidth := displayWidth, styleHeight := displayHeight }
          let w1 : World := { state := st1, dom := { w.dom with canvas := some canvas1 } }
          if env.renderOk = false then w1
          else
            updateCanvasCursor
              (applyPanTransform (Double.drawSelections (Double.setupDrawingLayer w1)))

/-- The function `renderPage`, in doubles. -/
def Double.renderPage (env : RenderEnv) (w : World) : World :=
  Double.renderPageAt RENDER_SCALE env w

/-- The rectangle requested for one selection on a page of the given height, in
doubles. -/
def Double.rectRequest (index : Int) (height : JSNum) (sel : Selection) : RectRequest :=
  let pdfY := Double.sub (Double.sub height sel.y) sel.height
  { pageIndex := index, x := sel.x, y := pdfY, width := sel.width, height := sel.height }

/-- A page of A4 size: the doubles `595.276` and `841.89`. -/
def a4Page : PageDim :=
  { width := Double.rnd (fin (595276 / 1000)), height := Double.rnd (fin (84189 / 100)) }

/-- A one-page document of A4 size. -/
def a4Doc : PdfDoc := { pages := [a4Page] }

/-- The world in which `a4Doc` is loaded, in a wrapper of the given client size and at
the given zoom level, before the page is rendered. -/
def a4World (clientWidth clientHeight : Nat) (zoomLevel : ℚ) : World :=
  { state := { initialState with
      pdfFile := some "a4.pdf", pdfDoc := some a4Doc, totalPages := 1,
      zoomLevel := fin zoomLevel,
      pageDimensions := [(1, Double.getViewport a4Page (fin 1))] },
    dom := { sampleDom with
      wrapper := some { clientWidth := clientWidth, clientHeight := clientHeight } } }

/-- The gesture from display point (1, 1) to (21, 21) drawn on `sampleWorld` (page
600 x 800 shown at 300 x 400), in doubles. -/
def doubleCommitted : World :=
  Double.handleDrawEnd
    (Double.handleDrawStart sampleWorld { button := 0, clientX := 41, clientY := 41 }
      { left := 40, top := 40 })
    { button := 0, clientX := 61, clientY := 61 } { left := 40, top := 40 } "s1"

/-- The A4 page rendered in a wrapper of 380 x 480 at zoom level 1.0, in doubles. -/
def a4Rendered : World :=
  Double.renderPage { getPageOk := true, renderOk := true } (a4World 380 480 1)

/-- The gesture from display point `(0, y0)` to `(100, y1)` drawn on `a4Rendered`, in
doubles. -/
def a4Committed (y0 y1 : ℚ) : World :=
  Double.handleDrawEnd
    (Double.handleDrawStart a4Rendered { button := 0, clientX := 40, clientY := 40 + y0 }
      { left := 40, top := 40 })
    { button := 0, clientX := 140, clientY := 40 + y1 } { left := 40, top := 40 } "s1"

/-! ## Stages and sessions -/

/-- The two stages of the feature, of which `showUploadStage` and `showRedactStage` show
one. -/
inductive Stage where
  | upload
  | redact
  deriving DecidableEq

/-- Whether `handleFile` gets as far as its call of `showRedactStage`: the file is
valid and read, the renderer is there, the document is parsed and the size of every
page is cached. -/
def reachesRedactStage (env : LoadEnv) (w : World) : Bool :=
  env.valid && env.readOk && env.pdfjsLoaded &&
    match env.doc with
    | none => false
    | some doc =>
      (cachePageDimensions doc env.failAt (List.range' 1 doc.pages.length)
        w.state.pageDimensions).2

/-- The stage shown after an operation: a load that reaches `showRedactStage` shows the
redact stage; the handlers that run `resetState` (back to upload, redact more) call
`showUploadStage`, as `init` does; no other operation switches the stage. -/
def Stage.after (stage : Stage) (w : World) : Op → Stage
  | Op.load env => if reachesRedactStage env w then Stage.redact else stage
  | Op.reset => Stage.upload
  | _ => stage

/-- Whether an operation can start while the stage is shown: `handleFile` is bound to
the file input and the drop area of the upload stage; `resetState`, a resize of the
window and the pointer handlers bound to `document` are there whatever is shown; every
other handler is bound to an element of the redact stage. -/
def Stage.offers : Stage → Op → Bool
  | _, Op.reset => true
  | _, Op.resize _ _ => true
  | _, Op.panMove _ => true
  | _, Op.panUp => true
  | Stage.upload, Op.load _ => true
  | Stage.upload, _ => false
  | Stage.redact, Op.load _ => false
  | Stage.redact, _ => true

/-- Whether a sequence of operations is a session of the feature: each operation is
offered by the stage shown when it starts. -/
def session : Stage → World → List Op → Bool
  | _, _, [] => true
  | stage, w, op :: ops => stage.offers op && session (stage.after w op) (step w op) ops

/-- A three-page document. -/
def threePageDoc : PdfDoc :=
  { pages := [{ width := fin 600, height := fin 800 }, { width := fin 800, height := fin 600 },
              { width := fin 500, height := fin 700 }] }

/-- The session in which `twoPageDoc` is loaded and a selection stored on its page 2,
the feature goes back to the upload stage, a load of `threePageDoc` fails at
`getPage(3)`, and the one-page `sampleDoc` is loaded with success. -/
def reloadOps : List Op :=
  twoPageOps ++
    [Op.reset,
     Op.load { sampleLoad with doc := some threePageDoc, failAt := some 3 },
     Op.load sampleLoad]

/-- The session `twoPageOps` followed by a second gesture on page 2, from display point
(10, 10) to (60, 70), that commits with the id `s2`, and a visit to page 1. -/
def twoCommitOps : List Op :=
  twoPageOps ++
    [Op.drawStart { button := 0, clientX := 50, clientY := 50 } { left := 40, top := 40 },
     Op.drawEnd { button := 0, clientX := 100, clientY := 110 } { left := 40, top := 40 } "s2",
     Op.goToPage { getPageOk := true, renderOk := true } 1]

/-! # Theorems -/

/-! ## Arithmetic on finite numbers -/

@[simp] theorem JSNum.fin_add_fin (a b : ℚ) : fin a + fin b = fin (a + b) := rfl

@[simp] theorem JSNum.fin_sub_fin (a b : ℚ) : fin a - fin b = fin (a - b) := by
  show JSNum.add (fin a) (JSNum.neg (fin b)) = fin (a - b)
  simp [JSNum.add, JSNum.neg, sub_eq_add_neg]

@[simp] theorem JSNum.fin_mul_fin (a b : ℚ) : fin a * fin b = fin (a * b) := rfl

theorem JSNum.fin_div_fin (a b : ℚ) (h : b ≠ 0) : fin a / fin b = fin (a / b) := by
  show JSNum.div (fin a) (fin b) = fin (a / b)
  simp [JSNum.div, h]

theorem JSNum.fin_div_zero_of_pos (a : ℚ) (h : 0 < a) : fin a / fin 0 = inf false := by
  show JSNum.div (fin a) (fin 0) = inf false
  simp [JSNum.div, h.ne', not_lt.mpr h.le]

theorem JSNum.inf_mul_fin_of_pos (s : Bool) (b : ℚ) (h : 0 < b) : inf s * fin b = inf s := by
  show JSNum.mul (inf s) (fin b) = inf s
  simp [JSNum.mul, h.ne', not_lt.mpr h.le]

theorem JSNum.inf_sub_inf (s : Bool) : inf s - inf s = nan := by
  show JSNum.add (inf s) (JSNum.neg (inf s)) = nan
  cases s <;> simp [JSNum.add, JSNum.neg]

@[simp] theorem JSNum.min2_fin (a b : ℚ) : min2 (fin a) (fin b) = fin (min a b) := by
  unfold min2
  simp only [JSNum.lt]
  by_cases h : b < a
  · simp [h, min_eq_right (le_of_lt h)]
  · simp [h, min_eq_left (not_lt.mp h)]

@[simp] theorem JSNum.max2_fin (a b : ℚ) : max2 (fin a) (fin b) = fin (max a b) := by
  unfold max2
  simp only [JSNum.lt]
  by_cases h : a < b
  · simp [h, max_eq_right (le_of_lt h)]
  · simp [h, max_eq_left (not_lt.mp h)]

@[simp] theorem JSNum.abs_fin (a : ℚ) : JSNum.abs (fin a) = fin |a| := rfl

@[simp] theorem JSNum.gt_fin (a b : ℚ) : gt (fin a) (fin b) = decide (b < a) := rfl

@[simp] theorem JSNum.lt_fin (a b : ℚ) : lt (fin a) (fin b) = decide (a < b) := rfl

@[simp] theorem JSNum.le_fin (a b : ℚ) : le (fin a) (fin b) = decide (a ≤ b) := rfl

/-! ## Coordinate conversion -/

/-- With a geometry entry and a canvas, `displayToOriginal` scales by page size over
display size. -/
theorem displayToOriginal_fin (w : World) (c : Canvas) (W H Dw Dh px py : ℚ)
    (hdim : pageDimAt w.state.pageDimensions w.state.currentPage
      = some { width := fin W, height := fin H })
    (hcanvas : w.dom.canvas = some c)
    (hcw : c.styleWidth = fin Dw) (hch : c.styleHeight = fin Dh)
    (hDw : Dw ≠ 0) (hDh : Dh ≠ 0) :
    displayToOriginal w (fin px) (fin py)
      = { x := fin (px / Dw * W), y := fin (py / Dh * H) } := by
  simp [displayToOriginal, hdim, hcanvas, hcw, hch, JSNum.fin_div_fin, hDw, hDh]

/-- With a geometry entry and a canvas, `originalToDisplay` scales by display size over
page size. -/
theorem originalToDisplay_fin (w : World) (c : Canvas) (W H Dw Dh px py : ℚ)
    (hdim : pageDimAt w.state.pageDimensions w.state.currentPage
      = some { width := fin W, height := fin H })
    (hcanvas : w.dom.canvas = some c)
    (hcw : c.styleWidth = fin Dw) (hch : c.styleHeight = fin Dh)
    (hW : W ≠ 0) (hH : H ≠ 0) :
    originalToDisplay w (fin px) (fin py)
      = { x := fin (px / W * Dw), y := fin (py / H * Dh) } := by
  simp [originalToDisplay, hdim, hcanvas, hcw, hch, JSNum.fin_div_fin, hW, hH]

/-- C1. Round trip display -> PDF -> display: on a page with a geometry entry of
positive intrinsic size `(W, H)`, shown at positive display size `(Dw, Dh)`, every
display point `p` with `0 <= p.x <= Dw` and `0 <= p.y <= Dh` is mapped back to itself
by `originalToDisplay` after `displayToOriginal`. -/
theorem roundTrip_display_pdf_display (w : World) (c : Canvas) (W H Dw Dh px py : ℚ)
    (hdim : pageDimAt w.state.pageDimensions w.state.currentPage
      = some { width := fin W, height := fin H })
    (hcanvas : w.dom.canvas = some c)
    (hcw : c.styleWidth = fin Dw) (hch : c.styleHeight = fin Dh)
    (hW : 0 < W) (hH : 0 < H) (hDw : 0 < Dw) (hDh : 0 < Dh)
    (_hx : 0 ≤ px ∧ px ≤ Dw) (_hy : 0 ≤ py ∧ py ≤ Dh) :
    originalToDisplay w (displayToOriginal w (fin px) (fin py)).x
        (displayToOriginal w (fin px) (fin py)).y
      = { x := fin px, y := fin py } := by
  rw [displayToOriginal_fin w c W H Dw Dh px py hdim hcanvas hcw hch hDw.ne' hDh.ne']
  rw [originalToDisplay_fin w c W H Dw Dh _ _ hdim hcanvas hcw hch hW.ne' hH.ne']
  have h1 : px / Dw * W / W * Dw = px := by field_simp; ring
  have h2 : py / Dh * H / H * Dh = py := by field_simp; ring
  rw [h1, h2]

/-- Witness of C1: page 600 x 800 shown at 300 x 400, display point (100, 160). -/
theorem roundTrip_display_pdf_display_witness :
    originalToDisplay sampleWorld (displayToOriginal sampleWorld (fin 100) (fin 160)).x
        (displayToOriginal sampleWorld (fin 100) (fin 160)).y
      = { x := fin 100, y := fin 160 } :=
  roundTrip_display_pdf_display sampleWorld _ 600 800 300 400 100 160 rfl rfl rfl rfl
    (by norm_num) (by norm_num) (by norm_num) (by norm_num)
    (by norm_num) (by norm_num)

/-! ## Frame lemmas of the overlay and the list -/

/-- `drawSelections` writes nothing but the overlay. -/
theorem drawSelections_frame (w : World) :
    ∃ o, drawSelections w = { state := w.state, dom := { w.dom with overlay := o } } ∧
      o.isSome = w.dom.overlay.isSome := by
  rcases w with ⟨st, ⟨wr, cv, ov, dl, rl⟩⟩
  cases ov <;> cases wr <;> cases cv <;> simp [drawSelections]

/-- `renderSelectionList` writes nothing but the list. -/
theorem renderSelectionList_frame (w : World) :
    ∃ l, renderSelectionList w = { state := w.state, dom := { w.dom with redactionList := l } } := by
  rcases w with ⟨st, ⟨wr, cv, ov, dl, rl⟩⟩
  cases rl <;> simp [renderSelectionList]

theorem drawSelections_state (w : World) : (drawSelections w).state = w.state := by
  obtain ⟨o, h, _⟩ := drawSelections_frame w
  rw [h]

theorem renderSelectionList_state (w : World) : (renderSelectionList w).state = w.state := by
  obtain ⟨l, h⟩ := renderSelectionList_frame w
  rw [h]

theorem drawSelections_canvas (w : World) : (drawSelections w).dom.canvas = w.dom.canvas := by
  obtain ⟨o, h, _⟩ := drawSelections_frame w
  rw [h]

theorem drawSelections_drawingLayer (w : World) :
    (drawSelections w).dom.drawingLayer = w.dom.drawingLayer := by
  obtain ⟨o, h, _⟩ := drawSelections_frame w
  rw [h]

theorem drawSelections_wrapper (w : World) : (drawSelections w).dom.wrapper = w.dom.wrapper := by
  obtain ⟨o, h, _⟩ := drawSelections_frame w
  rw [h]

theorem renderSelectionList_canvas (w : World) :
    (renderSelectionList w).dom.canvas = w.dom.canvas := by
  obtain ⟨l, h⟩ := renderSelectionList_frame w
  rw [h]

theorem renderSelectionList_drawingLayer (w : World) :
    (renderSelectionList w).dom.drawingLayer = w.dom.drawingLayer := by
  obtain ⟨l, h⟩ := renderSelectionList_frame w
  rw [h]

theorem renderSelectionList_wrapper (w : World) :
    (renderSelectionList w).dom.wrapper = w.dom.wrapper := by
  obtain ⟨l, h⟩ := renderSelectionList_frame w
  rw [h]

theorem renderSelectionList_overlay (w : World) :
    (renderSelectionList w).dom.overlay = w.dom.overlay := by
  obtain ⟨l, h⟩ := renderSelectionList_frame w
  rw [h]

/-- The store after `addSelection`: the old store followed by the new selection. -/
theorem addSelection_selections (w : World) (left top width height : JSNum) (newId : String) :
    (addSelection w left top width height newId).state.selections
      = w.state.selections ++
        [{ id := newId, page := w.state.currentPage,
           x := (displayToOriginal w left top).x, y := (displayToOriginal w left top).y,
           width := (displayToOriginal w (left + width) (top + height)).x
             - (displayToOriginal w left top).x,
           height := (displayToOriginal w (left + width) (top + height)).y
             - (displayToOriginal w left top).y }] := by
  unfold addSelection
  simp only [renderSelectionList_state, drawSelections_state]

/-! ## Draw gestures -/

/-- A pointer-move changes nothing but the preview rectangle. -/
theorem handleDrawMove_frame (w : World) (e : MouseEv) (rect : ClientRect) :
    (∃ r, (handleDrawMove w e rect).state = { w.state with currentRect := r }) ∧
    (∃ l, (handleDrawMove w e rect).dom = { w.dom with drawingLayer := l } ∧
      l.isSome = w.dom.drawingLayer.isSome) := by
  unfold handleDrawMove
  split
  · split
    · exact ⟨⟨_, rfl⟩, ⟨_, rfl, by simp [*]⟩⟩
    · rename_i layer hl
      simp only [drawCurrentSelection, hl]
      exact ⟨⟨_, rfl⟩, ⟨_, rfl, by simp⟩⟩
  · exact ⟨⟨_, rfl⟩, ⟨_, rfl, rfl⟩⟩

/-- Any number of pointer-moves change nothing but the preview rectangle. -/
theorem drawMoves_frame (moves : List (MouseEv × ClientRect)) (w : World) :
    (∃ r, (moves.foldl (fun v m => handleDrawMove v m.1 m.2) w).state
        = { w.state with currentRect := r }) ∧
    (∃ l, (moves.foldl (fun v m => handleDrawMove v m.1 m.2) w).dom
        = { w.dom with drawingLayer := l } ∧ l.isSome = w.dom.drawingLayer.isSome) := by
  induction moves generalizing w with
  | nil => exact ⟨⟨_, rfl⟩, ⟨_, rfl, rfl⟩⟩
  | cons m rest ih =>
    obtain ⟨⟨r1, h1⟩, ⟨l1, h2, h3⟩⟩ := handleDrawMove_frame w m.1 m.2
    obtain ⟨⟨r2, h4⟩, ⟨l2, h5, h6⟩⟩ := ih (handleDrawMove w m.1 m.2)
    refine ⟨⟨r2, ?_⟩, ⟨l2, ?_, ?_⟩⟩
    · rw [List.foldl_cons, h4, h1]
    · rw [List.foldl_cons, h5, h2]
    · rw [h6, h2, h3]

/-- A pointer-up that ends a gesture on an existing layer: the store is extended when
both sides exceed 10 pixels and kept otherwise. -/
theorem handleDrawEnd_selections (w : World) (e : MouseEv) (rect : ClientRect)
    (newId : String) (x0 y0 : ℚ) (layer : DrawLayer)
    (hdraw : w.state.isDrawing = true)
    (hstart : w.state.drawStart = some { x := fin x0, y := fin y0 })
    (hlayer : w.dom.drawingLayer = some layer) :
    (handleDrawEnd w e rect newId).state.selections
      = if 10 < |e.clientX - rect.left - x0| ∧ 10 < |e.clientY - rect.top - y0| then
          (addSelection w (fin (min x0 (e.clientX - rect.left)))
            (fin (min y0 (e.clientY - rect.top)))
            (fin |e.clientX - rect.left - x0|) (fin |e.clientY - rect.top - y0|)
            newId).state.selections
        else w.state.selections := by
  unfold handleDrawEnd
  simp only [hdraw, hstart, hlayer]
  by_cases h : 10 < |e.clientX - rect.left - x0| ∧ 10 < |e.clientY - rect.top - y0|
  · simp [h]
  · simp only [h, if_false]
    rw [not_and_or] at h
    rcases h with h | h <;> simp [h]

/-- The committed selection in closed form: on a page of size `(W, H)` shown at a
non-zero display size `(Dw, Dh)`, `addSelection` stores the display rectangle scaled by
`W / Dw` and `H / Dh`. -/
theorem addSelection_fin (w : World) (c : Canvas) (W H Dw Dh left top width height : ℚ)
    (newId : String)
    (hdim : pageDimAt w.state.pageDimensions w.state.currentPage
      = some { width := fin W, height := fin H })
    (hcanvas : w.dom.canvas = some c)
    (hcw : c.styleWidth = fin Dw) (hch : c.styleHeight = fin Dh)
    (hDw : Dw ≠ 0) (hDh : Dh ≠ 0) :
    (addSelection w (fin left) (fin top) (fin width) (fin height) newId).state.selections
      = w.state.selections ++
        [{ id := newId, page := w.state.currentPage,
           x := fin (left * W / Dw), y := fin (top * H / Dh),
           width := fin (width * W / Dw), height := fin (height * H / Dh) }] := by
  rw [addSelection_selections]
  simp only [JSNum.fin_add_fin]
  rw [displayToOriginal_fin w c W H Dw Dh left top hdim hcanvas hcw hch hDw hDh,
    displayToOriginal_fin w c W H Dw Dh _ _ hdim hcanvas hcw hch hDw hDh]
  simp only [JSNum.fin_sub_fin]
  congr 3
  · congr 1; field_simp
  · congr 1; field_simp
  · congr 1; field_simp; ring
  · congr 1; field_simp; ring

/-- A primary-button pointer-down on an existing layer while no pan gesture runs starts
a gesture at the surface-local point and changes nothing else. -/
theorem handleDrawStart_begin (w : World) (e : MouseEv) (rect : ClientRect)
    (layer : DrawLayer) (hbutton : e.button = 0) (hpan : w.state.isPanning = false)
    (hlayer : w.dom.drawingLayer = some layer) :
    handleDrawStart w e rect
      = { w with state := { w.state with
            isDrawing := true,
            drawStart := some { x := fin (e.clientX - rect.left),
                                y := fin (e.clientY - rect.top) } } } := by
  simp [handleDrawStart, hbutton, hpan, hlayer]

/-- The world a gesture is in when the pointer is released: drawing, with the start
point recorded, on an existing layer, and otherwise as before pointer-down. -/
theorem drawGesture_before_up (w : World) (down : MouseEv) (rdown : ClientRect)
    (moves : List (MouseEv × ClientRect)) (layer : DrawLayer)
    (hbutton : down.button = 0) (hpan : w.state.isPanning = false)
    (hlayer : w.dom.drawingLayer = some layer) :
    ∃ r l layer1,
      moves.foldl (fun v m => handleDrawMove v m.1 m.2) (handleDrawStart w down rdown)
        = { state := { w.state with
              isDrawing := true,
              drawStart := some { x := fin (down.clientX - rdown.left),
                                  y := fin (down.clientY - rdown.top) },
              currentRect := r },
            dom := { w.dom with drawingLayer := l } } ∧ l = some layer1 := by
  obtain ⟨⟨r, h1⟩, ⟨l, h2, h3⟩⟩ := drawMoves_frame moves (handleDrawStart w down rdown)
  rw [handleDrawStart_begin w down rdown layer hbutton hpan hlayer] at h1 h2 h3
  simp only [hlayer, Option.isSome_some] at h3
  obtain ⟨layer1, hl⟩ := Option.isSome_iff_exists.mp h3
  refine ⟨r, l, layer1, ?_, hl⟩
  have eta : ∀ v : World, v = { state := v.state, dom := v.dom } := fun _ => rfl
  rw [handleDrawStart_begin w down rdown layer hbutton hpan hlayer]
  refine (eta _).trans ?_
  rw [h1, h2]

/-- C2, as amended.  Commit mapping, in exact arithmetic (which stands in for the
floating-point tolerance): a gesture from display point `(x0, y0)` to `(x1, y1)` whose
normalized width `|x1 - x0|` and height `|y1 - y0|` both exceed 10, on a current page
of intrinsic size `(W, H)` shown at positive display size `(Dw, Dh)`, appends exactly
one selection: on the current page, at `x = min(x0,x1) * W / Dw`,
`y = min(y0,y1) * H / Dh`, of width `|x1 - x0| * W / Dw` and height
`|y1 - y0| * H / Dh`; width and height are the differences of the two corners mapped
one by one through `displayToOriginal`. -/
theorem commit_mapping (w : World) (c : Canvas) (layer : DrawLayer)
    (W H Dw Dh x0 y0 x1 y1 : ℚ)
    (down : MouseEv) (rdown : ClientRect) (moves : List (MouseEv × ClientRect))
    (up : MouseEv) (rup : ClientRect) (newId : String)
    (hdim : pageDimAt w.state.pageDimensions w.state.currentPage
      = some { width := fin W, height := fin H })
    (hcanvas : w.dom.canvas = some c)
    (hcw : c.styleWidth = fin Dw) (hch : c.styleHeight = fin Dh)
    (hDw : 0 < Dw) (hDh : 0 < Dh)
    (hbutton : down.button = 0) (hpan : w.state.isPanning = false)
    (hlayer : w.dom.drawingLayer = some layer)
    (hx0 : down.clientX - rdown.left = x0) (hy0 : down.clientY - rdown.top = y0)
    (hx1 : up.clientX - rup.left = x1) (hy1 : up.clientY - rup.top = y1)
    (hwidth : 10 < |x1 - x0|) (hheight : 10 < |y1 - y0|) :
    (drawGesture w down rdown moves up rup newId).state.selections
      = w.state.selections ++
        [{ id := newId, page := w.state.currentPage,
           x := fin (min x0 x1 * W / Dw), y := fin (min y0 y1 * H / Dh),
           width := fin (|x1 - x0| * W / Dw), height := fin (|y1 - y0| * H / Dh) }]
    ∧ fin (|x1 - x0| * W / Dw)
        = (displayToOriginal w (fin (min x0 x1) + fin |x1 - x0|)
            (fin (min y0 y1) + fin |y1 - y0|)).x
          - (displayToOriginal w (fin (min x0 x1)) (fin (min y0 y1))).x
    ∧ fin (|y1 - y0| * H / Dh)
        = (displayToOriginal w (fin (min x0 x1) + fin |x1 - x0|)
            (fin (min y0 y1) + fin |y1 - y0|)).y
          - (displayToOriginal w (fin (min x0 x1)) (fin (min y0 y1))).y := by
  obtain ⟨r, l, layer1, hv, hl⟩ :=
    drawGesture_before_up w down rdown moves layer hbutton hpan hlayer
  refine ⟨?_, ?_, ?_⟩
  · unfold drawGesture
    rw [hv, hx0, hy0]
    rw [handleDrawEnd_selections _ up rup newId x0 y0 layer1 rfl rfl (by simp [hl])]
    rw [hx1, hy1, if_pos ⟨hwidth, hheight⟩]
    rw [addSelection_fin _ c W H Dw Dh _ _ _ _ newId (by simpa using hdim)
      (by simpa using hcanvas) hcw hch hDw.ne' hDh.ne']
  · simp only [JSNum.fin_add_fin]
    rw [displayToOriginal_fin w c W H Dw Dh _ _ hdim hcanvas hcw hch hDw.ne' hDh.ne',
      displayToOriginal_fin w c W H Dw Dh _ _ hdim hcanvas hcw hch hDw.ne' hDh.ne']
    simp only [JSNum.fin_sub_fin]
    congr 1; field_simp; ring
  · simp only [JSNum.fin_add_fin]
    rw [displayToOriginal_fin w c W H Dw Dh _ _ hdim hcanvas hcw hch hDw.ne' hDh.ne',
      displayToOriginal_fin w c W H Dw Dh _ _ hdim hcanvas hcw hch hDw.ne' hDh.ne']
    simp only [JSNum.fin_sub_fin]
    congr 1; field_simp; ring

/-- Witness of C2: page 600 x 800 shown at 300 x 400; the gesture from display point
(100, 100) to (150, 160), with one pointer-move in between, commits
`{ x: 200, y: 200, width: 100, height: 120 }` on page 1. -/
theorem commit_mapping_witness :
    (drawGesture sampleWorld { button := 0, clientX := 450, clientY := 350 }
        { left := 350, top := 250 }
        [({ button := 0, clientX := 470, clientY := 380 }, { left := 350, top := 250 })]
        { button := 0, clientX := 500, clientY := 410 } { left := 350, top := 250 }
        "s1").state.selections
      = [{ id := "s1", page := 1, x := fin 200, y := fin 200,
           width := fin 100, height := fin 120 }] := by
  have h := (commit_mapping sampleWorld _ _ 600 800 300 400 100 100 150 160
    { button := 0, clientX := 450, clientY := 350 } { left := 350, top := 250 }
    [({ button := 0, clientX := 470, clientY := 380 }, { left := 350, top := 250 })]
    { button := 0, clientX := 500, clientY := 410 } { left := 350, top := 250 } "s1"
    rfl rfl rfl rfl (by norm_num) (by norm_num) rfl rfl rfl
    (by norm_num) (by norm_num) (by norm_num) (by norm_num)
    (by norm_num) (by norm_num)).1
  rw [h]
  norm_num [sampleWorld, initialState]

/-! ## Re-display -/

/-- With overlay, wrapper and canvas in place, `drawSelections` fills the overlay with
one rectangle per stored selection of the current page, in store order. -/
theorem drawSelections_children (w : World) (ov : Overlay) (wr : Wrapper) (c : Canvas)
    (hov : w.dom.overlay = some ov) (hwr : w.dom.wrapper = some wr)
    (hc : w.dom.canvas = some c) :
    ∃ ov2, (drawSelections w).dom.overlay = some ov2 ∧
      ov2.children
        = (pageSelections w.state.selections w.state.currentPage).map (selectionDiv w) := by
  simp [drawSelections, hov, hwr, hc]

/-- The rectangle drawn for a selection stored as a display rectangle scaled by
`W / Dw` and `H / Dh`, on a page of non-zero size `(W, H)` shown at `(Dw2, Dh2)`. -/
theorem selectionDiv_fin (w2 : World) (c2 : Canvas) (W H Dw Dh Dw2 Dh2 : ℚ)
    (left top width height : ℚ) (newId : String) (pageNum : Nat)
    (hdim : pageDimAt w2.state.pageDimensions w2.state.currentPage
      = some { width := fin W, height := fin H })
    (hcanvas : w2.dom.canvas = some c2)
    (hcw : c2.styleWidth = fin Dw2) (hch : c2.styleHeight = fin Dh2)
    (hW : W ≠ 0) (hH : H ≠ 0) (hDw : Dw ≠ 0) (hDh : Dh ≠ 0) :
    selectionDiv w2
        { id := newId, page := pageNum,
          x := fin (left * W / Dw), y := fin (top * H / Dh),
          width := fin (width * W / Dw), height := fin (height * H / Dh) }
      = { id := newId, left := fin (left * Dw2 / Dw), top := fin (top * Dh2 / Dh),
          width := fin (width * Dw2 / Dw), height := fin (height * Dh2 / Dh) } := by
  unfold selectionDiv
  simp only [JSNum.fin_add_fin]
  rw [originalToDisplay_fin w2 c2 W H Dw2 Dh2 _ _ hdim hcanvas hcw hch hW hH,
    originalToDisplay_fin w2 c2 W H Dw2 Dh2 _ _ hdim hcanvas hcw hch hW hH]
  simp only [JSNum.fin_sub_fin]
  congr 2
  · field_simp; ring
  · field_simp; ring
  · field_simp; ring
  · field_simp; ring

/-- C3, as amended.  Lossless re-display, in exact arithmetic (which stands in for the
floating-point tolerance): a display rectangle `(left, top, width, height)` committed
by `addSelection` at positive display size `(Dw, Dh)` on a page of positive intrinsic
size is placed by `drawSelections`, at any later positive display size `(Dw2, Dh2)` on
that page, at `left * Dw2 / Dw`, `top * Dh2 / Dh` with size `width * Dw2 / Dw` by
`height * Dh2 / Dh`; at the same display size it is redrawn at exactly the rectangle
the user drew. -/
theorem lossless_redisplay (w w2 : World) (c c2 : Canvas) (ov : Overlay) (wr : Wrapper)
    (W H Dw Dh Dw2 Dh2 left top width height : ℚ) (newId : String) (sel : Selection)
    (hdim : pageDimAt w.state.pageDimensions w.state.currentPage
      = some { width := fin W, height := fin H })
    (hcanvas : w.dom.canvas = some c)
    (hcw : c.styleWidth = fin Dw) (hch : c.styleHeight = fin Dh)
    (hW : 0 < W) (hH : 0 < H) (hDw : 0 < Dw) (hDh : 0 < Dh)
    (hsel : (addSelection w (fin left) (fin top) (fin width) (fin height) newId).state.selections
      = w.state.selections ++ [sel])
    (hstored : sel ∈ w2.state.selections)
    (hpage : w2.state.currentPage = w.state.currentPage)
    (hdim2 : pageDimAt w2.state.pageDimensions w2.state.currentPage
      = some { width := fin W, height := fin H })
    (hcanvas2 : w2.dom.canvas = some c2)
    (hcw2 : c2.styleWidth = fin Dw2) (hch2 : c2.styleHeight = fin Dh2)
    (_hDw2 : 0 < Dw2) (_hDh2 : 0 < Dh2)
    (hov : w2.dom.overlay = some ov) (hwr : w2.dom.wrapper = some wr) :
    ∃ ov2, (drawSelections w2).dom.overlay = some ov2 ∧
      ({ id := newId, left := fin (left * Dw2 / Dw), top := fin (top * Dh2 / Dh),
         width := fin (width * Dw2 / Dw), height := fin (height * Dh2 / Dh) } : SelDiv)
        ∈ ov2.children ∧
      (Dw2 = Dw → Dh2 = Dh →
        ({ id := newId, left := fin left, top := fin top,
           width := fin width, height := fin height } : SelDiv) ∈ ov2.children) := by
  rw [addSelection_fin w c W H Dw Dh left top width height newId hdim hcanvas hcw hch
    hDw.ne' hDh.ne'] at hsel
  have hsel2 := List.append_cancel_left hsel
  simp only [List.cons.injEq, and_true] at hsel2
  obtain ⟨ov2, h1, h2⟩ := drawSelections_children w2 ov wr c2 hov hwr hcanvas2
  have hmem : selectionDiv w2 sel ∈ ov2.children := by
    rw [h2]
    refine List.mem_map_of_mem _ ?_
    unfold pageSelections
    rw [List.mem_filter]
    refine ⟨hstored, ?_⟩
    rw [← hsel2, hpage]
    simp
  rw [← hsel2, selectionDiv_fin w2 c2 W H Dw Dh Dw2 Dh2 left top width height newId _
    hdim2 hcanvas2 hcw2 hch2 hW.ne' hH.ne' hDw.ne' hDh.ne'] at hmem
  refine ⟨ov2, h1, hmem, ?_⟩
  intro e1 e2
  subst e1 e2
  have a1 : left * Dw2 / Dw2 = left := by field_simp
  have a2 : top * Dh2 / Dh2 = top := by field_simp
  have a3 : width * Dw2 / Dw2 = width := by field_simp
  have a4 : height * Dh2 / Dh2 = height := by field_simp
  rw [a1, a2, a3, a4] at hmem
  exact hmem

/-! ## Frame lemmas of the render coordinator -/

/-- The sample world is the initial world after loading the sample document. -/
theorem sampleWorld_loaded : handleFile sampleLoad (initialWorld sampleDom) = sampleWorld := by
  simp [handleFile, sampleLoad, initialWorld, sampleDom, sampleWorld, initialState, sampleDoc,
    cachePageDimensions, getPage, getViewport, setPageDim, renderAllThumbnails, renderPage,
    setupDrawingLayer, drawSelections, applyPanTransform, updateCanvasCursor, pageSelections,
    RENDER_SCALE, JSNum.fin_div_fin, List.range']
  norm_num

theorem setupDrawingLayer_state (w : World) : (setupDrawingLayer w).state = w.state := by
  unfold setupDrawingLayer
  split <;> rfl

theorem applyPanTransform_state (w : World) : (applyPanTransform w).state = w.state := rfl

theorem updateCanvasCursor_state (w : World) : (updateCanvasCursor w).state = w.state := by
  unfold updateCanvasCursor
  split <;> rfl

/-- `renderPage` writes no field of the module state but `baseScale`. -/
theorem renderPage_state (env : RenderEnv) (w : World) :
    ∃ b, (renderPage env w).state = { w.state with baseScale := b } := by
  unfold renderPage
  repeat' split
  all_goals first
    | exact ⟨_, rfl⟩
    | (simp only [updateCanvasCursor_state, applyPanTransform_state,
        drawSelections_state, setupDrawingLayer_state]
       exact ⟨_, rfl⟩)

theorem renderPage_selections (env : RenderEnv) (w : World) :
    (renderPage env w).state.selections = w.state.selections := by
  obtain ⟨b, h⟩ := renderPage_state env w
  rw [h]

/-! ## End of a gesture -/

/-- The controller is idle: not drawing, no start point, no preview rectangle. -/
theorem handleDrawEnd_idle (w : World) (e : MouseEv) (rect : ClientRect) (newId : String)
    (p0 : Point) (layer : DrawLayer)
    (hdraw : w.state.isDrawing = true) (hstart : w.state.drawStart = some p0)
    (hlayer : w.dom.drawingLayer = some layer) :
    (handleDrawEnd w e rect newId).state.isDrawing = false ∧
    (handleDrawEnd w e rect newId).state.drawStart = none ∧
    (handleDrawEnd w e rect newId).state.currentRect = none := by
  unfold handleDrawEnd
  simp [hdraw, hstart, hlayer]

/-- Pointer-leave during a gesture: the store is kept and the controller is idle. -/
theorem handleDrawCancel_drawing (w : World) (hdraw : w.state.isDrawing = true) :
    (handleDrawCancel w).state.selections = w.state.selections ∧
    (handleDrawCancel w).state.isDrawing = false ∧
    (handleDrawCancel w).state.drawStart = none ∧
    (handleDrawCancel w).state.currentRect = none := by
  unfold handleDrawCancel
  simp [hdraw]

/-- C4. A gesture commits if and only if it ends with pointer-up and its normalized
width and height are both greater than 10 display pixels: pointer-up extends the store
by one selection when both exceed 10 and leaves it unchanged when the width or the
height is at most 10; pointer-leave leaves the store unchanged whatever the size; in
every case the controller is idle afterwards (`isDrawing` false, `drawStart` and
`currentRect` null).  The handlers are total, so no error is raised. -/
theorem commit_iff_large_pointer_up (w : World) (layer : DrawLayer)
    (down : MouseEv) (rdown : ClientRect) (moves : List (MouseEv × ClientRect))
    (up : MouseEv) (rup : ClientRect) (newId : String)
    (hbutton : down.button = 0) (hpan : w.state.isPanning = false)
    (hlayer : w.dom.drawingLayer = some layer) :
    ((10 < |up.clientX - rup.left - (down.clientX - rdown.left)| ∧
        10 < |up.clientY - rup.top - (down.clientY - rdown.top)|) →
      ∃ sel, (drawGesture w down rdown moves up rup newId).state.selections
        = w.state.selections ++ [sel]) ∧
    ((|up.clientX - rup.left - (down.clientX - rdown.left)| ≤ 10 ∨
        |up.clientY - rup.top - (down.clientY - rdown.top)| ≤ 10) →
      (drawGesture w down rdown moves up rup newId).state.selections
        = w.state.selections) ∧
    ((drawGesture w down rdown moves up rup newId).state.isDrawing = false ∧
      (drawGesture w down rdown moves up rup newId).state.drawStart = none ∧
      (drawGesture w down rdown moves up rup newId).state.currentRect = none) ∧
    ((handleDrawCancel (moves.foldl (fun v m => handleDrawMove v m.1 m.2)
        (handleDrawStart w down rdown))).state.selections = w.state.selections ∧
      (handleDrawCancel (moves.foldl (fun v m => handleDrawMove v m.1 m.2)
        (handleDrawStart w down rdown))).state.isDrawing = false ∧
      (handleDrawCancel (moves.foldl (fun v m => handleDrawMove v m.1 m.2)
        (handleDrawStart w down rdown))).state.drawStart = none ∧
      (handleDrawCancel (moves.foldl (fun v m => handleDrawMove v m.1 m.2)
        (handleDrawStart w down rdown))).state.currentRect = none) := by
  obtain ⟨r, l, layer1, hv, hl⟩ :=
    drawGesture_before_up w down rdown moves layer hbutton hpan hlayer
  have hsel := handleDrawEnd_selections
    (moves.foldl (fun v m => handleDrawMove v m.1 m.2) (handleDrawStart w down rdown))
    up rup newId (down.clientX - rdown.left) (down.clientY - rdown.top) layer1
    (by rw [hv]) (by rw [hv]) (by rw [hv, hl])
  refine ⟨?_, ?_, ?_, ?_⟩
  · intro hbig
    unfold drawGesture
    rw [hsel, if_pos hbig, addSelection_selections, hv]
    exact ⟨_, rfl⟩
  · intro hsmall
    unfold drawGesture
    have hnot : ¬ (10 < |up.clientX - rup.left - (down.clientX - rdown.left)| ∧
        10 < |up.clientY - rup.top - (down.clientY - rdown.top)|) := by
      rintro ⟨h1, h2⟩
      rcases hsmall with h | h
      · exact absurd h1 (not_lt.mpr h)
      · exact absurd h2 (not_lt.mpr h)
    rw [hsel, if_neg hnot, hv]
  · unfold drawGesture
    exact handleDrawEnd_idle _ up rup newId _ layer1 (by rw [hv]) (by rw [hv]) (by rw [hv, hl])
  · have hc := handleDrawCancel_drawing
      (moves.foldl (fun v m => handleDrawMove v m.1 m.2) (handleDrawStart w down rdown))
      (by rw [hv])
    refine ⟨?_, hc.2⟩
    rw [hc.1, hv]

/-! ## Operations that keep the store -/

theorem zoomIn_selections (env : RenderEnv) (w : World) :
    (zoomIn env w).state.selections = w.state.selections := by
  unfold zoomIn
  split
  · rw [renderPage_selections]
  · rfl

theorem zoomOut_selections (env : RenderEnv) (w : World) :
    (zoomOut env w).state.selections = w.state.selections := by
  unfold zoomOut
  split
  · rw [renderPage_selections]
  · rfl

theorem resetZoom_selections (env : RenderEnv) (w : World) :
    (resetZoom env w).state.selections = w.state.selections := by
  unfold resetZoom
  rw [renderPage_selections]

theorem togglePanTool_selections (w : World) :
    (togglePanTool w).state.selections = w.state.selections := by
  unfold togglePanTool
  rw [updateCanvasCursor_state]

theorem panMouseDown_selections (w : World) (e : MouseEv) :
    (panMouseDown w e).state.selections = w.state.selections := by
  unfold panMouseDown
  split <;> rfl

theorem panMouseMove_selections (w : World) (e : MouseEv) :
    (panMouseMove w e).state.selections = w.state.selections := by
  unfold panMouseMove
  split <;> rfl

theorem panMouseUp_selections (w : World) :
    (panMouseUp w).state.selections = w.state.selections := by
  unfold panMouseUp
  split
  · rw [updateCanvasCursor_state]
  · rfl

theorem goToPage_selections (env : RenderEnv) (w : World) (pageNum : Nat) :
    (goToPage env w pageNum).state.selections = w.state.selections := by
  unfold goToPage
  split
  · rfl
  · rw [renderPage_selections]

/-- A view operation keeps the store. -/
theorem step_viewOp_selections (w : World) (op : Op) (h : op.isViewOp = true) :
    (step w op).state.selections = w.state.selections := by
  cases op <;> simp only [Op.isViewOp, Bool.false_eq_true] at h
  · exact zoomIn_selections _ w
  · exact zoomOut_selections _ w
  · exact resetZoom_selections _ w
  · exact togglePanTool_selections w
  · exact panMouseDown_selections w _
  · exact panMouseMove_selections w _
  · exact panMouseUp_selections w

/-- C5. Scale invariance of persisted selections: whatever the store holds, after any
finite sequence of zoom-in, zoom-out, zoom-reset and pan operations (pan-mode toggle,
pointer-down, pointer-move, pointer-up on the bitmap) the list of selections, and with
it each selection's id, page, x, y, width and height, is what it was before. -/
theorem scale_invariance_of_store (w : World) (ops : List Op)
    (hops : ∀ op ∈ ops, op.isViewOp = true) :
    (run w ops).state.selections = w.state.selections := by
  induction ops generalizing w with
  | nil => rfl
  | cons op rest ih =>
    have h1 := step_viewOp_selections w op (hops op (List.mem_cons_self _ _))
    have h2 := ih (step w op) (fun o ho => hops o (List.mem_cons_of_mem _ ho))
    show (run (step w op) rest).state.selections = w.state.selections
    rw [h2, h1]

/-- Witness of C5: two zoom-ins, a pan gesture, a zoom-out and a zoom-reset on a world
with two stored selections. -/
theorem scale_invariance_of_store_witness :
    (run { sampleWorld with state := { sampleWorld.state with selections := sampleStore } }
      [Op.zoomIn { getPageOk := true, renderOk := true },
       Op.zoomIn { getPageOk := true, renderOk := true },
       Op.panToggle,
       Op.panDown { button := 0, clientX := 100, clientY := 100 },
       Op.panMove { button := 0, clientX := 130, clientY := 90 },
       Op.panUp,
       Op.zoomOut { getPageOk := true, renderOk := false },
       Op.zoomReset { getPageOk := true, renderOk := true }]).state.selections
      = sampleStore :=
  scale_invariance_of_store _ _ (by simp [Op.isViewOp])

/-! ## Witnesses of re-display and of gesture ends -/

theorem sampleCommitted_selections :
    sampleCommitted.state.selections
      = sampleWorld.state.selections ++
        [{ id := "s1", page := 1, x := fin 200, y := fin 200,
           width := fin 100, height := fin 120 }] := by
  unfold sampleCommitted
  rw [addSelection_fin sampleWorld _ 600 800 300 400 100 100 50 60 "s1" rfl rfl rfl rfl
    (by norm_num) (by norm_num)]
  norm_num [sampleWorld, initialState]

theorem sampleZoomed_dom :
    sampleZoomed.state.currentPage = 1 ∧
    sampleZoomed.state.pageDimensions = [(1, { width := fin 600, height := fin 800 })] ∧
    sampleZoomed.dom.wrapper = some { clientWidth := 380, clientHeight := 480 } ∧
    (∃ ov, sampleZoomed.dom.overlay = some ov) ∧
    sampleZoomed.dom.canvas = some
      { width := fin 1125, height := fin 1500, styleWidth := fin 375, styleHeight := fin 500,
        transform := some { x := fin 0, y := fin 0 } } := by
  simp [sampleZoomed, sampleCommitted, zoomIn, addSelection, renderSelectionList, sampleWorld,
    sampleDom, initialState, sampleDoc, getPage, getViewport, renderPage, setupDrawingLayer,
    drawSelections, applyPanTransform, updateCanvasCursor, pageSelections, RENDER_SCALE,
    MAX_ZOOM, ZOOM_STEP, JSNum.fin_div_fin]
  norm_num

/-- Witness of C3: the rectangle (100, 100, 50, 60) committed at display size 300 x 400
is redrawn at (125, 125, 62.5, 75) at display size 375 x 500. -/
theorem lossless_redisplay_witness :
    ∃ ov2, (drawSelections sampleZoomed).dom.overlay = some ov2 ∧
      ({ id := "s1", left := fin 125, top := fin 125,
         width := fin (125 / 2), height := fin 75 } : SelDiv) ∈ ov2.children := by
  obtain ⟨h1, h2, h3, ⟨ov, h4⟩, h5⟩ := sampleZoomed_dom
  obtain ⟨ov2, g1, g2, _⟩ := lossless_redisplay sampleWorld sampleZoomed _ _ ov _
    600 800 300 400 375 500 100 100 50 60 "s1"
    { id := "s1", page := 1, x := fin 200, y := fin 200, width := fin 100, height := fin 120 }
    rfl rfl rfl rfl (by norm_num) (by norm_num) (by norm_num) (by norm_num)
    sampleCommitted_selections
    (by unfold sampleZoomed; rw [zoomIn_selections, sampleCommitted_selections]; simp)
    h1 (by rw [h1, h2]; rfl) h5 rfl rfl (by norm_num) (by norm_num) h4 h3
  refine ⟨ov2, g1, ?_⟩
  norm_num at g2
  exact g2

/-- Witness of C4: on the sample world the gesture from (100, 100) to (105, 160), five
pixels wide, leaves the store as it was. -/
theorem commit_iff_large_pointer_up_witness :
    (drawGesture sampleWorld { button := 0, clientX := 450, clientY := 350 }
        { left := 350, top := 250 } []
        { button := 0, clientX := 455, clientY := 410 } { left := 350, top := 250 }
        "s1").state.selections = sampleWorld.state.selections :=
  (commit_iff_large_pointer_up sampleWorld _
    { button := 0, clientX := 450, clientY := 350 } { left := 350, top := 250 } []
    { button := 0, clientX := 455, clientY := 410 } { left := 350, top := 250 } "s1"
    rfl rfl rfl).2.1 (Or.inl (by norm_num))

/-! ## Export -/

theorem pushByPage_keys_of_mem (acc : List (Nat × List Selection)) (s : Selection)
    (h : s.page ∈ acc.map Prod.fst) :
    (pushByPage acc s).map Prod.fst = acc.map Prod.fst := by
  have hany : acc.any (fun e => e.1 == s.page) = true := by
    rw [List.any_eq_true]
    obtain ⟨e, he, hk⟩ := List.mem_map.mp h
    exact ⟨e, he, by simp [hk]⟩
  unfold pushByPage
  rw [if_pos hany, List.map_map]
  apply List.map_congr_left
  intro e _
  simp only [Function.comp]
  split <;> rfl

theorem pushByPage_of_not_mem (acc : List (Nat × List Selection)) (s : Selection)
    (h : s.page ∉ acc.map Prod.fst) :
    pushByPage acc s = acc ++ [(s.page, [s])] := by
  have hany : ¬ acc.any (fun e => e.1 == s.page) = true := by
    rw [List.any_eq_true]
    rintro ⟨e, he, hk⟩
    exact h (List.mem_map.mpr ⟨e, he, by simpa using hk⟩)
  unfold pushByPage
  rw [if_neg hany]

/-- Pushing onto an array whose key is there: the arrays together gain the selection,
up to order. -/
theorem pushByPage_flatMap_perm (acc : List (Nat × List Selection)) (s : Selection)
    (hnd : (acc.map Prod.fst).Nodup) (h : s.page ∈ acc.map Prod.fst) :
    ((acc.map (fun e => if e.1 == s.page then (e.1, e.2 ++ [s]) else e)).flatMap Prod.snd).Perm
      (acc.flatMap Prod.snd ++ [s]) := by
  induction acc with
  | nil => simp at h
  | cons e rest ih =>
    simp only [List.map_cons, List.nodup_cons] at hnd
    by_cases hk : e.1 = s.page
    · have hrest : rest.map (fun e => if e.1 == s.page then (e.1, e.2 ++ [s]) else e) = rest := by
        conv_rhs => rw [← List.map_id rest]
        apply List.map_congr_left
        intro e2 he2
        have : e2.1 ≠ s.page := by
          intro h2
          exact hnd.1 (List.mem_map.mpr ⟨e2, he2, by rw [h2, hk]⟩)
        simp [this]
      simp only [List.map_cons, hrest, List.flatMap_cons, hk, beq_self_eq_true, if_true]
      rw [List.append_assoc, List.append_assoc]
      exact List.Perm.append_left _ List.perm_append_comm
    · have hmem : s.page ∈ rest.map Prod.fst := by
        simp only [List.map_cons, List.mem_cons] at h
        rcases h with h | h
        · exact absurd h.symm hk
        · exact h
      have hk2 : (e.1 == s.page) = false := by simpa using hk
      simp only [List.map_cons, List.flatMap_cons, hk2, Bool.false_eq_true, if_false]
      rw [List.append_assoc]
      exact List.Perm.append_left _ (ih hnd.2 hmem)

/-- One round of the `forEach` keeps the invariant. -/
theorem pushByPage_inv (pre : List Selection) (acc : List (Nat × List Selection))
    (s : Selection) (inv : GroupInv pre acc) : GroupInv (pre ++ [s]) (pushByPage acc s) := by
  by_cases h : s.page ∈ acc.map Prod.fst
  · have hany : acc.any (fun e => e.1 == s.page) = true := by
      rw [List.any_eq_true]
      obtain ⟨e, he, hk⟩ := List.mem_map.mp h
      exact ⟨e, he, by simp [hk]⟩
    refine ⟨?_, ?_, ?_, ?_, ?_⟩
    · rw [pushByPage_keys_of_mem acc s h]
      exact inv.nodup
    · intro e' he'
      unfold pushByPage at he'
      rw [if_pos hany] at he'
      obtain ⟨e, he, rfl⟩ := List.mem_map.mp he'
      by_cases hk : e.1 = s.page
      · simp only [hk, beq_self_eq_true, if_true, List.filter_append]
        rw [inv.entries e he, hk]
        simp
      · have hk2 : (e.1 == s.page) = false := by simpa using hk
        have hk3 : (s.page == e.1) = false := by simpa using fun h2 => hk h2.symm
        simp only [hk2, Bool.false_eq_true, if_false, List.filter_append]
        rw [inv.entries e he]
        simp [hk3]
    · intro s' hs'
      rw [pushByPage_keys_of_mem acc s h]
      rcases List.mem_append.mp hs' with h1 | h1
      · exact inv.covered s' h1
      · simp only [List.mem_singleton] at h1
        rw [h1]
        exact h
    · unfold pushByPage
      rw [if_pos hany]
      exact (pushByPage_flatMap_perm acc s inv.nodup h).trans
        (List.Perm.append_right _ inv.perm)
    · intro e' he'
      have hkey : e'.1 ∈ (pushByPage acc s).map Prod.fst := List.mem_map_of_mem Prod.fst he'
      rw [pushByPage_keys_of_mem acc s h] at hkey
      obtain ⟨e, he, hk⟩ := List.mem_map.mp hkey
      obtain ⟨t, ht, htk⟩ := inv.used e he
      exact ⟨t, List.mem_append_left _ ht, htk.trans hk⟩
  · rw [pushByPage_of_not_mem acc s h]
    have hempty : pre.filter (fun t => t.page == s.page) = [] := by
      rw [List.filter_eq_nil_iff]
      intro t ht hk
      have hk2 : t.page = s.page := by simpa using hk
      exact h (hk2 ▸ inv.covered t ht)
    refine ⟨?_, ?_, ?_, ?_, ?_⟩
    · rw [List.map_append, List.map_singleton]
      refine List.Nodup.append inv.nodup (List.nodup_singleton _) ?_
      intro k hk hk2
      rw [List.mem_singleton] at hk2
      subst hk2
      exact h hk
    · intro e he
      rcases List.mem_append.mp he with h1 | h1
      · have hk : (s.page == e.1) = false := by
          have : s.page ≠ e.1 := fun h2 => h (h2 ▸ List.mem_map_of_mem Prod.fst h1)
          simpa using this
        rw [List.filter_append, inv.entries e h1]
        simp [hk]
      · simp only [List.mem_singleton] at h1
        rw [h1, List.filter_append, hempty]
        simp
    · intro s' hs'
      rw [List.map_append, List.map_singleton]
      rcases List.mem_append.mp hs' with h1 | h1
      · exact List.mem_append_left _ (inv.covered s' h1)
      · simp only [List.mem_singleton] at h1
        rw [h1]
        exact List.mem_append_right _ (List.mem_singleton_self _)
    · rw [List.flatMap_append]
      simp only [List.flatMap_cons, List.flatMap_nil, List.append_nil]
      exact List.Perm.append_right _ inv.perm
    · intro e he
      rcases List.mem_append.mp he with h1 | h1
      · obtain ⟨t, ht, htk⟩ := inv.used e h1
        exact ⟨t, List.mem_append_left _ ht, htk⟩
      · simp only [List.mem_singleton] at h1
        exact ⟨s, List.mem_append_right _ (List.mem_singleton_self _), by rw [h1]⟩

/-- The `forEach` keeps the invariant. -/
theorem groupByPage_inv (rest pre : List Selection) (acc : List (Nat × List Selection))
    (inv : GroupInv pre acc) : GroupInv (pre ++ rest) (groupByPage rest acc) := by
  induction rest generalizing pre acc with
  | nil => simpa [groupByPage] using inv
  | cons s rest ih =>
    have h := ih (pre ++ [s]) (pushByPage acc s) (pushByPage_inv pre acc s inv)
    simpa [groupByPage] using h

/-- The invariant holds of `byPage` when the `forEach` is over. -/
theorem groupByPage_spec (sels : List Selection) : GroupInv sels (groupByPage sels []) := by
  have h := groupByPage_inv sels [] [] ⟨List.nodup_nil, by simp, by simp, by simp, by simp⟩
  simpa using h

/-- The invariant does not depend on the order of the entries. -/
theorem GroupInv.of_perm {pre : List Selection} {acc acc2 : List (Nat × List Selection)}
    (inv : GroupInv pre acc) (hp : acc2.Perm acc) : GroupInv pre acc2 := by
  refine ⟨?_, ?_, ?_, ?_, ?_⟩
  · exact (List.Perm.nodup_iff (hp.map Prod.fst)).mpr inv.nodup
  · intro e he
    exact inv.entries e (hp.subset he)
  · intro s hs
    exact (hp.map Prod.fst).symm.subset (inv.covered s hs)
  · exact (List.Perm.flatMap_right Prod.snd hp).trans inv.perm
  · intro e he
    exact inv.used e (hp.subset he)

/-- `Object.entries` lists every entry once. -/
theorem objectEntries_perm (o : List (Nat × List Selection)) : (objectEntries o).Perm o := by
  unfold objectEntries
  exact (List.Perm.append_right _ (List.perm_insertionSort _ _)).trans
    (List.filter_append_perm _ o)

/-- When the document library has every page asked for, the loop over the entries runs
to the end and requests one rectangle per selection, entry by entry. -/
theorem drawPages_ok (heights : List JSNum) (entries : List (Nat × List Selection))
    (hpages : ∀ e ∈ entries, ∃ h, libPageHeight heights ((e.1 : Int) - 1) = some h) :
    drawPages heights entries
      = (entries.flatMap (fun e =>
          e.2.map (rectRequest ((e.1 : Int) - 1) (heightAt heights e.1))), true) := by
  induction entries with
  | nil => rfl
  | cons e rest ih =>
    obtain ⟨k, sels⟩ := e
    obtain ⟨h, hh⟩ := hpages (k, sels) (List.mem_cons_self _ _)
    have ih2 := ih (fun e he => hpages e (List.mem_cons_of_mem _ he))
    simp only [drawPages, hh, ih2, List.flatMap_cons, heightAt, Option.getD_some]

/-- When every array holds selections of its own key only, the rectangles requested
entry by entry are the expected rectangles of the selections, array after array. -/
theorem flatMap_requests (heights : List JSNum) (entries : List (Nat × List Selection))
    (hkeys : ∀ e ∈ entries, ∀ s ∈ e.2, s.page = e.1) :
    entries.flatMap (fun e => e.2.map (rectRequest ((e.1 : Int) - 1) (heightAt heights e.1)))
      = (entries.flatMap Prod.snd).map (expectedRequest heights) := by
  induction entries with
  | nil => rfl
  | cons e rest ih =>
    simp only [List.flatMap_cons, List.map_append]
    rw [ih (fun e he => hkeys e (List.mem_cons_of_mem _ he))]
    congr 1
    apply List.map_congr_left
    intro s hs
    unfold expectedRequest
    rw [hkeys e (List.mem_cons_self _ _) s hs]

/-- With no key twice and every array holding the selections of its page, the arrays
together, filtered by page, give that page's selections in store order. -/
theorem flatMap_filter_page (sels : List Selection) (entries : List (Nat × List Selection))
    (hnd : (entries.map Prod.fst).Nodup)
    (hent : ∀ e ∈ entries, e.2 = sels.filter (fun s => s.page == e.1)) (k : Nat) :
    (entries.flatMap Prod.snd).filter (fun s => s.page == k)
      = if k ∈ entries.map Prod.fst then sels.filter (fun s => s.page == k) else [] := by
  induction entries with
  | nil => simp
  | cons e rest ih =>
    simp only [List.map_cons, List.nodup_cons] at hnd
    have ih2 := ih hnd.2 (fun e he => hent e (List.mem_cons_of_mem _ he))
    simp only [List.flatMap_cons, List.filter_append, ih2]
    rw [hent e (List.mem_cons_self _ _), List.filter_filter]
    by_cases hk : e.1 = k
    · subst hk
      simp [hnd.1]
    · have h1 : (sels.filter (fun s => (s.page == k) && (s.page == e.1))) = [] := by
        rw [List.filter_eq_nil_iff]
        intro s _ hs
        simp only [Bool.and_eq_true, beq_iff_eq] at hs
        exact hk (hs.2.symm.trans hs.1)
      have h2 : (k ∈ (e :: rest).map Prod.fst) ↔ k ∈ rest.map Prod.fst := by
        simp only [List.map_cons, List.mem_cons]
        constructor
        · rintro (h | h)
          · exact absurd h.symm hk
          · exact h
        · exact Or.inr
      simp only [List.map_cons] at h2
      simp only [h1, List.nil_append, List.map_cons, h2]

/-- The rectangles of a save that gets as far as drawing, on a document that has every
page a selection is on: the expected rectangle of each selection, in the order of
`Object.entries`. -/
theorem saveRedactedPdf_requests (env : SaveEnv) (w : World) (name : String)
    (heights : List JSNum)
    (hproc : w.state.processing = false) (hstore : w.state.selections ≠ [])
    (hlib : env.pdfLib = true) (hfile : w.state.pdfFile = some name)
    (hread : env.readOk = true) (hload : env.pageHeights = some heights)
    (hdraw : env.drawFailAt = none)
    (hpages : ∀ s ∈ w.state.selections,
      ∃ h, libPageHeight heights ((s.page : Int) - 1) = some h) :
    (saveRedactedPdf env w).requests
      = ((objectEntries (groupByPage w.state.selections [])).flatMap Prod.snd).map
          (expectedRequest heights) := by
  have inv := (groupByPage_spec w.state.selections).of_perm
    (objectEntries_perm (groupByPage w.state.selections []))
  have hlen : ¬ w.state.selections.length = 0 := by
    rw [List.length_eq_zero]
    exact hstore
  have hd : drawAll heights none w.state.selections
      = (((objectEntries (groupByPage w.state.selections [])).flatMap Prod.snd).map
          (expectedRequest heights), true) := by
    unfold drawAll
    simp only []
    rw [drawPages_ok heights _ (fun e he => by
      obtain ⟨t, ht, htk⟩ := inv.used e he
      rw [← htk]
      exact hpages t ht)]
    rw [flatMap_requests heights _ (fun e he t ht => by
      have h1 := inv.entries e he
      rw [h1] at ht
      simpa using (List.mem_filter.mp ht).2)]
  unfold saveRedactedPdf
  simp only [hproc, hlen, hlib, hfile, hread, hload, hdraw, hd]
  simp
  repeat' split
  all_goals rfl

/-- C6. Export y-flip: for every stored selection `(x, y, width, height)` on a page
whose height reported by the document library is `H`, a save that gets as far as
drawing (on a document that has the page of every selection) requests the filled
rectangle `{ x: x, y: H - y - height, width: width, height: height }` on that page;
`x`, `width` and `height` are passed through unchanged. -/
theorem export_y_flip (env : SaveEnv) (w : World) (name : String) (heights : List JSNum)
    (sel : Selection) (H : JSNum)
    (hproc : w.state.processing = false)
    (hlib : env.pdfLib = true) (hfile : w.state.pdfFile = some name)
    (hread : env.readOk = true) (hload : env.pageHeights = some heights)
    (hdraw : env.drawFailAt = none)
    (hpages : ∀ s ∈ w.state.selections,
      ∃ h, libPageHeight heights ((s.page : Int) - 1) = some h)
    (hsel : sel ∈ w.state.selections)
    (hH : libPageHeight heights ((sel.page : Int) - 1) = some H) :
    ({ pageIndex := (sel.page : Int) - 1, x := sel.x, y := H - sel.y - sel.height,
       width := sel.width, height := sel.height } : RectRequest)
      ∈ (saveRedactedPdf env w).requests := by
  have hstore : w.state.selections ≠ [] := List.ne_nil_of_mem hsel
  rw [saveRedactedPdf_requests env w name heights hproc hstore hlib hfile hread hload hdraw
    hpages]
  have inv := (groupByPage_spec w.state.selections).of_perm
    (objectEntries_perm (groupByPage w.state.selections []))
  have hmem : sel ∈ (objectEntries (groupByPage w.state.selections [])).flatMap Prod.snd :=
    inv.perm.symm.subset hsel
  have hreq := List.mem_map_of_mem (expectedRequest heights) hmem
  simpa [expectedRequest, rectRequest, heightAt, hH] using hreq

/-- Witness of C6: the selection (200, 200, 100, 120) on a page of height 800 is drawn
at (200, 480, 100, 120) on the page of index 0. -/
theorem export_y_flip_witness :
    ({ pageIndex := 0, x := fin 200, y := fin 480, width := fin 100, height := fin 120 }
      : RectRequest) ∈ (saveRedactedPdf (saveAllOk [fin 800]) exportWorld).requests := by
  have h := export_y_flip (saveAllOk [fin 800]) exportWorld "a.pdf" [fin 800]
    { id := "s1", page := 1, x := fin 200, y := fin 200, width := fin 100, height := fin 120 }
    (fin 800) rfl rfl rfl rfl rfl rfl
    (by intro s hs; simp [exportWorld] at hs; rcases hs with h | h <;> simp [h, libPageHeight])
    (by simp [exportWorld]) (by simp [libPageHeight])
  norm_num at h
  exact h

/-- C7. Export grouping: a save of a non-empty store that gets as far as drawing, on a
document that has the page of every selection, issues exactly one rectangle-fill
request per stored selection and no others (the requests are the expected rectangles
of the stored selections up to order, so there are as many as selections), each on the
page with 0-based index `selection.page - 1`; the requests for one page follow the
store's insertion order. -/
theorem export_grouping (env : SaveEnv) (w : World) (name : String) (heights : List JSNum)
    (hproc : w.state.processing = false) (hstore : w.state.selections ≠ [])
    (hlib : env.pdfLib = true) (hfile : w.state.pdfFile = some name)
    (hread : env.readOk = true) (hload : env.pageHeights = some heights)
    (hdraw : env.drawFailAt = none)
    (hpages : ∀ s ∈ w.state.selections,
      ∃ h, libPageHeight heights ((s.page : Int) - 1) = some h) :
    ((saveRedactedPdf env w).requests).Perm
        (w.state.selections.map (expectedRequest heights)) ∧
    (saveRedactedPdf env w).requests.length = w.state.selections.length ∧
    (∀ s, (expectedRequest heights s).pageIndex = (s.page : Int) - 1) ∧
    (∀ k : Nat,
      (saveRedactedPdf env w).requests.filter (fun r => decide (r.pageIndex = (k : Int) - 1))
        = (pageSelections w.state.selections k).map (expectedRequest heights)) := by
  rw [saveRedactedPdf_requests env w name heights hproc hstore hlib hfile hread hload hdraw
    hpages]
  have inv := (groupByPage_spec w.state.selections).of_perm
    (objectEntries_perm (groupByPage w.state.selections []))
  have hperm := inv.perm.map (expectedRequest heights)
  refine ⟨hperm, ?_, fun _ => rfl, ?_⟩
  · rw [hperm.length_eq, List.length_map]
  · intro k
    rw [List.filter_map]
    have hfun : ((fun r : RectRequest => decide (r.pageIndex = (k : Int) - 1))
        ∘ expectedRequest heights) = fun s => s.page == k := by
      funext s
      simp [expectedRequest, rectRequest]
      by_cases h : s.page = k <;> simp [h]
    rw [hfun, flatMap_filter_page w.state.selections _ inv.nodup inv.entries k]
    unfold pageSelections
    by_cases hk : k ∈ (objectEntries (groupByPage w.state.selections [])).map Prod.fst
    · rw [if_pos hk]
    · rw [if_neg hk]
      have hnil : w.state.selections.filter (fun s => s.page == k) = [] := by
        rw [List.filter_eq_nil_iff]
        intro t ht hk2
        have hk3 : t.page = k := by simpa using hk2
        exact hk (hk3 ▸ inv.covered t ht)
      rw [hnil]

/-- Witness of C7: the save of two selections on page 1 of a one-page document requests
two rectangles. -/
theorem export_grouping_witness :
    (saveRedactedPdf (saveAllOk [fin 800]) exportWorld).requests.length = 2 :=
  (export_grouping (saveAllOk [fin 800]) exportWorld "a.pdf" [fin 800] rfl
    (by simp [exportWorld]) rfl rfl rfl rfl rfl
    (by intro s hs; simp [exportWorld] at hs; rcases hs with h | h <;> simp [h, libPageHeight])).2.1

/-! ## Identity fallback -/

/-- After `zeroDisplayOps` page 1 has its geometry entry, the canvas is there with a
display size of 0 x 0, and the drawing layer of the first render is still in place. -/
theorem zeroDisplayWorld_eval :
    zeroDisplayWorld.state.currentPage = 1 ∧
    zeroDisplayWorld.state.selections = [] ∧
    zeroDisplayWorld.state.isPanning = false ∧
    zeroDisplayWorld.state.pageDimensions = [(1, { width := fin 600, height := fin 800 })] ∧
    zeroDisplayWorld.dom.canvas = some
      { width := fin 0, height := fin 0, styleWidth := fin 0, styleHeight := fin 0,
        transform := some { x := fin 0, y := fin 0 } } ∧
    zeroDisplayWorld.dom.drawingLayer = some
      { left := fin 40, top := fin 40, width := fin 300, height := fin 400,
        pointerEventsAuto := true, preview := none,
        transform := some { x := fin 0, y := fin 0 } } := by
  unfold zeroDisplayWorld zeroDisplayOps
  simp only [run, List.foldl, step]
  rw [sampleWorld_loaded]
  simp [zoomIn, sampleWorld, sampleDom, initialState, sampleDoc, getPage, getViewport,
    renderPage, RENDER_SCALE, MAX_ZOOM, ZOOM_STEP, JSNum.fin_div_fin]
  norm_num

/-- C9, counterexample.  In the world after `zeroDisplayOps` the display width is 0, so
not greater than 0, yet the mapper does not return its input: `displayToOriginal` maps
the point (100, 100) to (Infinity, Infinity) and `originalToDisplay` maps it to
(0, 0). -/
theorem identity_fallback_counterexample :
    (∃ c, zeroDisplayWorld.dom.canvas = some c ∧ gt c.styleWidth (fin 0) = false) ∧
    displayToOriginal zeroDisplayWorld (fin 100) (fin 100)
      = { x := inf false, y := inf false } ∧
    displayToOriginal zeroDisplayWorld (fin 100) (fin 100) ≠ { x := fin 100, y := fin 100 } ∧
    originalToDisplay zeroDisplayWorld (fin 100) (fin 100) = { x := fin 0, y := fin 0 } ∧
    originalToDisplay zeroDisplayWorld (fin 100) (fin 100) ≠ { x := fin 100, y := fin 100 } := by
  obtain ⟨h1, _, _, h2, h3, _⟩ := zeroDisplayWorld_eval
  have hd : displayToOriginal zeroDisplayWorld (fin 100) (fin 100)
      = { x := inf false, y := inf false } := by
    simp only [displayToOriginal, h1, h2, h3, pageDimAt]
    simp [JSNum.fin_div_zero_of_pos, JSNum.inf_mul_fin_of_pos]
  have ho : originalToDisplay zeroDisplayWorld (fin 100) (fin 100)
      = { x := fin 0, y := fin 0 } := by
    simp [originalToDisplay, h1, h2, h3, pageDimAt, JSNum.fin_div_fin]
  refine ⟨⟨_, h3, rfl⟩, hd, ?_, ho, ?_⟩
  · rw [hd]
    simp
  · rw [ho]
    simp

/-- Without a geometry entry for the current page, or without a canvas, the mapper is
the identity in both directions. -/
theorem mapper_fallback (w : World) (x y : JSNum)
    (h : pageDimAt w.state.pageDimensions w.state.currentPage = none ∨ w.dom.canvas = none) :
    displayToOriginal w x y = { x := x, y := y } ∧
    originalToDisplay w x y = { x := x, y := y } := by
  unfold displayToOriginal originalToDisplay
  rcases h with h | h
  · simp [h]
  · rw [h]
    constructor <;> split <;> simp_all

/-- C9, as amended.  `displayToOriginal` and `originalToDisplay` return the input point
unchanged whenever the current page has no geometry entry or the canvas element is
absent. -/
theorem identity_fallback (w : World) (x y : JSNum)
    (h : pageDimAt w.state.pageDimensions w.state.currentPage = none ∨ w.dom.canvas = none) :
    displayToOriginal w x y = { x := x, y := y } ∧
    originalToDisplay w x y = { x := x, y := y } :=
  mapper_fallback w x y h

/-- Witness of C9 as amended: before a document is loaded no page has a geometry entry
and the point (3, 4) is returned as it is. -/
theorem identity_fallback_witness :
    displayToOriginal (initialWorld sampleDom) (fin 3) (fin 4) = { x := fin 3, y := fin 4 } ∧
    originalToDisplay (initialWorld sampleDom) (fin 3) (fin 4) = { x := fin 3, y := fin 4 } :=
  identity_fallback (initialWorld sampleDom) (fin 3) (fin 4) (Or.inl rfl)

/-! ## Selection invariant -/

/-- C10, counterexample.  The sample document is loaded, the wrapper shrinks to a
width of 80 pixels, a zoom-in re-renders the page at display size 0 x 0 (the renderer
failing to paint, so that the drawing layer of the first render stays), and a gesture
from (100, 100) to (150, 160) is drawn: the selection stored has `x = y = Infinity`
and `width = height = NaN`, which is not `>= 0`. -/
theorem selection_invariant_counterexample :
    (run (initialWorld sampleDom)
      (zeroDisplayOps ++
        [Op.drawStart { button := 0, clientX := 140, clientY := 140 } { left := 40, top := 40 },
         Op.drawEnd { button := 0, clientX := 190, clientY := 200 } { left := 40, top := 40 }
           "s1"])).state.selections
      = [{ id := "s1", page := 1, x := inf false, y := inf false, width := nan, height := nan }]
    ∧ ¬ (nan : JSNum).NonNeg ∧ JSNum.ge nan (fin 0) = false := by
  refine ⟨?_, fun h => h, rfl⟩
  obtain ⟨h1, h2, h3, h4, h5, h6⟩ := zeroDisplayWorld_eval
  have hrun : run (initialWorld sampleDom)
      (zeroDisplayOps ++
        [Op.drawStart { button := 0, clientX := 140, clientY := 140 } { left := 40, top := 40 },
         Op.drawEnd { button := 0, clientX := 190, clientY := 200 } { left := 40, top := 40 }
           "s1"])
      = drawGesture zeroDisplayWorld { button := 0, clientX := 140, clientY := 140 }
          { left := 40, top := 40 } []
          { button := 0, clientX := 190, clientY := 200 } { left := 40, top := 40 } "s1" := by
    unfold run zeroDisplayWorld run
    rw [List.foldl_append]
    rfl
  rw [hrun]
  obtain ⟨r, l, layer1, hv, hl⟩ := drawGesture_before_up zeroDisplayWorld
    { button := 0, clientX := 140, clientY := 140 } { left := 40, top := 40 } [] _ rfl h3 h6
  unfold drawGesture
  rw [hv, handleDrawEnd_selections _ _ _ "s1" (140 - 40) (140 - 40) layer1 rfl rfl
    (by simp [hl])]
  rw [if_pos (by norm_num), addSelection_selections]
  simp only [displayToOriginal, h1, h2, h4, h5, pageDimAt]
  norm_num [JSNum.fin_div_zero_of_pos, JSNum.inf_mul_fin_of_pos, JSNum.inf_sub_inf]

theorem JSNum.Pos.eq_fin {a : JSNum} (h : a.Pos) : ∃ q : ℚ, a = fin q ∧ 0 < q := by
  cases a with
  | fin q => exact ⟨q, rfl, h⟩
  | inf s => exact absurd h (fun h => h)
  | nan => exact absurd h (fun h => h)

theorem JSNum.Pos.mul {a b : JSNum} (ha : a.Pos) (hb : b.Pos) : (a * b).Pos := by
  obtain ⟨x, rfl, hx⟩ := ha.eq_fin
  obtain ⟨y, rfl, hy⟩ := hb.eq_fin
  rw [JSNum.fin_mul_fin]
  exact mul_pos hx hy

theorem JSNum.Pos.div {a b : JSNum} (ha : a.Pos) (hb : b.Pos) : (a / b).Pos := by
  obtain ⟨x, rfl, hx⟩ := ha.eq_fin
  obtain ⟨y, rfl, hy⟩ := hb.eq_fin
  rw [JSNum.fin_div_fin x y hy.ne']
  exact div_pos hx hy

theorem JSNum.Pos.min2 {a b : JSNum} (ha : a.Pos) (hb : b.Pos) : (JSNum.min2 a b).Pos := by
  obtain ⟨x, rfl, hx⟩ := ha.eq_fin
  obtain ⟨y, rfl, hy⟩ := hb.eq_fin
  rw [JSNum.min2_fin]
  exact lt_min hx hy

theorem JSNum.Pos.max2_left {a b : JSNum} (ha : ∃ x : ℚ, a = fin x) (hb : b.Pos) :
    (JSNum.max2 a b).Pos := by
  obtain ⟨x, rfl⟩ := ha
  obtain ⟨y, rfl, hy⟩ := hb.eq_fin
  rw [JSNum.max2_fin]
  exact lt_max_of_lt_right hy

theorem JSNum.pos_sub_eighty (n : Nat) (h : 80 < n) : (fin (n : ℚ) - fin 80).Pos := by
  rw [JSNum.fin_sub_fin]
  show (0 : ℚ) < (n : ℚ) - 80
  have : (80 : ℚ) < (n : ℚ) := by exact_mod_cast h
  linarith

theorem RENDER_SCALE_pos : RENDER_SCALE.Pos := by
  show (0 : ℚ) < 3
  norm_num

theorem getPage_mem (ok : Bool) (doc : PdfDoc) (n : Nat) (page : PageDim)
    (h : getPage ok doc n = some page) : page ∈ doc.pages := by
  unfold getPage at h
  split at h
  · split at h
    · exact absurd h (by simp)
    · exact List.get?_mem h
  · exact absurd h (by simp)

/-! ### The document tree part -/

theorem drawSelections_domInv (w : World) (h : DomInv w.dom) : DomInv (drawSelections w).dom := by
  obtain ⟨o, ho, _⟩ := drawSelections_frame w
  rw [ho]
  exact ⟨h.wrap, h.canvas⟩

theorem renderSelectionList_domInv (w : World) (h : DomInv w.dom) :
    DomInv (renderSelectionList w).dom := by
  obtain ⟨l, hl⟩ := renderSelectionList_frame w
  rw [hl]
  exact ⟨h.wrap, h.canvas⟩

theorem applyPanTransform_domInv (w : World) (h : DomInv w.dom) :
    DomInv (applyPanTransform w).dom := by
  refine ⟨h.wrap, ?_⟩
  intro c hc hl
  simp only [applyPanTransform, Option.map_eq_some', Option.isSome_map'] at hc hl
  obtain ⟨c0, hc0, rfl⟩ := hc
  exact h.canvas c0 hc0 hl

theorem updateCanvasCursor_domInv (w : World) (h : DomInv w.dom) :
    DomInv (updateCanvasCursor w).dom := by
  unfold updateCanvasCursor
  split
  · refine ⟨h.wrap, ?_⟩
    intro c hc hl
    simp only [Option.isSome_map'] at hl
    exact h.canvas c hc hl
  · refine ⟨h.wrap, ?_⟩
    intro c hc hl
    simp only [Option.isSome_map'] at hl
    exact h.canvas c hc hl

theorem setupDrawingLayer_domInv (w : World)
    (hw : ∀ wr, w.dom.wrapper = some wr → 80 < wr.clientWidth ∧ 80 < wr.clientHeight)
    (hc : ∀ c, w.dom.canvas = some c → c.styleWidth.Pos ∧ c.styleHeight.Pos) :
    DomInv (setupDrawingLayer w).dom := by
  unfold setupDrawingLayer
  split
  · exact ⟨hw, fun c h _ => hc c h⟩
  · exact ⟨hw, fun c h _ => hc c h⟩

/-- The base scale `renderPage` computes in a wrapper wider and taller than 80 pixels,
for a page of positive size, is positive. -/
theorem fit_pos (wr : Wrapper) (page : PageDim)
    (hw : 80 < wr.clientWidth ∧ 80 < wr.clientHeight)
    (hp : page.width.Pos ∧ page.height.Pos) :
    (JSNum.min2 (JSNum.min2
      ((fin wr.clientWidth - fin 80) / (getViewport page (fin 1)).width)
      ((fin wr.clientHeight - fin 80) / (getViewport page (fin 1)).height)) (fin 1)).Pos := by
  have h1 : (fin 1 : JSNum).Pos := by show (0 : ℚ) < 1; norm_num
  refine JSNum.Pos.min2 (JSNum.Pos.min2 ?_ ?_) h1
  · exact JSNum.Pos.div (JSNum.pos_sub_eighty _ hw.1) (JSNum.Pos.mul hp.1 h1)
  · exact JSNum.Pos.div (JSNum.pos_sub_eighty _ hw.2) (JSNum.Pos.mul hp.2 h1)

/-- The part of `renderPage` after the canvas was sized keeps the invariant when the
display size written is positive. -/
theorem renderPage_tail_inv (renderOk : Bool) (st1 : State) (wr : Option Wrapper)
    (ov : Option Overlay) (dl : Option DrawLayer) (rl : Option (List Selection))
    (c1 : Canvas) (hs1 : StateInv st1)
    (hw : ∀ x, wr = some x → 80 < x.clientWidth ∧ 80 < x.clientHeight)
    (hc1 : c1.styleWidth.Pos ∧ c1.styleHeight.Pos) :
    StateInv (if renderOk = false then
        (World.mk st1 (Dom.mk wr (some c1) ov dl rl))
      else updateCanvasCursor (applyPanTransform (drawSelections (setupDrawingLayer
        (World.mk st1 (Dom.mk wr (some c1) ov dl rl)))))).state ∧
    DomInv (if renderOk = false then
        (World.mk st1 (Dom.mk wr (some c1) ov dl rl))
      else updateCanvasCursor (applyPanTransform (drawSelections (setupDrawingLayer
        (World.mk st1 (Dom.mk wr (some c1) ov dl rl)))))).dom := by
  have hcan : ∀ c, some c1 = some c → c.styleWidth.Pos ∧ c.styleHeight.Pos := by
    intro c hc
    simp only [Option.some.injEq] at hc
    rw [← hc]
    exact hc1
  cases renderOk with
  | false => exact ⟨hs1, ⟨hw, fun c hc _ => hcan c hc⟩⟩
  | true =>
    simp only [Bool.true_eq_false, if_false]
    refine ⟨?_, ?_⟩
    · rw [updateCanvasCursor_state, applyPanTransform_state, drawSelections_state,
        setupDrawingLayer_state]
      exact hs1
    · exact updateCanvasCursor_domInv _ (applyPanTransform_domInv _
        (drawSelections_domInv _ (setupDrawingLayer_domInv _ hw hcan)))

/-- `renderPage` keeps the invariant. -/
theorem renderPage_inv (env : RenderEnv) (w : World) (hs : StateInv w.state)
    (hd : DomInv w.dom) :
    StateInv (renderPage env w).state ∧ DomInv (renderPage env w).dom := by
  rcases w with ⟨st, ⟨wr, cv, ov, dl, rl⟩⟩
  unfold renderPage
  simp only []
  split
  · exact ⟨hs, hd⟩
  · rename_i doc hdoc
    split
    · exact ⟨hs, hd⟩
    · split
      · exact ⟨hs, hd⟩
      · rename_i page hpage
        have hp := hs.doc doc hdoc page (getPage_mem _ _ _ _ hpage)
        cases wr with
        | none =>
          cases cv with
          | none => exact ⟨hs, hd⟩
          | some c =>
            simp only []
            refine renderPage_tail_inv env.renderOk _ _ _ _ _ _ hs hd.wrap ⟨?_, ?_⟩
            · exact JSNum.Pos.div (JSNum.Pos.mul hp.1
                (JSNum.Pos.mul (JSNum.Pos.mul hs.base hs.zoom) RENDER_SCALE_pos))
                RENDER_SCALE_pos
            · exact JSNum.Pos.div (JSNum.Pos.mul hp.2
                (JSNum.Pos.mul (JSNum.Pos.mul hs.base hs.zoom) RENDER_SCALE_pos))
                RENDER_SCALE_pos
        | some x =>
          have hfit := fit_pos x page (hd.wrap x rfl) hp
          have hs1 : StateInv { st with baseScale := JSNum.min2 (JSNum.min2
              ((fin x.clientWidth - fin 80) / (getViewport page (fin 1)).width)
              ((fin x.clientHeight - fin 80) / (getViewport page (fin 1)).height)) (fin 1) } :=
            ⟨hs.sels, hs.dims, hs.doc, hfit, hs.zoom, hs.minS, hs.maxS, hs.start⟩
          cases cv with
          | none => exact ⟨hs1, hd⟩
          | some c =>
            simp only []
            refine renderPage_tail_inv env.renderOk _ _ _ _ _ _ hs1 hd.wrap ⟨?_, ?_⟩
            · exact JSNum.Pos.div (JSNum.Pos.mul hp.1
                (JSNum.Pos.mul (JSNum.Pos.mul hfit hs.zoom) RENDER_SCALE_pos))
                RENDER_SCALE_pos
            · exact JSNum.Pos.div (JSNum.Pos.mul hp.2
                (JSNum.Pos.mul (JSNum.Pos.mul hfit hs.zoom) RENDER_SCALE_pos))
                RENDER_SCALE_pos

/-! ### Commit keeps the invariant -/

theorem pageDimAt_mem (dims : List (Nat × PageDim)) (n : Nat) (pd : PageDim)
    (h : pageDimAt dims n = some pd) : ∃ e ∈ dims, e.2 = pd := by
  unfold pageDimAt at h
  rw [Option.map_eq_some'] at h
  obtain ⟨e, he, hpd⟩ := h
  exact ⟨e, List.mem_of_find?_eq_some he, hpd⟩

/-- A display rectangle with finite corners and sides of at least zero, committed
under the invariant on a drawing layer, is stored with a finite width and height of at
least zero. -/
theorem addSelection_nonNeg (w : World) (left top width height : ℚ) (newId : String)
    (hs : StateInv w.state) (hd : DomInv w.dom)
    (hlayer : w.dom.drawingLayer.isSome = true)
    (hwidth : 0 ≤ width) (hheight : 0 ≤ height) :
    ∀ sel ∈ (addSelection w (fin left) (fin top) (fin width) (fin height) newId).state.selections,
      sel.width.NonNeg ∧ sel.height.NonNeg := by
  have key : ∃ a b : ℚ, 0 ≤ a ∧ 0 ≤ b ∧
      (addSelection w (fin left) (fin top) (fin width) (fin height) newId).state.selections
        = w.state.selections ++
          [{ id := newId, page := w.state.currentPage,
             x := (displayToOriginal w (fin left) (fin top)).x,
             y := (displayToOriginal w (fin left) (fin top)).y,
             width := fin a, height := fin b }] := by
    rw [addSelection_selections]
    cases hdim : pageDimAt w.state.pageDimensions w.state.currentPage with
    | none =>
      refine ⟨width, height, hwidth, hheight, ?_⟩
      simp only [(mapper_fallback w _ _ (Or.inl hdim)).1, JSNum.fin_add_fin, JSNum.fin_sub_fin,
        add_sub_cancel_left]
    | some pd =>
      cases hcanvas : w.dom.canvas with
      | none =>
        refine ⟨width, height, hwidth, hheight, ?_⟩
        simp only [(mapper_fallback w _ _ (Or.inr hcanvas)).1, JSNum.fin_add_fin,
          JSNum.fin_sub_fin, add_sub_cancel_left]
      | some c =>
        obtain ⟨e, he, hpd⟩ := pageDimAt_mem _ _ _ hdim
        have hpos := hs.dims e he
        rw [hpd] at hpos
        obtain ⟨W, hW, hW0⟩ := hpos.1.eq_fin
        obtain ⟨H, hH, hH0⟩ := hpos.2.eq_fin
        have hcpos := hd.canvas c hcanvas hlayer
        obtain ⟨Dw, hDw, hDw0⟩ := hcpos.1.eq_fin
        obtain ⟨Dh, hDh, hDh0⟩ := hcpos.2.eq_fin
        have hdim2 : pageDimAt w.state.pageDimensions w.state.currentPage
            = some { width := fin W, height := fin H } := by
          rw [hdim, ← hW, ← hH]
        refine ⟨width * W / Dw, height * H / Dh,
          div_nonneg (mul_nonneg hwidth hW0.le) hDw0.le,
          div_nonneg (mul_nonneg hheight hH0.le) hDh0.le, ?_⟩
        have h1 := addSelection_fin w c W H Dw Dh left top width height newId hdim2 hcanvas
          hDw hDh hDw0.ne' hDh0.ne'
        rw [addSelection_selections] at h1
        rw [h1, displayToOriginal_fin w c W H Dw Dh left top hdim2 hcanvas hDw hDh
          hDw0.ne' hDh0.ne']
        congr 3
        · congr 1; field_simp
        · congr 1; field_simp
  obtain ⟨a, b, ha, hb, hkey⟩ := key
  intro sel hsel
  rw [hkey] at hsel
  rcases List.mem_append.mp hsel with h | h
  · exact hs.sels sel h
  · simp only [List.mem_singleton] at h
    rw [h]
    exact ⟨ha, hb⟩

theorem DomInv.map_layer {d : Dom} (h : DomInv d) (f : DrawLayer → DrawLayer) :
    DomInv { d with drawingLayer := d.drawingLayer.map f } := by
  refine ⟨h.wrap, ?_⟩
  intro c hc hl
  simp only [Option.isSome_map'] at hl
  exact h.canvas c hc hl

theorem addSelection_state (w : World) (left top width height : JSNum) (newId : String) :
    (addSelection w left top width height newId).state
      = { w.state with
          selections := (addSelection w left top width height newId).state.selections } := by
  unfold addSelection
  simp only [renderSelectionList_state, drawSelections_state]

theorem addSelection_domInv (w : World) (left top width height : JSNum) (newId : String)
    (hd : DomInv w.dom) : DomInv (addSelection w left top width height newId).dom := by
  unfold addSelection
  exact renderSelectionList_domInv _ (drawSelections_domInv _ hd)

theorem handleDrawStart_inv (w : World) (e : MouseEv) (rect : ClientRect)
    (hs : StateInv w.state) (hd : DomInv w.dom) :
    StateInv (handleDrawStart w e rect).state ∧ DomInv (handleDrawStart w e rect).dom := by
  unfold handleDrawStart
  split
  · exact ⟨hs, hd⟩
  · split
    · exact ⟨hs, hd⟩
    · refine ⟨⟨hs.sels, hs.dims, hs.doc, hs.base, hs.zoom, hs.minS, hs.maxS, ?_⟩, hd⟩
      intro p hp
      simp only [Option.some.injEq] at hp
      exact ⟨e.clientX - rect.left, e.clientY - rect.top, by rw [← hp]; simp⟩

theorem handleDrawMove_inv (w : World) (e : MouseEv) (rect : ClientRect)
    (hs : StateInv w.state) (hd : DomInv w.dom) :
    StateInv (handleDrawMove w e rect).state ∧ DomInv (handleDrawMove w e rect).dom := by
  obtain ⟨⟨r, h1⟩, ⟨l, h2, h3⟩⟩ := handleDrawMove_frame w e rect
  rw [h1, h2]
  refine ⟨⟨hs.sels, hs.dims, hs.doc, hs.base, hs.zoom, hs.minS, hs.maxS, hs.start⟩,
    ⟨hd.wrap, ?_⟩⟩
  intro c hc hl
  exact hd.canvas c hc (h3 ▸ hl)

theorem handleDrawCancel_inv (w : World) (hs : StateInv w.state) (hd : DomInv w.dom) :
    StateInv (handleDrawCancel w).state ∧ DomInv (handleDrawCancel w).dom := by
  unfold handleDrawCancel
  split
  · exact ⟨hs, hd⟩
  · refine ⟨⟨hs.sels, hs.dims, hs.doc, hs.base, hs.zoom, hs.minS, hs.maxS, ?_⟩,
      hd.map_layer _⟩
    intro p hp
    simp at hp

theorem handleDrawEnd_inv (w : World) (e : MouseEv) (rect : ClientRect) (newId : String)
    (hs : StateInv w.state) (hd : DomInv w.dom) :
    StateInv (handleDrawEnd w e rect newId).state ∧
    DomInv (handleDrawEnd w e rect newId).dom := by
  unfold handleDrawEnd
  split
  · rename_i p0 hdraw hstart
    split
    · exact ⟨hs, hd⟩
    · rename_i layer hlayer
      obtain ⟨x0, y0, rfl⟩ := hs.start p0 hstart
      simp only [JSNum.fin_sub_fin, JSNum.min2_fin, JSNum.abs_fin]
      have hl : w.dom.drawingLayer.isSome = true := by rw [hlayer]; rfl
      split
      · have h1 := addSelection_nonNeg w (min x0 (e.clientX - rect.left))
          (min y0 (e.clientY - rect.top)) |e.clientX - rect.left - x0|
          |e.clientY - rect.top - y0| newId hs hd hl (abs_nonneg _) (abs_nonneg _)
        have h2 := addSelection_state w (fin (min x0 (e.clientX - rect.left)))
          (fin (min y0 (e.clientY - rect.top))) (fin |e.clientX - rect.left - x0|)
          (fin |e.clientY - rect.top - y0|) newId
        refine ⟨?_, (addSelection_domInv w _ _ _ _ newId hd).map_layer _⟩
        rw [h2]
        refine ⟨h1, hs.dims, hs.doc, hs.base, hs.zoom, hs.minS, hs.maxS, ?_⟩
        intro p hp
        simp at hp
      · refine ⟨⟨hs.sels, hs.dims, hs.doc, hs.base, hs.zoom, hs.minS, hs.maxS, ?_⟩,
          hd.map_layer _⟩
        intro p hp
        simp at hp
  · exact ⟨hs, hd⟩

/-! ### The other operations keep the invariant -/

theorem zoomIn_inv (env : RenderEnv) (w : World) (hs : StateInv w.state) (hd : DomInv w.dom) :
    StateInv (zoomIn env w).state ∧ DomInv (zoomIn env w).dom := by
  unfold zoomIn
  split
  · refine renderPage_inv env _ ⟨hs.sels, hs.dims, hs.doc, hs.base, ?_, hs.minS, hs.maxS,
      hs.start⟩ hd
    show (JSNum.min2 (w.state.zoomLevel + ZOOM_STEP) w.state.maxScale).Pos
    obtain ⟨z, hz, hz0⟩ := hs.zoom.eq_fin
    rw [hz, hs.maxS]
    refine JSNum.Pos.min2 ?_ (by show (0 : ℚ) < 3; norm_num)
    show (0 : ℚ) < z + 1 / 4
    linarith
  · exact ⟨hs, hd⟩

theorem zoomOut_inv (env : RenderEnv) (w : World) (hs : StateInv w.state) (hd : DomInv w.dom) :
    StateInv (zoomOut env w).state ∧ DomInv (zoomOut env w).dom := by
  unfold zoomOut
  split
  · refine renderPage_inv env _ ⟨hs.sels, hs.dims, hs.doc, hs.base, ?_, hs.minS, hs.maxS,
      hs.start⟩ hd
    show (JSNum.max2 (w.state.zoomLevel - ZOOM_STEP) w.state.minScale).Pos
    obtain ⟨z, hz, _⟩ := hs.zoom.eq_fin
    rw [hz, hs.minS]
    exact JSNum.Pos.max2_left ⟨z - 1 / 4, by simp [ZOOM_STEP]⟩
      (by show (0 : ℚ) < 1 / 2; norm_num)
  · exact ⟨hs, hd⟩

theorem resetZoom_inv (env : RenderEnv) (w : World) (hs : StateInv w.state)
    (hd : DomInv w.dom) :
    StateInv (resetZoom env w).state ∧ DomInv (resetZoom env w).dom := by
  unfold resetZoom
  refine renderPage_inv env _ ⟨hs.sels, hs.dims, hs.doc, hs.base, ?_, hs.minS, hs.maxS,
    hs.start⟩ hd
  show (0 : ℚ) < 1
  norm_num

theorem togglePanTool_inv (w : World) (hs : StateInv w.state) (hd : DomInv w.dom) :
    StateInv (togglePanTool w).state ∧ DomInv (togglePanTool w).dom := by
  unfold togglePanTool
  refine ⟨?_, updateCanvasCursor_domInv _ hd⟩
  rw [updateCanvasCursor_state]
  exact ⟨hs.sels, hs.dims, hs.doc, hs.base, hs.zoom, hs.minS, hs.maxS, hs.start⟩

theorem panMouseDown_inv (w : World) (e : MouseEv) (hs : StateInv w.state)
    (hd : DomInv w.dom) :
    StateInv (panMouseDown w e).state ∧ DomInv (panMouseDown w e).dom := by
  unfold panMouseDown
  split
  · exact ⟨hs, hd⟩
  · exact ⟨⟨hs.sels, hs.dims, hs.doc, hs.base, hs.zoom, hs.minS, hs.maxS, hs.start⟩, hd⟩

theorem panMouseMove_inv (w : World) (e : MouseEv) (hs : StateInv w.state)
    (hd : DomInv w.dom) :
    StateInv (panMouseMove w e).state ∧ DomInv (panMouseMove w e).dom := by
  unfold panMouseMove
  split
  · exact ⟨hs, hd⟩
  · exact ⟨⟨hs.sels, hs.dims, hs.doc, hs.base, hs.zoom, hs.minS, hs.maxS, hs.start⟩,
      applyPanTransform_domInv _ hd⟩

theorem panMouseUp_inv (w : World) (hs : StateInv w.state) (hd : DomInv w.dom) :
    StateInv (panMouseUp w).state ∧ DomInv (panMouseUp w).dom := by
  unfold panMouseUp
  split
  · refine ⟨?_, updateCanvasCursor_domInv _ hd⟩
    rw [updateCanvasCursor_state]
    exact ⟨hs.sels, hs.dims, hs.doc, hs.base, hs.zoom, hs.minS, hs.maxS, hs.start⟩
  · exact ⟨hs, hd⟩

theorem goToPage_inv (env : RenderEnv) (w : World) (pageNum : Nat) (hs : StateInv w.state)
    (hd : DomInv w.dom) :
    StateInv (goToPage env w pageNum).state ∧ DomInv (goToPage env w pageNum).dom := by
  unfold goToPage
  split
  · exact ⟨hs, hd⟩
  · exact renderPage_inv env _
      ⟨hs.sels, hs.dims, hs.doc, hs.base, hs.zoom, hs.minS, hs.maxS, hs.start⟩ hd

theorem deleteSelection_inv (w : World) (id : String) (hs : StateInv w.state)
    (hd : DomInv w.dom) :
    StateInv (deleteSelection w id).state ∧ DomInv (deleteSelection w id).dom := by
  unfold deleteSelection
  split
  · exact ⟨hs, hd⟩
  · rename_i idx _
    refine ⟨?_, renderSelectionList_domInv _ (drawSelections_domInv _ hd)⟩
    rw [renderSelectionList_state, drawSelections_state]
    refine ⟨?_, hs.dims, hs.doc, hs.base, hs.zoom, hs.minS, hs.maxS, hs.start⟩
    intro sel hsel
    exact hs.sels sel ((List.eraseIdx_sublist _ _).subset hsel)

theorem clearAllSelections_inv (w : World) (confirmed : Bool) (hs : StateInv w.state)
    (hd : DomInv w.dom) :
    StateInv (clearAllSelections w confirmed).state ∧
    DomInv (clearAllSelections w confirmed).dom := by
  unfold clearAllSelections
  split
  · exact ⟨hs, hd⟩
  · split
    · exact ⟨hs, hd⟩
    · refine ⟨?_, renderSelectionList_domInv _ (drawSelections_domInv _ hd)⟩
      rw [renderSelectionList_state, drawSelections_state]
      refine ⟨?_, hs.dims, hs.doc, hs.base, hs.zoom, hs.minS, hs.maxS, hs.start⟩
      intro sel hsel
      simp at hsel

/-- `saveRedactedPdf` writes no field of the module state but `processing`, and
nothing of the document tree. -/
theorem saveRedactedPdf_world (env : SaveEnv) (w : World) :
    ∃ b, (saveRedactedPdf env w).world = { w with state := { w.state with processing := b } } := by
  unfold saveRedactedPdf
  simp only []
  repeat' split
  all_goals exact ⟨_, rfl⟩

theorem saveRedactedPdf_inv (env : SaveEnv) (w : World) (hs : StateInv w.state)
    (hd : DomInv w.dom) :
    StateInv (saveRedactedPdf env w).world.state ∧ DomInv (saveRedactedPdf env w).world.dom := by
  obtain ⟨b, h⟩ := saveRedactedPdf_world env w
  rw [h]
  exact ⟨⟨hs.sels, hs.dims, hs.doc, hs.base, hs.zoom, hs.minS, hs.maxS, hs.start⟩, hd⟩

theorem resetState_inv (s : State) (hs : StateInv s) : StateInv (resetState s) := by
  refine ⟨?_, ?_, ?_, ?_, ?_, hs.minS, hs.maxS, ?_⟩
  · intro sel hsel
    simp [resetState] at hsel
  · intro e he
    simp [resetState] at he
  · intro d hd
    simp [resetState] at hd
  · show (0 : ℚ) < 1
    norm_num
  · show (0 : ℚ) < 1
    norm_num
  · intro p hp
    simp [resetState] at hp

theorem setPageDim_pos (dims : List (Nat × PageDim)) (n : Nat) (d : PageDim)
    (hdims : ∀ e ∈ dims, e.2.width.Pos ∧ e.2.height.Pos)
    (hd : d.width.Pos ∧ d.height.Pos) :
    ∀ e ∈ setPageDim dims n d, e.2.width.Pos ∧ e.2.height.Pos := by
  intro e he
  unfold setPageDim at he
  split at he
  · obtain ⟨e0, he0, rfl⟩ := List.mem_map.mp he
    split
    · exact hd
    · exact hdims e0 he0
  · rcases List.mem_append.mp he with h | h
    · exact hdims e h
    · simp only [List.mem_singleton] at h
      rw [h]
      exact hd

theorem cachePageDimensions_pos (doc : PdfDoc) (failAt : Option Nat)
    (hdoc : ∀ p ∈ doc.pages, p.width.Pos ∧ p.height.Pos)
    (pages : List Nat) (dims : List (Nat × PageDim))
    (hdims : ∀ e ∈ dims, e.2.width.Pos ∧ e.2.height.Pos) :
    ∀ e ∈ (cachePageDimensions doc failAt pages dims).1, e.2.width.Pos ∧ e.2.height.Pos := by
  induction pages generalizing dims with
  | nil => exact hdims
  | cons i rest ih =>
    unfold cachePageDimensions
    split
    · exact hdims
    · rename_i page hpage
      have hp := hdoc page (getPage_mem _ _ _ _ hpage)
      have h1 : (fin 1 : JSNum).Pos := by show (0 : ℚ) < 1; norm_num
      exact ih _ (setPageDim_pos dims i _ hdims
        ⟨JSNum.Pos.mul hp.1 h1, JSNum.Pos.mul hp.2 h1⟩)

theorem renderAllThumbnails_frame (env : LoadEnv) (w : World) :
    ∃ t, renderAllThumbnails env w = { w with state := { w.state with thumbnails := t } } := by
  unfold renderAllThumbnails
  split
  · exact ⟨_, rfl⟩
  · exact ⟨_, rfl⟩

/-- The end of a successful `handleFile`: thumbnails, `renderPage`, and the `finally`
clause. -/
theorem handleFile_tail_inv (env : LoadEnv) (w3 : World) (hs : StateInv w3.state)
    (hd : DomInv w3.dom) :
    StateInv ({ (renderPage env.render (renderAllThumbnails env w3)).state with
        processing := false }) ∧
    DomInv (renderPage env.render (renderAllThumbnails env w3)).dom := by
  obtain ⟨t, ht⟩ := renderAllThumbnails_frame env w3
  have h4 : StateInv (renderAllThumbnails env w3).state ∧
      DomInv (renderAllThumbnails env w3).dom := by
    rw [ht]
    exact ⟨⟨hs.sels, hs.dims, hs.doc, hs.base, hs.zoom, hs.minS, hs.maxS, hs.start⟩, hd⟩
  have h5 := renderPage_inv env.render _ h4.1 h4.2
  exact ⟨⟨h5.1.sels, h5.1.dims, h5.1.doc, h5.1.base, h5.1.zoom, h5.1.minS, h5.1.maxS,
    h5.1.start⟩, h5.2⟩

/-- `handleFile` keeps the invariant when the document loaded reports positive page
sizes. -/
theorem handleFile_inv (env : LoadEnv) (w : World)
    (henv : ∀ doc, env.doc = some doc → ∀ p ∈ doc.pages, p.width.Pos ∧ p.height.Pos)
    (hs : StateInv w.state) (hd : DomInv w.dom) :
    StateInv (handleFile env w).state ∧ DomInv (handleFile env w).dom := by
  unfold handleFile
  by_cases hv : env.valid = false
  · rw [if_pos hv]
    exact ⟨hs, hd⟩
  rw [if_neg hv]
  simp only []
  by_cases hr : env.readOk = false
  · rw [if_pos hr]
    exact ⟨⟨hs.sels, hs.dims, hs.doc, hs.base, hs.zoom, hs.minS, hs.maxS, hs.start⟩, hd⟩
  rw [if_neg hr]
  by_cases hp : env.pdfjsLoaded = false
  · rw [if_pos hp]
    exact ⟨⟨hs.sels, hs.dims, hs.doc, hs.base, hs.zoom, hs.minS, hs.maxS, hs.start⟩, hd⟩
  rw [if_neg hp]
  cases hdoc : env.doc with
  | none =>
    exact ⟨⟨hs.sels, hs.dims, hs.doc, hs.base, hs.zoom, hs.minS, hs.maxS, hs.start⟩, hd⟩
  | some doc =>
    have hpos := henv doc hdoc
    have hdims := cachePageDimensions_pos doc env.failAt hpos
      (List.range' 1 doc.pages.length) w.state.pageDimensions hs.dims
    have hdocInv : ∀ d, some doc = some d → ∀ p ∈ d.pages, p.width.Pos ∧ p.height.Pos := by
      intro d hd2
      simp only [Option.some.injEq] at hd2
      rw [← hd2]
      exact hpos
    simp only []
    by_cases hc : (cachePageDimensions doc env.failAt (List.range' 1 doc.pages.length)
        w.state.pageDimensions).2 = false
    · rw [if_pos hc]
      exact ⟨⟨hs.sels, hdims, hdocInv, hs.base, hs.zoom, hs.minS, hs.maxS, hs.start⟩, hd⟩
    · rw [if_neg hc]
      exact handleFile_tail_inv env _
        ⟨hs.sels, hdims, hdocInv, hs.base, hs.zoom, hs.minS, hs.maxS, hs.start⟩ hd

theorem JSNum.NonNeg.ge_zero {a : JSNum} (h : a.NonNeg) : JSNum.ge a (fin 0) = true := by
  cases a with
  | fin q => exact decide_eq_true h
  | inf s => exact absurd h (fun h => h)
  | nan => exact absurd h (fun h => h)

/-- Every operation keeps the invariant, provided the environment is well sized. -/
theorem step_inv (w : World) (op : Op) (hop : op.WellSized) (hs : StateInv w.state)
    (hd : DomInv w.dom) : StateInv (step w op).state ∧ DomInv (step w op).dom := by
  cases op with
  | load env => exact handleFile_inv env w hop hs hd
  | drawStart e rect => exact handleDrawStart_inv w e rect hs hd
  | drawMove e rect => exact handleDrawMove_inv w e rect hs hd
  | drawEnd e rect newId => exact handleDrawEnd_inv w e rect newId hs hd
  | drawCancel => exact handleDrawCancel_inv w hs hd
  | zoomIn env => exact zoomIn_inv env w hs hd
  | zoomOut env => exact zoomOut_inv env w hs hd
  | zoomReset env => exact resetZoom_inv env w hs hd
  | panToggle => exact togglePanTool_inv w hs hd
  | panDown e => exact panMouseDown_inv w e hs hd
  | panMove e => exact panMouseMove_inv w e hs hd
  | panUp => exact panMouseUp_inv w hs hd
  | goToPage env n => exact goToPage_inv env w n hs hd
  | delete id => exact deleteSelection_inv w id hs hd
  | clear confirmed => exact clearAllSelections_inv w confirmed hs hd
  | save env => exact saveRedactedPdf_inv env w hs hd
  | reset => exact ⟨resetState_inv w.state hs, hd⟩
  | resize cw ch =>
    refine ⟨hs, ⟨?_, hd.canvas⟩⟩
    intro wr hwr
    simp only [step, Option.map_eq_some'] at hwr
    obtain ⟨_, _, rfl⟩ := hwr
    exact hop

theorem run_inv (ops : List Op) (w : World) (hops : ∀ op ∈ ops, op.WellSized)
    (hs : StateInv w.state) (hd : DomInv w.dom) :
    StateInv (run w ops).state ∧ DomInv (run w ops).dom := by
  induction ops generalizing w with
  | nil => exact ⟨hs, hd⟩
  | cons op rest ih =>
    have h1 := step_inv w op (hops op (List.mem_cons_self _ _)) hs hd
    exact ih (step w op) (fun o ho => hops o (List.mem_cons_of_mem _ ho)) h1.1 h1.2

theorem initialState_inv : StateInv initialState := by
  refine ⟨?_, ?_, ?_, ?_, ?_, rfl, rfl, ?_⟩
  · intro sel hsel
    simp [initialState] at hsel
  · intro e he
    simp [initialState] at he
  · intro d hd
    simp [initialState] at hd
  · show (0 : ℚ) < 1
    norm_num
  · show (0 : ℚ) < 1
    norm_num
  · intro p hp
    simp [initialState] at hp

/-- C10, as amended.  In every state reachable from the initial state (over a document
tree without a drawing layer) by the feature's operations, provided every loaded
document reports positive finite page sizes and the wrapper is, and stays, wider and
taller than 80 pixels, every selection in the store has a finite width and height with
`width >= 0` and `height >= 0`. -/
theorem selection_invariant (dom0 : Dom) (ops : List Op)
    (hlayer : dom0.drawingLayer = none)
    (hwrap : ∀ wr, dom0.wrapper = some wr → 80 < wr.clientWidth ∧ 80 < wr.clientHeight)
    (hops : ∀ op ∈ ops, op.WellSized) :
    ∀ sel ∈ (run (initialWorld dom0) ops).state.selections,
      (sel.width.NonNeg ∧ sel.height.NonNeg) ∧
      (JSNum.ge sel.width (fin 0) = true ∧ JSNum.ge sel.height (fin 0) = true) := by
  have hd : DomInv (initialWorld dom0).dom := by
    refine ⟨hwrap, ?_⟩
    intro c _ hl
    rw [show (initialWorld dom0).dom.drawingLayer = none from hlayer] at hl
    simp at hl
  have h := (run_inv ops (initialWorld dom0) hops initialState_inv hd).1
  intro sel hsel
  have h2 := h.sels sel hsel
  exact ⟨h2, h2.1.ge_zero, h2.2.ge_zero⟩

/-- The sample session stores the sample selection. -/
theorem sampleOps_selections :
    (run (initialWorld sampleDom) sampleOps).state.selections = [sampleSelection] := by
  have hrun : run (initialWorld sampleDom) sampleOps
      = drawGesture sampleWorld { button := 0, clientX := 140, clientY := 140 }
          { left := 40, top := 40 } []
          { button := 0, clientX := 190, clientY := 200 } { left := 40, top := 40 } "s1" := by
    unfold run sampleOps
    simp only [List.foldl, step]
    rw [sampleWorld_loaded]
    rfl
  rw [hrun]
  obtain ⟨r, l, layer1, hv, hl⟩ := drawGesture_before_up sampleWorld
    { button := 0, clientX := 140, clientY := 140 } { left := 40, top := 40 } [] _ rfl rfl rfl
  unfold drawGesture
  rw [hv, handleDrawEnd_selections _ _ _ "s1" (140 - 40) (140 - 40) layer1 rfl rfl
    (by simp [hl])]
  rw [if_pos (by norm_num), addSelection_selections]
  simp [displayToOriginal, pageDimAt, sampleWorld, sampleDom, initialState, JSNum.fin_div_fin,
    sampleSelection]
  norm_num

/-- Witness of C10 as amended: the selection stored by the sample session has a width
and a height of at least zero. -/
theorem selection_invariant_witness :
    (sampleSelection.width.NonNeg ∧ sampleSelection.height.NonNeg) ∧
    (JSNum.ge sampleSelection.width (fin 0) = true ∧
      JSNum.ge sampleSelection.height (fin 0) = true) :=
  selection_invariant sampleDom sampleOps rfl
    (by intro wr h; simp [sampleDom] at h; rw [← h]; exact ⟨by decide, by decide⟩)
    (by
      intro op hop
      simp only [sampleOps, List.mem_cons, List.mem_singleton, List.not_mem_nil, or_false] at hop
      rcases hop with h | h | h
      · rw [h]
        intro doc hdoc p hp
        simp [sampleLoad, sampleDoc] at hdoc
        rw [← hdoc] at hp
        simp at hp
        rw [hp]
        exact ⟨by show (0 : ℚ) < 600; norm_num, by show (0 : ℚ) < 800; norm_num⟩
      · rw [h]; trivial
      · rw [h]; trivial)
    sampleSelection (by rw [sampleOps_selections]; exact List.mem_singleton_self _)

/-! ## The quality multiplier -/

theorem renderPage_eq_renderPageAt (env : RenderEnv) (w : World) :
    renderPage env w = renderPageAt RENDER_SCALE env w := rfl

/-- The sign of a product of two non-zero rationals. -/
theorem decide_mul_neg (q k : ℚ) (hq : q ≠ 0) (hk : k ≠ 0) :
    decide (q * k < 0) = xor (decide (q < 0)) (decide (k < 0)) := by
  rcases lt_or_gt_of_ne hq with h1 | h1 <;> rcases lt_or_gt_of_ne hk with h2 | h2
  · have h3 : ¬ q * k < 0 := not_lt.mpr (mul_pos_of_neg_of_neg h1 h2).le
    simp [h1, h2, h3]
  · have h3 : q * k < 0 := mul_neg_of_neg_of_pos h1 h2
    simp [h1, h3, not_lt.mpr h2.le]
  · have h3 : q * k < 0 := mul_neg_of_pos_of_neg h1 h2
    simp [h2, h3, not_lt.mpr h1.le]
  · have h3 : ¬ q * k < 0 := not_lt.mpr (mul_pos h1 h2).le
    simp [h3, not_lt.mpr h1.le, not_lt.mpr h2.le]

/-- Multiplying by a non-zero finite factor and dividing by it again gives the product
without the factor, for all numbers, finite or not. -/
theorem JSNum.mul_mul_div_cancel (a y : JSNum) (k : ℚ) (hk : k ≠ 0) :
    a * (y * fin k) / fin k = a * y := by
  show JSNum.div (JSNum.mul a (JSNum.mul y (fin k))) (fin k) = JSNum.mul a y
  cases a with
  | nan => cases y <;> simp [JSNum.mul, JSNum.div]
  | fin p =>
    cases y with
    | nan => simp [JSNum.mul, JSNum.div]
    | fin q =>
      simp only [JSNum.mul, JSNum.div, hk, if_false]
      congr 1
      field_simp
      ring
    | inf t =>
      by_cases hp : p = 0
      · simp [JSNum.mul, JSNum.div, hk, hp]
      · simp only [JSNum.mul, JSNum.div, hk, hp, if_false]
        congr 1
        cases t <;> cases decide (k < 0) <;> cases decide (p < 0) <;> rfl
  | inf s =>
    cases y with
    | nan => simp [JSNum.mul, JSNum.div]
    | fin q =>
      by_cases hq : q = 0
      · simp [JSNum.mul, JSNum.div, hk, hq]
      · simp only [JSNum.mul, JSNum.div, hk, hq, mul_eq_zero, or_self, if_false,
          decide_mul_neg q k hq hk]
        congr 1
        cases s <;> cases decide (k < 0) <;> cases decide (q < 0) <;> rfl
    | inf t =>
      simp only [JSNum.mul, JSNum.div, hk, if_false]
      congr 1
      cases s <;> cases t <;> cases decide (k < 0) <;> rfl

theorem setupDrawingLayer_canvas (w : World) :
    (setupDrawingLayer w).dom.canvas = w.dom.canvas := by
  unfold setupDrawingLayer
  split <;> rfl

theorem updateCanvasCursor_canvas (w : World) :
    (updateCanvasCursor w).dom.canvas = w.dom.canvas := by
  unfold updateCanvasCursor
  split <;> rfl

/-- The canvas after the last part of `renderPage`: as sized, with the pan offset as
its translation. -/
theorem renderTail_canvas (w1 : World) :
    (updateCanvasCursor (applyPanTransform (drawSelections (setupDrawingLayer w1)))).dom.canvas
      = w1.dom.canvas.map
          (fun c => { c with transform := some { x := w1.state.panX, y := w1.state.panY } }) := by
  rw [updateCanvasCursor_canvas]
  show ((drawSelections (setupDrawingLayer w1)).dom.canvas).map _ = _
  rw [drawSelections_canvas, setupDrawingLayer_canvas, drawSelections_state,
    setupDrawingLayer_state]

/-- The canvas `renderPageAt` leaves when it gets as far as sizing it: the bitmap has
the page size times `baseScale * zoomLevel * renderScale`, the display size is the page
size times `baseScale * zoomLevel`. -/
theorem renderPageAt_canvas (k : ℚ) (hk : k ≠ 0) (env : RenderEnv) (w : World)
    (doc : PdfDoc) (page : PageDim) (c : Canvas)
    (hdoc : w.state.pdfDoc = some doc)
    (hrange : ¬ (w.state.currentPage < 1 ∨ w.state.currentPage > w.state.totalPages))
    (hpage : getPage env.getPageOk doc w.state.currentPage = some page)
    (hcanvas : w.dom.canvas = some c) :
    ∃ c1, (renderPageAt (fin k) env w).dom.canvas = some c1 ∧
      c1.width = page.width * ((renderPageAt (fin k) env w).state.baseScale
        * w.state.zoomLevel * fin k) ∧
      c1.height = page.height * ((renderPageAt (fin k) env w).state.baseScale
        * w.state.zoomLevel * fin k) ∧
      c1.styleWidth = page.width * ((renderPageAt (fin k) env w).state.baseScale
        * w.state.zoomLevel) ∧
      c1.styleHeight = page.height * ((renderPageAt (fin k) env w).state.baseScale
        * w.state.zoomLevel) := by
  rcases w with ⟨st, ⟨wr, cv, ov, dl, rl⟩⟩
  simp only at hdoc hrange hpage hcanvas
  subst hcanvas
  unfold renderPageAt
  simp only [hdoc, if_neg hrange, hpage]
  cases wr <;> cases env.renderOk <;>
    simp only [if_true, Bool.true_eq_false, if_false, renderTail_canvas,
      updateCanvasCursor_state, applyPanTransform_state, drawSelections_state,
      setupDrawingLayer_state, Option.map_some'] <;>
    exact ⟨_, rfl, rfl, rfl, JSNum.mul_mul_div_cancel _ _ k hk,
      JSNum.mul_mul_div_cancel _ _ k hk⟩

/-- Whatever non-zero render scale is used, `renderPageAt` leaves the same module state
and the same display size. -/
theorem renderPageAt_display_eq (k k2 : ℚ) (hk : k ≠ 0) (hk2 : k2 ≠ 0) (env : RenderEnv)
    (w : World) :
    (renderPageAt (fin k) env w).state = (renderPageAt (fin k2) env w).state ∧
    (renderPageAt (fin k) env w).dom.canvas.map (fun c => (c.styleWidth, c.styleHeight))
      = (renderPageAt (fin k2) env w).dom.canvas.map (fun c => (c.styleWidth, c.styleHeight)) := by
  rcases w with ⟨st, ⟨wr, cv, ov, dl, rl⟩⟩
  unfold renderPageAt
  cases hdoc : st.pdfDoc with
  | none => exact ⟨rfl, rfl⟩
  | some doc =>
    simp only []
    by_cases hrange : st.currentPage < 1 ∨ st.currentPage > st.totalPages
    · simp only [if_pos hrange]
      exact ⟨trivial, trivial⟩
    · simp only [if_neg hrange]
      cases hpage : getPage env.getPageOk doc st.currentPage with
      | none => exact ⟨rfl, rfl⟩
      | some page =>
        cases cv with
        | none => cases wr <;> exact ⟨rfl, rfl⟩
        | some c =>
          cases wr <;> cases env.renderOk <;>
            simp only [if_true, Bool.true_eq_false, if_false, renderTail_canvas,
              updateCanvasCursor_state, applyPanTransform_state, drawSelections_state,
              setupDrawingLayer_state, Option.map_some', getViewport,
              JSNum.mul_mul_div_cancel _ _ k hk, JSNum.mul_mul_div_cancel _ _ k2 hk2] <;>
            exact ⟨trivial, trivial⟩

/-- The mapper reads the module state and the display size of the canvas only. -/
theorem displayToOriginal_congr (w1 w2 : World) (hstate : w1.state = w2.state)
    (hcanvas : w1.dom.canvas.map (fun c => (c.styleWidth, c.styleHeight))
      = w2.dom.canvas.map (fun c => (c.styleWidth, c.styleHeight)))
    (x y : JSNum) : displayToOriginal w1 x y = displayToOriginal w2 x y := by
  rcases w1 with ⟨s1, ⟨wr1, cv1, ov1, dl1, rl1⟩⟩
  rcases w2 with ⟨s2, ⟨wr2, cv2, ov2, dl2, rl2⟩⟩
  simp only at hstate hcanvas
  subst hstate
  unfold displayToOriginal
  cases cv1 <;> cases cv2 <;> simp only [Option.map_some', Option.map_none', Option.some.injEq,
    Prod.mk.injEq, reduceCtorEq] at hcanvas
  · rfl
  · cases pageDimAt s1.pageDimensions s1.currentPage <;> simp only [hcanvas.1, hcanvas.2]

/-- C11, as amended.  The quality multiplier never reaches the display size, in exact
arithmetic (which stands in for the floating-point tolerance): `renderPage` is
`renderPageAt RENDER_SCALE`, and for every non-zero render scale `k`, when the render
gets as far as sizing the canvas, the bitmap is requested at
`baseScale * zoomLevel * k` (bitmap size: page size times that scale) while the
display size is the page size times `baseScale * zoomLevel`; so the display size, every
point mapped by `displayToOriginal` and every selection committed afterwards are the
same as with `RENDER_SCALE`. -/
theorem quality_multiplier_cancels (k : ℚ) (hk : k ≠ 0) (env : RenderEnv) (w : World)
    (doc : PdfDoc) (page : PageDim) (c : Canvas)
    (hdoc : w.state.pdfDoc = some doc)
    (hrange : ¬ (w.state.currentPage < 1 ∨ w.state.currentPage > w.state.totalPages))
    (hpage : getPage env.getPageOk doc w.state.currentPage = some page)
    (hcanvas : w.dom.canvas = some c) :
    renderPage env w = renderPageAt RENDER_SCALE env w ∧
    (∃ c1, (renderPageAt (fin k) env w).dom.canvas = some c1 ∧
      c1.width = page.width * ((renderPageAt (fin k) env w).state.baseScale
        * w.state.zoomLevel * fin k) ∧
      c1.height = page.height * ((renderPageAt (fin k) env w).state.baseScale
        * w.state.zoomLevel * fin k) ∧
      c1.styleWidth = page.width * ((renderPageAt (fin k) env w).state.baseScale
        * w.state.zoomLevel) ∧
      c1.styleHeight = page.height * ((renderPageAt (fin k) env w).state.baseScale
        * w.state.zoomLevel)) ∧
    (renderPageAt (fin k) env w).state = (renderPage env w).state ∧
    (∀ x y, displayToOriginal (renderPageAt (fin k) env w) x y
      = displayToOriginal (renderPage env w) x y) ∧
    (∀ left top width height newId,
      (addSelection (renderPageAt (fin k) env w) left top width height newId).state.selections
        = (addSelection (renderPage env w) left top width height newId).state.selections) := by
  have h3 : (3 : ℚ) ≠ 0 := by norm_num
  have heq := renderPageAt_display_eq k 3 hk h3 env w
  have hmap : ∀ x y, displayToOriginal (renderPageAt (fin k) env w) x y
      = displayToOriginal (renderPage env w) x y :=
    displayToOriginal_congr _ _ heq.1 heq.2
  refine ⟨rfl, renderPageAt_canvas k hk env w doc page c hdoc hrange hpage hcanvas,
    heq.1, hmap, ?_⟩
  intro left top width height newId
  rw [addSelection_selections, addSelection_selections, hmap, hmap, heq.1]
  rfl

/-- Witness of C11: on the sample world a render at scale 1 instead of 3 maps the
display point (100, 100) to the same page point. -/
theorem quality_multiplier_cancels_witness :
    displayToOriginal (renderPageAt (fin 1) { getPageOk := true, renderOk := true } sampleWorld)
        (fin 100) (fin 100)
      = displayToOriginal (renderPage { getPageOk := true, renderOk := true } sampleWorld)
        (fin 100) (fin 100) :=
  (quality_multiplier_cancels 1 (by norm_num) { getPageOk := true, renderOk := true }
    sampleWorld sampleDoc { width := fin 600, height := fin 800 } _ rfl (by decide) rfl
    rfl).2.2.2.1 _ _

/-! ## Fit to container -/

/-- The base scale after a `renderPage` that fetched its page, in a wrapper. -/
theorem renderPage_baseScale (env : RenderEnv) (w : World) (doc : PdfDoc) (page : PageDim)
    (wr : Wrapper)
    (hdoc : w.state.pdfDoc = some doc)
    (hrange : ¬ (w.state.currentPage < 1 ∨ w.state.currentPage > w.state.totalPages))
    (hpage : getPage env.getPageOk doc w.state.currentPage = some page)
    (hwrap : w.dom.wrapper = some wr) :
    (renderPage env w).state.baseScale
      = JSNum.min2 (JSNum.min2
          ((fin wr.clientWidth - fin 80) / (getViewport page (fin 1)).width)
          ((fin wr.clientHeight - fin 80) / (getViewport page (fin 1)).height)) (fin 1) := by
  rcases w with ⟨st, ⟨wr0, cv, ov, dl, rl⟩⟩
  simp only at hdoc hrange hpage hwrap
  subst hwrap
  unfold renderPage
  simp only [hdoc, if_neg hrange, hpage]
  cases cv with
  | none => rfl
  | some c =>
    cases env.renderOk <;>
      simp only [if_true, Bool.true_eq_false, if_false, updateCanvasCursor_state,
        applyPanTransform_state, drawSelections_state, setupDrawingLayer_state]

/-- C12, as amended.  Fit-to-container base scale, in exact arithmetic (which stands in
for the floating-point tolerance): for every container size `(cw, ch)` and page of
positive intrinsic size `(W, H)`, a `renderPage` that fetched the page sets
`baseScale = min((cw - 80)/W, (ch - 80)/H, 1.0)`; hence `baseScale <= 1.0`, and the
page scaled by `baseScale` fits within the container less the 80 pixels of padding:
`W * baseScale <= cw - 80` and `H * baseScale <= ch - 80`. -/
theorem fit_to_container (env : RenderEnv) (w : World) (doc : PdfDoc) (W H : ℚ)
    (cw ch : Nat)
    (hdoc : w.state.pdfDoc = some doc)
    (hrange : ¬ (w.state.currentPage < 1 ∨ w.state.currentPage > w.state.totalPages))
    (hpage : getPage env.getPageOk doc w.state.currentPage
      = some { width := fin W, height := fin H })
    (hwrap : w.dom.wrapper = some { clientWidth := cw, clientHeight := ch })
    (hW : 0 < W) (hH : 0 < H) :
    (renderPage env w).state.baseScale
      = fin (min (min (((cw : ℚ) - 80) / W) (((ch : ℚ) - 80) / H)) 1) ∧
    min (min (((cw : ℚ) - 80) / W) (((ch : ℚ) - 80) / H)) 1 ≤ 1 ∧
    W * min (min (((cw : ℚ) - 80) / W) (((ch : ℚ) - 80) / H)) 1 ≤ (cw : ℚ) - 80 ∧
    H * min (min (((cw : ℚ) - 80) / W) (((ch : ℚ) - 80) / H)) 1 ≤ (ch : ℚ) - 80 := by
  refine ⟨?_, min_le_right _ _, ?_, ?_⟩
  · rw [renderPage_baseScale env w doc _ _ hdoc hrange hpage hwrap]
    simp only [getViewport, JSNum.fin_mul_fin, mul_one, JSNum.fin_sub_fin,
      JSNum.fin_div_fin _ _ hW.ne', JSNum.fin_div_fin _ _ hH.ne', JSNum.min2_fin]
  · have h1 : min (min (((cw : ℚ) - 80) / W) (((ch : ℚ) - 80) / H)) 1 ≤ ((cw : ℚ) - 80) / W :=
      le_trans (min_le_left _ _) (min_le_left _ _)
    calc W * min (min (((cw : ℚ) - 80) / W) (((ch : ℚ) - 80) / H)) 1
        ≤ W * (((cw : ℚ) - 80) / W) := mul_le_mul_of_nonneg_left h1 hW.le
      _ = (cw : ℚ) - 80 := by field_simp
  · have h1 : min (min (((cw : ℚ) - 80) / W) (((ch : ℚ) - 80) / H)) 1 ≤ ((ch : ℚ) - 80) / H :=
      le_trans (min_le_left _ _) (min_le_right _ _)
    calc H * min (min (((cw : ℚ) - 80) / W) (((ch : ℚ) - 80) / H)) 1
        ≤ H * (((ch : ℚ) - 80) / H) := mul_le_mul_of_nonneg_left h1 hH.le
      _ = (ch : ℚ) - 80 := by field_simp

/-- Witness of C12: page 600 x 800 in a wrapper of 380 x 480 gives base scale 0.5. -/
theorem fit_to_container_witness :
    (renderPage { getPageOk := true, renderOk := true } sampleWorld).state.baseScale
      = fin (1 / 2) := by
  have h := (fit_to_container { getPageOk := true, renderOk := true } sampleWorld sampleDoc
    600 800 380 480 rfl (by decide) rfl rfl (by norm_num) (by norm_num)).1
  rw [h]
  norm_num

/-! ## What each handler writes -/

/-- The end of a successful `handleFile` writes only `thumbnails` and `baseScale`. -/
theorem handleFile_tail_state (env : LoadEnv) (w3 : World) :
    ∃ t b, (renderPage env.render (renderAllThumbnails env w3)).state
      = { w3.state with thumbnails := t, baseScale := b } := by
  obtain ⟨t, ht⟩ := renderAllThumbnails_frame env w3
  obtain ⟨b, hb⟩ := renderPage_state env.render (renderAllThumbnails env w3)
  rw [hb, ht]
  exact ⟨t, b, rfl⟩

/-- `handleFile` writes, of the module state, only `processing`, `pdfFile`, `pdfDoc`,
`totalPages`, `currentPage`, `pageDimensions`, `thumbnails` and `baseScale`. -/
theorem handleFile_state (env : LoadEnv) (w : World) :
    ∃ proc file doc total cur dims thumbs base,
      (handleFile env w).state
        = { w.state with
            processing := proc, pdfFile := file, pdfDoc := doc, totalPages := total,
            currentPage := cur, pageDimensions := dims, thumbnails := thumbs,
            baseScale := base } := by
  unfold handleFile
  by_cases hv : env.valid = false
  · rw [if_pos hv]
    exact ⟨_, _, _, _, _, _, _, _, rfl⟩
  rw [if_neg hv]
  simp only []
  by_cases hr : env.readOk = false
  · rw [if_pos hr]
    exact ⟨_, _, _, _, _, _, _, _, rfl⟩
  rw [if_neg hr]
  by_cases hp : env.pdfjsLoaded = false
  · rw [if_pos hp]
    exact ⟨_, _, _, _, _, _, _, _, rfl⟩
  rw [if_neg hp]
  cases env.doc with
  | none => exact ⟨_, _, _, _, _, _, _, _, rfl⟩
  | some doc =>
    simp only []
    by_cases hc : (cachePageDimensions doc env.failAt (List.range' 1 doc.pages.length)
        w.state.pageDimensions).2 = false
    · rw [if_pos hc]
      exact ⟨_, _, _, _, _, _, _, _, rfl⟩
    · rw [if_neg hc]
      obtain ⟨t, b, h⟩ := handleFile_tail_state env
        { w with state :=
            { w.state with
              processing := true, pdfFile := some env.fileName, pdfDoc := some doc,
              totalPages := doc.pages.length, currentPage := 1,
              pageDimensions := (cachePageDimensions doc env.failAt
                (List.range' 1 doc.pages.length) w.state.pageDimensions).1 } }
      simp only [h]
      exact ⟨_, _, _, _, _, _, _, _, rfl⟩

/-- What `zoomIn` does to the module state: nothing at or above the upper bound,
otherwise one clamped step up and a new base scale. -/
theorem zoomIn_state (env : RenderEnv) (w : World) :
    (lt w.state.zoomLevel w.state.maxScale = false ∧ zoomIn env w = w) ∨
    (lt w.state.zoomLevel w.state.maxScale = true ∧
      ∃ b, (zoomIn env w).state
        = { w.state with
            zoomLevel := JSNum.min2 (w.state.zoomLevel + ZOOM_STEP) w.state.maxScale,
            baseScale := b }) := by
  unfold zoomIn
  cases h : lt w.state.zoomLevel w.state.maxScale with
  | false => exact Or.inl ⟨rfl, by simp⟩
  | true =>
    refine Or.inr ⟨rfl, ?_⟩
    simp only [if_true]
    obtain ⟨b, hb⟩ := renderPage_state env { w with state := { w.state with
      zoomLevel := JSNum.min2 (w.state.zoomLevel + ZOOM_STEP) w.state.maxScale } }
    exact ⟨b, hb⟩

/-- What `zoomOut` does to the module state: nothing at or below the lower bound,
otherwise one clamped step down and a new base scale. -/
theorem zoomOut_state (env : RenderEnv) (w : World) :
    (gt w.state.zoomLevel w.state.minScale = false ∧ zoomOut env w = w) ∨
    (gt w.state.zoomLevel w.state.minScale = true ∧
      ∃ b, (zoomOut env w).state
        = { w.state with
            zoomLevel := JSNum.max2 (w.state.zoomLevel - ZOOM_STEP) w.state.minScale,
            baseScale := b }) := by
  unfold zoomOut
  cases h : gt w.state.zoomLevel w.state.minScale with
  | false => exact Or.inl ⟨rfl, by simp⟩
  | true =>
    refine Or.inr ⟨rfl, ?_⟩
    simp only [if_true]
    obtain ⟨b, hb⟩ := renderPage_state env { w with state := { w.state with
      zoomLevel := JSNum.max2 (w.state.zoomLevel - ZOOM_STEP) w.state.minScale } }
    exact ⟨b, hb⟩

/-- What `resetZoom` does to the module state: zoom level 1, pan offset (0, 0) and a new
base scale. -/
theorem resetZoom_state (env : RenderEnv) (w : World) :
    ∃ b, (resetZoom env w).state
      = { w.state with zoomLevel := fin 1, panX := fin 0, panY := fin 0, baseScale := b } := by
  unfold resetZoom
  obtain ⟨b, hb⟩ := renderPage_state env { w with state := { w.state with
    zoomLevel := fin 1, panX := fin 0, panY := fin 0 } }
  exact ⟨b, hb⟩

/-- What `goToPage` does to the module state: nothing, or a new current page and a new
base scale. -/
theorem goToPage_state (env : RenderEnv) (w : World) (pageNum : Nat) :
    ∃ cur b, (goToPage env w pageNum).state
      = { w.state with currentPage := cur, baseScale := b } := by
  unfold goToPage
  split
  · exact ⟨_, _, rfl⟩
  · obtain ⟨b, hb⟩ := renderPage_state env
      { w with state := { w.state with currentPage := pageNum } }
    exact ⟨_, b, hb⟩

theorem togglePanTool_state (w : World) :
    (togglePanTool w).state = { w.state with panToolActive := !w.state.panToolActive } := by
  unfold togglePanTool
  rw [updateCanvasCursor_state]

/-- What `handleDrawEnd` does to the module state: nothing, or a new store and an idle
controller. -/
theorem handleDrawEnd_state (w : World) (e : MouseEv) (rect : ClientRect) (newId : String) :
    handleDrawEnd w e rect newId = w ∨
    ∃ sels, (handleDrawEnd w e rect newId).state
      = { w.state with
          selections := sels, isDrawing := false, drawStart := none, currentRect := none } := by
  unfold handleDrawEnd
  split
  · split
    · exact Or.inl rfl
    · refine Or.inr ?_
      simp only []
      split
      · rw [addSelection_state]
        exact ⟨_, rfl⟩
      · exact ⟨_, rfl⟩
  · exact Or.inl rfl

theorem deleteSelection_state (w : World) (id : String) :
    ∃ sels, (deleteSelection w id).state = { w.state with selections := sels } := by
  unfold deleteSelection
  split
  · exact ⟨_, rfl⟩
  · rw [renderSelectionList_state, drawSelections_state]
    exact ⟨_, rfl⟩

theorem clearAllSelections_state (w : World) (confirmed : Bool) :
    ∃ sels, (clearAllSelections w confirmed).state = { w.state with selections := sels } := by
  unfold clearAllSelections
  split
  · exact ⟨_, rfl⟩
  · split
    · exact ⟨_, rfl⟩
    · rw [renderSelectionList_state, drawSelections_state]
      exact ⟨_, rfl⟩

theorem handleDrawStart_state (w : World) (e : MouseEv) (rect : ClientRect) :
    handleDrawStart w e rect = w ∨
    (w.state.isPanning = false ∧
      ∃ p, handleDrawStart w e rect
        = { w with state := { w.state with isDrawing := true, drawStart := some p } }) := by
  unfold handleDrawStart
  split
  · exact Or.inl rfl
  · rename_i h
    split
    · exact Or.inl rfl
    · refine Or.inr ⟨?_, _, rfl⟩
      rw [not_or] at h
      simpa using h.2

theorem handleDrawCancel_state (w : World) :
    handleDrawCancel w = w ∨
    (handleDrawCancel w).state
      = { w.state with isDrawing := false, drawStart := none, currentRect := none } := by
  unfold handleDrawCancel
  split
  · exact Or.inl rfl
  · exact Or.inr rfl

theorem panMouseDown_state (w : World) (e : MouseEv) :
    panMouseDown w e = w ∨
    (w.state.isDrawing = false ∧
      panMouseDown w e = { w with state := { w.state with
        isPanning := true, lastMouseX := fin e.clientX, lastMouseY := fin e.clientY } }) := by
  unfold panMouseDown
  split
  · exact Or.inl rfl
  · rename_i h
    refine Or.inr ⟨?_, rfl⟩
    simp only [not_or] at h
    simpa using h.2.2

theorem panMouseMove_state (w : World) (e : MouseEv) :
    (w.state.isPanning = false ∧ panMouseMove w e = w) ∨
    (w.state.isPanning = true ∧
      (panMouseMove w e).state = { w.state with
        panX := w.state.panX + (fin e.clientX - w.state.lastMouseX),
        panY := w.state.panY + (fin e.clientY - w.state.lastMouseY),
        lastMouseX := fin e.clientX, lastMouseY := fin e.clientY }) := by
  unfold panMouseMove
  cases h : w.state.isPanning with
  | false => exact Or.inl ⟨rfl, by simp⟩
  | true => exact Or.inr ⟨rfl, by simp [applyPanTransform_state]⟩

theorem panMouseUp_state (w : World) :
    panMouseUp w = w ∨ (panMouseUp w).state = { w.state with isPanning := false } := by
  unfold panMouseUp
  split
  · exact Or.inr (by rw [updateCanvasCursor_state])
  · exact Or.inl rfl

/-! ## Zoom clamp -/

theorem zoomIn_zoomInv (env : RenderEnv) (w : World) (h : ZoomInv w.state) :
    ZoomInv (zoomIn env w).state := by
  obtain ⟨z, hz, h1, h2, hmin, hmax⟩ := h
  rcases zoomIn_state env w with ⟨_, he⟩ | ⟨_, b, he⟩
  · rw [he]
    exact ⟨z, hz, h1, h2, hmin, hmax⟩
  · rw [he]
    refine ⟨min (z + 1 / 4) 3, ?_, ?_, min_le_right _ _, hmin, hmax⟩
    · show JSNum.min2 (w.state.zoomLevel + ZOOM_STEP) w.state.maxScale = _
      rw [hz, hmax]
      simp [ZOOM_STEP, MAX_ZOOM]
    · exact le_min (by linarith) (by norm_num)

theorem zoomOut_zoomInv (env : RenderEnv) (w : World) (h : ZoomInv w.state) :
    ZoomInv (zoomOut env w).state := by
  obtain ⟨z, hz, h1, h2, hmin, hmax⟩ := h
  rcases zoomOut_state env w with ⟨_, he⟩ | ⟨_, b, he⟩
  · rw [he]
    exact ⟨z, hz, h1, h2, hmin, hmax⟩
  · rw [he]
    refine ⟨max (z - 1 / 4) (1 / 2), ?_, le_max_right _ _, ?_, hmin, hmax⟩
    · show JSNum.max2 (w.state.zoomLevel - ZOOM_STEP) w.state.minScale = _
      rw [hz, hmin]
      simp [ZOOM_STEP, MIN_ZOOM]
    · exact max_le (by linarith) (by norm_num)

/-- Every operation keeps the zoom clamp. -/
theorem step_zoomInv (w : World) (op : Op) (h : ZoomInv w.state) : ZoomInv (step w op).state := by
  cases op with
  | load env =>
    obtain ⟨_, _, _, _, _, _, _, _, he⟩ := handleFile_state env w
    show ZoomInv (handleFile env w).state
    rw [he]
    exact h
  | drawStart e rect =>
    show ZoomInv (handleDrawStart w e rect).state
    rcases handleDrawStart_state w e rect with he | ⟨_, p, he⟩ <;> rw [he] <;> exact h
  | drawMove e rect =>
    obtain ⟨⟨r, he⟩, _⟩ := handleDrawMove_frame w e rect
    show ZoomInv (handleDrawMove w e rect).state
    rw [he]
    exact h
  | drawEnd e rect newId =>
    show ZoomInv (handleDrawEnd w e rect newId).state
    rcases handleDrawEnd_state w e rect newId with he | ⟨_, he⟩ <;> rw [he] <;> exact h
  | drawCancel =>
    show ZoomInv (handleDrawCancel w).state
    rcases handleDrawCancel_state w with he | he <;> rw [he] <;> exact h
  | zoomIn env => exact zoomIn_zoomInv env w h
  | zoomOut env => exact zoomOut_zoomInv env w h
  | zoomReset env =>
    obtain ⟨b, he⟩ := resetZoom_state env w
    obtain ⟨z, _, _, _, hmin, hmax⟩ := h
    show ZoomInv (resetZoom env w).state
    rw [he]
    exact ⟨1, rfl, by norm_num, by norm_num, hmin, hmax⟩
  | panToggle =>
    show ZoomInv (togglePanTool w).state
    rw [togglePanTool_state]
    exact h
  | panDown e =>
    show ZoomInv (panMouseDown w e).state
    rcases panMouseDown_state w e with he | ⟨_, he⟩ <;> rw [he] <;> exact h
  | panMove e =>
    show ZoomInv (panMouseMove w e).state
    rcases panMouseMove_state w e with ⟨_, he⟩ | ⟨_, he⟩ <;> rw [he] <;> exact h
  | panUp =>
    show ZoomInv (panMouseUp w).state
    rcases panMouseUp_state w with he | he <;> rw [he] <;> exact h
  | goToPage env n =>
    obtain ⟨_, _, he⟩ := goToPage_state env w n
    show ZoomInv (goToPage env w n).state
    rw [he]
    exact h
  | delete id =>
    obtain ⟨_, he⟩ := deleteSelection_state w id
    show ZoomInv (deleteSelection w id).state
    rw [he]
    exact h
  | clear confirmed =>
    obtain ⟨_, he⟩ := clearAllSelections_state w confirmed
    show ZoomInv (clearAllSelections w confirmed).state
    rw [he]
    exact h
  | save env =>
    obtain ⟨_, he⟩ := saveRedactedPdf_world env w
    show ZoomInv (saveRedactedPdf env w).world.state
    rw [he]
    exact h
  | reset =>
    obtain ⟨z, _, _, _, hmin, hmax⟩ := h
    exact ⟨1, rfl, by norm_num, by norm_num, hmin, hmax⟩
  | resize cw ch => exact h

theorem run_zoomInv (ops : List Op) (w : World) (h : ZoomInv w.state) :
    ZoomInv (run w ops).state := by
  induction ops generalizing w with
  | nil => exact h
  | cons op rest ih => exact ih (step w op) (step_zoomInv w op h)

theorem initialState_zoomInv : ZoomInv initialState :=
  ⟨1, rfl, by norm_num, by norm_num, rfl, rfl⟩

/-- Under the zoom clamp, zoom-in sets the zoom level to `min(zoomLevel + 0.25, 3.0)`
and zoom-out to `max(zoomLevel - 0.25, 0.5)`. -/
theorem zoom_steps_of_zoomInv (env1 env2 : RenderEnv) (w : World) (h : ZoomInv w.state) :
    ∃ z : ℚ, w.state.zoomLevel = fin z ∧ 1 / 2 ≤ z ∧ z ≤ 3 ∧
      (zoomIn env1 w).state.zoomLevel = fin (min (z + 1 / 4) 3) ∧
      (zoomOut env2 w).state.zoomLevel = fin (max (z - 1 / 4) (1 / 2)) := by
  obtain ⟨z, hz, h1, h2, hmin, hmax⟩ := h
  refine ⟨z, hz, h1, h2, ?_, ?_⟩
  · rcases zoomIn_state env1 w with ⟨hlt, he⟩ | ⟨_, b, he⟩
    · rw [he, hz]
      rw [hz, hmax] at hlt
      have h3 : ¬ z < 3 := by simpa [MAX_ZOOM] using hlt
      have h4 : z = 3 := le_antisymm h2 (not_lt.mp h3)
      rw [h4]
      norm_num
    · rw [he]
      show JSNum.min2 (w.state.zoomLevel + ZOOM_STEP) w.state.maxScale = _
      rw [hz, hmax]
      simp [ZOOM_STEP, MAX_ZOOM]
  · rcases zoomOut_state env2 w with ⟨hgt, he⟩ | ⟨_, b, he⟩
    · rw [he, hz]
      rw [hz, hmin] at hgt
      have h3 : ¬ 1 / 2 < z := by simpa [MIN_ZOOM] using hgt
      have h4 : z = 1 / 2 := le_antisymm (not_lt.mp h3) h1
      rw [h4]
      norm_num
    · rw [he]
      show JSNum.max2 (w.state.zoomLevel - ZOOM_STEP) w.state.minScale = _
      rw [hz, hmin]
      simp [ZOOM_STEP, MIN_ZOOM]

/-- C13. Zoom clamp invariant: in every state reachable from the initial state by any
sequence of operations (zoom-in, zoom-out, zoom-reset and document reset among them),
`0.5 <= zoomLevel <= 3.0`; there zoom-in changes `zoomLevel` to
`min(zoomLevel + 0.25, 3.0)` and zoom-out to `max(zoomLevel - 0.25, 0.5)`; zoom-in at
3.0 and zoom-out at 0.5 change nothing. -/
theorem zoom_clamp_invariant (dom : Dom) (ops : List Op) (env1 env2 : RenderEnv) :
    (∃ z : ℚ, (run (initialWorld dom) ops).state.zoomLevel = fin z ∧ 1 / 2 ≤ z ∧ z ≤ 3 ∧
      (zoomIn env1 (run (initialWorld dom) ops)).state.zoomLevel = fin (min (z + 1 / 4) 3) ∧
      (zoomOut env2 (run (initialWorld dom) ops)).state.zoomLevel
        = fin (max (z - 1 / 4) (1 / 2))) ∧
    (∀ v : World, v.state.zoomLevel = fin 3 → v.state.maxScale = MAX_ZOOM →
      zoomIn env1 v = v) ∧
    (∀ v : World, v.state.zoomLevel = fin (1 / 2) → v.state.minScale = MIN_ZOOM →
      zoomOut env2 v = v) := by
  refine ⟨zoom_steps_of_zoomInv env1 env2 _
    (run_zoomInv ops (initialWorld dom) initialState_zoomInv), ?_, ?_⟩
  · intro v hz hmax
    unfold zoomIn
    rw [hz, hmax]
    simp [MAX_ZOOM]
  · intro v hz hmin
    unfold zoomOut
    rw [hz, hmin]
    simp [MIN_ZOOM]

/-! ## Zoom reset and pan -/

/-- C14. Zoom reset: from every state, whatever the prior zoom level and pan offset,
the reset-zoom operation leaves `zoomLevel = 1.0` and `(panX, panY) = (0, 0)`. -/
theorem zoom_reset (env : RenderEnv) (w : World) :
    (resetZoom env w).state.zoomLevel = fin 1 ∧
    (resetZoom env w).state.panX = fin 0 ∧
    (resetZoom env w).state.panY = fin 0 := by
  obtain ⟨b, he⟩ := resetZoom_state env w
  rw [he]
  exact ⟨rfl, rfl, rfl⟩

/-- In `zoomedPannedWorld` the zoom level is 2.0 and the pan offset is (30, -10). -/
theorem zoomedPannedWorld_eval :
    zoomedPannedWorld.state.zoomLevel = fin 2 ∧
    zoomedPannedWorld.state.panX = fin 30 ∧
    zoomedPannedWorld.state.panY = fin (-10) := by
  simp [zoomedPannedWorld, run, step, zoomIn, togglePanTool, panMouseDown, panMouseMove,
    panMouseUp, sampleWorld, sampleDom, initialState, sampleDoc, getPage, getViewport,
    renderPage, setupDrawingLayer, drawSelections, applyPanTransform, updateCanvasCursor,
    pageSelections, RENDER_SCALE, MAX_ZOOM, MIN_ZOOM, ZOOM_STEP, JSNum.fin_div_fin]
  norm_num

/-- Witness of C14: zoom raised from 1.0 to 2.0 by four zoom-in steps, panned by
(30, -10), then reset. -/
theorem zoom_reset_witness :
    (zoomedPannedWorld.state.zoomLevel = fin 2 ∧
      zoomedPannedWorld.state.panX = fin 30 ∧
      zoomedPannedWorld.state.panY = fin (-10)) ∧
    (resetZoom { getPageOk := true, renderOk := true } zoomedPannedWorld).state.zoomLevel
      = fin 1 ∧
    (resetZoom { getPageOk := true, renderOk := true } zoomedPannedWorld).state.panX = fin 0 ∧
    (resetZoom { getPageOk := true, renderOk := true } zoomedPannedWorld).state.panY = fin 0 :=
  ⟨zoomedPannedWorld_eval, zoom_reset _ zoomedPannedWorld⟩

/-- In `pannedTwoPageWorld` page 1 of 2 is shown, pan mode is on and the pan offset is
(30, -10). -/
theorem pannedTwoPageWorld_eval :
    pannedTwoPageWorld.state.currentPage = 1 ∧
    pannedTwoPageWorld.state.totalPages = 2 ∧
    pannedTwoPageWorld.state.panToolActive = true ∧
    pannedTwoPageWorld.state.panX = fin 30 ∧
    pannedTwoPageWorld.state.panY = fin (-10) := by
  simp [pannedTwoPageWorld, run, step, handleFile, cachePageDimensions, setPageDim,
    renderAllThumbnails, sampleLoad, twoPageDoc, initialWorld, zoomIn, togglePanTool,
    panMouseDown, panMouseMove, panMouseUp, sampleDom, initialState, getPage, getViewport,
    renderPage, setupDrawingLayer, drawSelections, applyPanTransform, updateCanvasCursor,
    pageSelections, RENDER_SCALE, MAX_ZOOM, MIN_ZOOM, ZOOM_STEP, JSNum.fin_div_fin, List.range']
  norm_num

/-- C15, counterexample.  In `pannedTwoPageWorld` the pan offset is (30, -10); it is
still (30, -10), not (0, 0), after the pan-mode toggle, and after `goToPage(2)`, which
does navigate to page 2. -/
theorem pan_reset_counterexample :
    (togglePanTool pannedTwoPageWorld).state.panX = fin 30 ∧
    (togglePanTool pannedTwoPageWorld).state.panY = fin (-10) ∧
    (togglePanTool pannedTwoPageWorld).state.panX ≠ fin 0 ∧
    (goToPage { getPageOk := true, renderOk := true } pannedTwoPageWorld 2).state.currentPage
      = 2 ∧
    (goToPage { getPageOk := true, renderOk := true } pannedTwoPageWorld 2).state.panX
      = fin 30 ∧
    (goToPage { getPageOk := true, renderOk := true } pannedTwoPageWorld 2).state.panY
      = fin (-10) ∧
    (goToPage { getPageOk := true, renderOk := true } pannedTwoPageWorld 2).state.panX
      ≠ fin 0 := by
  obtain ⟨h1, h2, _, h4, h5⟩ := pannedTwoPageWorld_eval
  have hnav : (goToPage { getPageOk := true, renderOk := true } pannedTwoPageWorld 2).state
      = { (renderPage { getPageOk := true, renderOk := true }
            { pannedTwoPageWorld with
              state := { pannedTwoPageWorld.state with currentPage := 2 } }).state with
          currentPage := 2 } := by
    unfold goToPage
    rw [if_neg (by rw [h1, h2]; decide)]
    obtain ⟨b, hb⟩ := renderPage_state { getPageOk := true, renderOk := true }
      { pannedTwoPageWorld with state := { pannedTwoPageWorld.state with currentPage := 2 } }
    rw [hb]
  have hnav2 := goToPage_state { getPageOk := true, renderOk := true } pannedTwoPageWorld 2
  obtain ⟨cur, b, hb⟩ := hnav2
  refine ⟨?_, ?_, ?_, ?_, ?_, ?_, ?_⟩
  · rw [togglePanTool_state]; exact h4
  · rw [togglePanTool_state]; exact h5
  · rw [togglePanTool_state]
    show pannedTwoPageWorld.state.panX ≠ fin 0
    rw [h4]
    simp
  · rw [hnav]
  · rw [hb]; exact h4
  · rw [hb]; exact h5
  · rw [hb]
    show pannedTwoPageWorld.state.panX ≠ fin 0
    rw [h4]
    simp

/-- C15, as amended.  The pan-mode toggle and `goToPage(n)`, for any `n`, leave
`(panX, panY)` as they were; the offset is set to `(0, 0)` by zoom reset and by document
reset. -/
theorem pan_kept_by_toggle_and_navigation (env : RenderEnv) (w : World) (pageNum : Nat) :
    ((togglePanTool w).state.panX = w.state.panX ∧
      (togglePanTool w).state.panY = w.state.panY) ∧
    ((goToPage env w pageNum).state.panX = w.state.panX ∧
      (goToPage env w pageNum).state.panY = w.state.panY) ∧
    ((resetZoom env w).state.panX = fin 0 ∧ (resetZoom env w).state.panY = fin 0) ∧
    ((resetState w.state).panX = fin 0 ∧ (resetState w.state).panY = fin 0) := by
  obtain ⟨cur, b, hb⟩ := goToPage_state env w pageNum
  obtain ⟨b2, hb2⟩ := resetZoom_state env w
  rw [togglePanTool_state, hb, hb2]
  exact ⟨⟨rfl, rfl⟩, ⟨rfl, rfl⟩, ⟨rfl, rfl⟩, ⟨rfl, rfl⟩⟩

/-! ## Pan accumulation -/

/-- One pointer-move of a pan gesture adds the distance from the last position. -/
theorem panMouseMove_panning (w : World) (e : MouseEv) (a b lx ly : ℚ)
    (hpan : w.state.isPanning = true)
    (hx : w.state.panX = fin a) (hy : w.state.panY = fin b)
    (hlx : w.state.lastMouseX = fin lx) (hly : w.state.lastMouseY = fin ly) :
    (panMouseMove w e).state.isPanning = true ∧
    (panMouseMove w e).state.panX = fin (a + (e.clientX - lx)) ∧
    (panMouseMove w e).state.panY = fin (b + (e.clientY - ly)) ∧
    (panMouseMove w e).state.lastMouseX = fin e.clientX ∧
    (panMouseMove w e).state.lastMouseY = fin e.clientY := by
  rcases panMouseMove_state w e with ⟨h, _⟩ | ⟨_, he⟩
  · rw [hpan] at h
    exact absurd h (by simp)
  · rw [he]
    refine ⟨hpan, ?_, ?_, rfl, rfl⟩
    · show w.state.panX + (fin e.clientX - w.state.lastMouseX) = _
      rw [hx, hlx]
      simp
    · show w.state.panY + (fin e.clientY - w.state.lastMouseY) = _
      rw [hy, hly]
      simp

/-- Any number of pointer-moves of a pan gesture add up to the distance between the
position before the first and the position of the last. -/
theorem panMoves_panning (moves : List MouseEv) (w : World) (a b lx ly : ℚ)
    (hpan : w.state.isPanning = true)
    (hx : w.state.panX = fin a) (hy : w.state.panY = fin b)
    (hlx : w.state.lastMouseX = fin lx) (hly : w.state.lastMouseY = fin ly) :
    (moves.foldl panMouseMove w).state.isPanning = true ∧
    (moves.foldl panMouseMove w).state.panX
      = fin (a + ((moves.foldl (fun _ m => (m.clientX, m.clientY)) (lx, ly)).1 - lx)) ∧
    (moves.foldl panMouseMove w).state.panY
      = fin (b + ((moves.foldl (fun _ m => (m.clientX, m.clientY)) (lx, ly)).2 - ly)) := by
  induction moves generalizing w a b lx ly with
  | nil => simp [hpan, hx, hy]
  | cons m rest ih =>
    obtain ⟨h1, h2, h3, h4, h5⟩ := panMouseMove_panning w m a b lx ly hpan hx hy hlx hly
    obtain ⟨g1, g2, g3⟩ := ih (panMouseMove w m) _ _ _ _ h1 h2 h3 h4 h5
    simp only [List.foldl_cons]
    refine ⟨g1, ?_, ?_⟩
    · rw [g2]
      congr 1
      ring
    · rw [g3]
      congr 1
      ring

/-- C16. Pan accumulation telescopes: after a pan gesture started by a pointer-down at
position `s` (pan mode on, `zoomLevel > 1`, no draw active) and pointer-moves at
positions `p1 .. pn`, `(panX, panY)` is its value at gesture start plus `pn - s`; a
pointer-move received while no pan gesture is in progress changes nothing. -/
theorem pan_accumulation_telescopes (w : World) (down : MouseEv) (moves : List MouseEv)
    (pn : MouseEv) (a b z : ℚ)
    (htool : w.state.panToolActive = true)
    (hzoom : w.state.zoomLevel = fin z) (hz : 1 < z)
    (hdraw : w.state.isDrawing = false)
    (hx : w.state.panX = fin a) (hy : w.state.panY = fin b) :
    ((moves ++ [pn]).foldl panMouseMove (panMouseDown w down)).state.panX
      = fin (a + (pn.clientX - down.clientX)) ∧
    ((moves ++ [pn]).foldl panMouseMove (panMouseDown w down)).state.panY
      = fin (b + (pn.clientY - down.clientY)) ∧
    (∀ v : World, ∀ e : MouseEv, v.state.isPanning = false → panMouseMove v e = v) := by
  have hdown : panMouseDown w down = { w with state := { w.state with
      isPanning := true, lastMouseX := fin down.clientX, lastMouseY := fin down.clientY } } := by
    unfold panMouseDown
    rw [if_neg]
    rw [htool, hzoom, hdraw]
    simp [not_le.mpr hz]
  obtain ⟨_, h2, h3⟩ := panMoves_panning (moves ++ [pn]) (panMouseDown w down) a b
    down.clientX down.clientY (by rw [hdown]) (by rw [hdown]; exact hx)
    (by rw [hdown]; exact hy) (by rw [hdown]) (by rw [hdown])
  refine ⟨?_, ?_, ?_⟩
  · rw [h2, List.foldl_append]
    rfl
  · rw [h3, List.foldl_append]
    rfl
  · intro v e hv
    unfold panMouseMove
    rw [if_pos hv]

/-- Witness of C16: on the sample world zoomed to 1.25 with pan mode on, a pan gesture
from (100, 100) over (120, 95) to (130, 90) moves the offset from (0, 0) to (30, -10). -/
theorem pan_accumulation_telescopes_witness :
    ([({ button := 0, clientX := 120, clientY := 95 } : MouseEv),
      { button := 0, clientX := 130, clientY := 90 }].foldl panMouseMove
        (panMouseDown
          { sampleWorld with state := { sampleWorld.state with
              panToolActive := true, zoomLevel := fin (5 / 4) } }
          { button := 0, clientX := 100, clientY := 100 })).state.panX = fin 30 := by
  have h := (pan_accumulation_telescopes
    { sampleWorld with state := { sampleWorld.state with
        panToolActive := true, zoomLevel := fin (5 / 4) } }
    { button := 0, clientX := 100, clientY := 100 }
    [{ button := 0, clientX := 120, clientY := 95 }]
    { button := 0, clientX := 130, clientY := 90 } 0 0 (5 / 4) rfl rfl (by norm_num) rfl rfl
    rfl).1
  norm_num at h
  exact h

/-! ## Draw and pan exclude each other -/

/-- Every operation keeps `isDrawing` and `isPanning` from being true together. -/
theorem step_exclusive (w : World) (op : Op)
    (h : ¬ (w.state.isDrawing = true ∧ w.state.isPanning = true)) :
    ¬ ((step w op).state.isDrawing = true ∧ (step w op).state.isPanning = true) := by
  cases op with
  | load env =>
    obtain ⟨_, _, _, _, _, _, _, _, he⟩ := handleFile_state env w
    show ¬ ((handleFile env w).state.isDrawing = true ∧ (handleFile env w).state.isPanning = true)
    rw [he]
    exact h
  | drawStart e rect =>
    show ¬ ((handleDrawStart w e rect).state.isDrawing = true ∧
      (handleDrawStart w e rect).state.isPanning = true)
    rcases handleDrawStart_state w e rect with he | ⟨hp, p, he⟩
    · rw [he]; exact h
    · rw [he]
      intro hc
      rw [show w.state.isPanning = false from hp] at hc
      exact absurd hc.2 (by simp)
  | drawMove e rect =>
    obtain ⟨⟨r, he⟩, _⟩ := handleDrawMove_frame w e rect
    show ¬ ((handleDrawMove w e rect).state.isDrawing = true ∧
      (handleDrawMove w e rect).state.isPanning = true)
    rw [he]
    exact h
  | drawEnd e rect newId =>
    show ¬ ((handleDrawEnd w e rect newId).state.isDrawing = true ∧
      (handleDrawEnd w e rect newId).state.isPanning = true)
    rcases handleDrawEnd_state w e rect newId with he | ⟨_, he⟩
    · rw [he]; exact h
    · rw [he]
      intro hc
      exact absurd hc.1 (by simp)
  | drawCancel =>
    show ¬ ((handleDrawCancel w).state.isDrawing = true ∧
      (handleDrawCancel w).state.isPanning = true)
    rcases handleDrawCancel_state w with he | he
    · rw [he]; exact h
    · rw [he]
      intro hc
      exact absurd hc.1 (by simp)
  | zoomIn env =>
    show ¬ ((zoomIn env w).state.isDrawing = true ∧ (zoomIn env w).state.isPanning = true)
    rcases zoomIn_state env w with ⟨_, he⟩ | ⟨_, b, he⟩ <;> rw [he] <;> exact h
  | zoomOut env =>
    show ¬ ((zoomOut env w).state.isDrawing = true ∧ (zoomOut env w).state.isPanning = true)
    rcases zoomOut_state env w with ⟨_, he⟩ | ⟨_, b, he⟩ <;> rw [he] <;> exact h
  | zoomReset env =>
    obtain ⟨b, he⟩ := resetZoom_state env w
    show ¬ ((resetZoom env w).state.isDrawing = true ∧ (resetZoom env w).state.isPanning = true)
    rw [he]
    exact h
  | panToggle =>
    show ¬ ((togglePanTool w).state.isDrawing = true ∧ (togglePanTool w).state.isPanning = true)
    rw [togglePanTool_state]
    exact h
  | panDown e =>
    show ¬ ((panMouseDown w e).state.isDrawing = true ∧ (panMouseDown w e).state.isPanning = true)
    rcases panMouseDown_state w e with he | ⟨hd, he⟩
    · rw [he]; exact h
    · rw [he]
      intro hc
      rw [show w.state.isDrawing = false from hd] at hc
      exact absurd hc.1 (by simp)
  | panMove e =>
    show ¬ ((panMouseMove w e).state.isDrawing = true ∧ (panMouseMove w e).state.isPanning = true)
    rcases panMouseMove_state w e with ⟨_, he⟩ | ⟨_, he⟩ <;> rw [he] <;> exact h
  | panUp =>
    show ¬ ((panMouseUp w).state.isDrawing = true ∧ (panMouseUp w).state.isPanning = true)
    rcases panMouseUp_state w with he | he
    · rw [he]; exact h
    · rw [he]
      intro hc
      exact absurd hc.2 (by simp)
  | goToPage env n =>
    obtain ⟨_, _, he⟩ := goToPage_state env w n
    show ¬ ((goToPage env w n).state.isDrawing = true ∧ (goToPage env w n).state.isPanning = true)
    rw [he]
    exact h
  | delete id =>
    obtain ⟨_, he⟩ := deleteSelection_state w id
    show ¬ ((deleteSelection w id).state.isDrawing = true ∧
      (deleteSelection w id).state.isPanning = true)
    rw [he]
    exact h
  | clear confirmed =>
    obtain ⟨_, he⟩ := clearAllSelections_state w confirmed
    show ¬ ((clearAllSelections w confirmed).state.isDrawing = true ∧
      (clearAllSelections w confirmed).state.isPanning = true)
    rw [he]
    exact h
  | save env =>
    obtain ⟨_, he⟩ := saveRedactedPdf_world env w
    show ¬ ((saveRedactedPdf env w).world.state.isDrawing = true ∧
      (saveRedactedPdf env w).world.state.isPanning = true)
    rw [he]
    exact h
  | reset =>
    intro hc
    exact absurd hc.1 (by simp [step, resetState])
  | resize cw ch => exact h

theorem run_exclusive (ops : List Op) (w : World)
    (h : ¬ (w.state.isDrawing = true ∧ w.state.isPanning = true)) :
    ¬ ((run w ops).state.isDrawing = true ∧ (run w ops).state.isPanning = true) := by
  induction ops generalizing w with
  | nil => exact h
  | cons op rest ih => exact ih (step w op) (step_exclusive w op h)

/-- C17. Draw and pan are mutually exclusive: in every state reachable from the
initial state by any interleaving of the feature's operations (draw pointer events,
pan pointer events, zoom, pan-mode toggle, navigation and reset among them),
`isDrawing` and `isPanning` are never both true. -/
theorem draw_pan_exclusive (dom : Dom) (ops : List Op) :
    ((run (initialWorld dom) ops).state.isDrawing
      && (run (initialWorld dom) ops).state.isPanning) = false := by
  have h := run_exclusive ops (initialWorld dom) (by simp [initialWorld, initialState])
  cases h1 : (run (initialWorld dom) ops).state.isDrawing <;>
    cases h2 : (run (initialWorld dom) ops).state.isPanning <;> simp_all

/-! ## Draw-start guard -/

/-- C18, counterexample.  On the sample world with pan mode switched on (zoom level
1.0, so the drawing layer still takes pointer events) a primary-button pointer-down
on the layer starts a gesture: `panToolActive` is true, yet `isDrawing` is set and the
start point (100, 100) is recorded. -/
theorem draw_start_guard_counterexample :
    (togglePanTool sampleWorld).state.panToolActive = true ∧
    (togglePanTool sampleWorld).state.isDrawing = false ∧
    (togglePanTool sampleWorld).dom.drawingLayer.map (fun l => l.pointerEventsAuto)
      = some true ∧
    (handleDrawStart (togglePanTool sampleWorld)
      { button := 0, clientX := 140, clientY := 140 } { left := 40, top := 40 }).state.isDrawing
      = true ∧
    (handleDrawStart (togglePanTool sampleWorld)
      { button := 0, clientX := 140, clientY := 140 } { left := 40, top := 40 }).state.drawStart
      = some { x := fin 100, y := fin 100 } := by
  simp [togglePanTool, updateCanvasCursor, handleDrawStart, sampleWorld, sampleDom,
    initialState]
  norm_num

/-- The pointer-events switch of `updateCanvasCursor`: off when pan mode is on and the
zoom level exceeds 1, on otherwise. -/
theorem updateCanvasCursor_layer (w : World) :
    (updateCanvasCursor w).dom.drawingLayer
      = w.dom.drawingLayer.map (fun l => { l with pointerEventsAuto :=
          !(w.state.panToolActive && gt w.state.zoomLevel (fin 1)) }) := by
  unfold updateCanvasCursor
  split
  · rename_i h
    simp [h.1, h.2]
  · rename_i h
    have h2 : (w.state.panToolActive && gt w.state.zoomLevel (fin 1)) = false := by
      cases h3 : w.state.panToolActive <;> cases h4 : gt w.state.zoomLevel (fin 1) <;> simp_all
    simp [h2]

/-- What `handleDrawStart` tests: the button, `isPanning` and the presence of the
layer. -/
theorem handleDrawStart_guard (w : World) (e : MouseEv) (rect : ClientRect) :
    ((e.button ≠ 0 ∨ w.state.isPanning = true ∨ w.dom.drawingLayer = none) →
      handleDrawStart w e rect = w) ∧
    ((e.button = 0 ∧ w.state.isPanning = false ∧ w.dom.drawingLayer ≠ none) →
      handleDrawStart w e rect
        = { w with state := { w.state with
              isDrawing := true,
              drawStart := some { x := fin (e.clientX - rect.left),
                                  y := fin (e.clientY - rect.top) } } }) := by
  constructor
  · intro h
    unfold handleDrawStart
    rcases h with h | h | h
    · rw [if_pos (Or.inl h)]
    · rw [if_pos (Or.inr h)]
    · split
      · rfl
      · rw [h]
  · rintro ⟨h1, h2, h3⟩
    obtain ⟨layer, hl⟩ := Option.ne_none_iff_exists'.mp h3
    exact handleDrawStart_begin w e rect layer h1 h2 hl

/-- C18, as amended.  `handleDrawStart` moves the controller from Idle to Drawing (sets
`isDrawing` and records the surface-local start point) if and only if the pointer
button is the primary button, no pan gesture is in progress (`isPanning` is false) and
the drawing layer exists; for every pointer-down violating one of these the state is
left unchanged.  `panToolActive` is not tested by the handler: pan mode keeps
pointer-downs from the drawing layer, through `updateCanvasCursor` switching its
pointer events off, only while the zoom level exceeds 1. -/
theorem draw_start_guard (w : World) (e : MouseEv) (rect : ClientRect) :
    ((e.button ≠ 0 ∨ w.state.isPanning = true ∨ w.dom.drawingLayer = none) →
      handleDrawStart w e rect = w) ∧
    ((e.button = 0 ∧ w.state.isPanning = false ∧ w.dom.drawingLayer ≠ none) →
      handleDrawStart w e rect
        = { w with state := { w.state with
              isDrawing := true,
              drawStart := some { x := fin (e.clientX - rect.left),
                                  y := fin (e.clientY - rect.top) } } }) ∧
    (updateCanvasCursor w).dom.drawingLayer
      = w.dom.drawingLayer.map (fun l => { l with pointerEventsAuto :=
          !(w.state.panToolActive && gt w.state.zoomLevel (fin 1)) }) :=
  ⟨(handleDrawStart_guard w e rect).1, (handleDrawStart_guard w e rect).2,
    updateCanvasCursor_layer w⟩

/-! ## Save -/

/-- C19. Save never touches the store: for every store and every outcome of
`saveRedactedPdf` (success, document library unavailable, a rectangle that cannot be
drawn, host write rejected, save dialog cancelled), `state.selections` after the call
is `state.selections` before it; and `processing` is false when the call returns,
unless the call was turned away at entry because `processing` was already true, in
which case nothing changed. -/
theorem save_keeps_store (env : SaveEnv) (w : World) :
    (saveRedactedPdf env w).world.state.selections = w.state.selections ∧
    ((saveRedactedPdf env w).world.state.processing = false ∨
      (w.state.processing = true ∧ (saveRedactedPdf env w).world = w)) := by
  constructor
  · obtain ⟨b, he⟩ := saveRedactedPdf_world env w
    rw [he]
  · unfold saveRedactedPdf
    cases hp : w.state.processing with
    | true => exact Or.inr ⟨rfl, by simp⟩
    | false =>
      refine Or.inl ?_
      by_cases hl : w.state.selections.length = 0
      · simp [hl, hp]
      · simp only [hl, or_false, Bool.false_eq_true, if_false]
        repeat' split
        all_goals rfl

/-- What `saveRedactedPdf` does when it is turned away at entry: nothing. -/
theorem saveRedactedPdf_rejected (env : SaveEnv) (w : World)
    (h : w.state.selections = [] ∨ w.state.processing = true) :
    saveRedactedPdf env w
      = { world := w, loadCall := false, requests := [], hostCall := none,
          success := false } := by
  unfold saveRedactedPdf
  rw [if_pos]
  rcases h with h | h
  · exact Or.inr (by rw [h]; rfl)
  · exact Or.inl h

/-- C20. Save entry guard: `saveRedactedPdf` invoked when the selection store is empty,
or when `processing` is already true, returns without changing any state field (nor the
document tree) and without issuing any request: the document library is not asked to
load the file, no rectangle is requested, the host is not called. -/
theorem save_entry_guard (env : SaveEnv) (w : World)
    (h : w.state.selections = [] ∨ w.state.processing = true) :
    (saveRedactedPdf env w).world = w ∧
    (saveRedactedPdf env w).loadCall = false ∧
    (saveRedactedPdf env w).requests = [] ∧
    (saveRedactedPdf env w).hostCall = none ∧
    (saveRedactedPdf env w).success = false := by
  rw [saveRedactedPdf_rejected env w h]
  exact ⟨rfl, rfl, rfl, rfl, rfl⟩

/-- Witness of C20: a save on the sample world, whose store is empty. -/
theorem save_entry_guard_witness :
    (saveRedactedPdf (saveAllOk [fin 800]) sampleWorld).world = sampleWorld ∧
    (saveRedactedPdf (saveAllOk [fin 800]) sampleWorld).loadCall = false ∧
    (saveRedactedPdf (saveAllOk [fin 800]) sampleWorld).requests = [] ∧
    (saveRedactedPdf (saveAllOk [fin 800]) sampleWorld).hostCall = none ∧
    (saveRedactedPdf (saveAllOk [fin 800]) sampleWorld).success = false :=
  save_entry_guard (saveAllOk [fin 800]) sampleWorld (Or.inl rfl)

/-! ## Store order -/

/-- Splicing at the index `findIdx?` reports removes the first element that satisfies
the test and keeps what stands before and after it. -/
theorem findIdx?_splice {α : Type} (p : α → Bool) (l : List α) (idx : Nat)
    (h : l.findIdx? p = some idx) :
    ∃ pre s post, l = pre ++ s :: post ∧ p s = true ∧ (∀ x ∈ pre, p x = false) ∧
      l.eraseIdx idx = pre ++ post := by
  induction l generalizing idx with
  | nil => simp at h
  | cons a l ih =>
    rw [List.findIdx?_cons] at h
    by_cases hp : p a = true
    · rw [if_pos hp] at h
      cases h
      exact ⟨[], a, l, rfl, hp, by simp, rfl⟩
    · rw [if_neg hp, List.findIdx?_succ] at h
      cases hj : l.findIdx? p with
      | none => rw [hj] at h; simp at h
      | some j =>
        rw [hj] at h
        simp only [Option.map_some', Option.some.injEq, zero_add] at h
        obtain ⟨pre, s, post, h1, h2, h3, h4⟩ := ih j hj
        refine ⟨a :: pre, s, post, by rw [h1]; rfl, h2, ?_, ?_⟩
        · intro x hx
          rcases List.mem_cons.mp hx with rfl | hx
          · simpa using hp
          · exact h3 x hx
        · rw [← h, List.eraseIdx_cons_succ, h4]; rfl

/-- C25. Store order is insertion order: `addSelection` appends one selection with the
generated id after the existing selections; `deleteSelection(id)` on a store holding
that id removes the first selection with it and keeps what stands before and after it
in place; `deleteSelection` of an id not in the store leaves the store as it is; and
`renderSelectionList`, which shows the selections sorted by page, leaves the store as
it is. -/
theorem store_insertion_order (w : World) (left top width height : JSNum) (id : String) :
    (∃ sel, sel.id = id ∧
      (addSelection w left top width height id).state.selections
        = w.state.selections ++ [sel]) ∧
    ((∃ s ∈ w.state.selections, s.id = id) →
      ∃ pre s post, w.state.selections = pre ++ s :: post ∧ s.id = id ∧
        (∀ x ∈ pre, x.id ≠ id) ∧
        (deleteSelection w id).state.selections = pre ++ post) ∧
    ((∀ s ∈ w.state.selections, s.id ≠ id) →
      (deleteSelection w id).state.selections = w.state.selections) ∧
    (renderSelectionList w).state.selections = w.state.selections ∧
    (∀ sorted, (renderSelectionList w).dom.redactionList = some sorted →
      sorted = w.state.selections.insertionSort (fun a b => a.page ≤ b.page)) := by
  refine ⟨⟨_, rfl, addSelection_selections w left top width height id⟩, ?_, ?_, ?_, ?_⟩
  · rintro ⟨s, hs, hid⟩
    cases h : w.state.selections.findIdx? (fun s => s.id == id) with
    | none =>
      rw [List.findIdx?_eq_none_iff] at h
      have := h s hs
      simp [hid] at this
    | some idx =>
      obtain ⟨pre, t, post, h1, h2, h3, h4⟩ := findIdx?_splice _ _ idx h
      refine ⟨pre, t, post, h1, by simpa using h2, ?_, ?_⟩
      · intro x hx
        simpa using h3 x hx
      · unfold deleteSelection
        simp only [h, renderSelectionList_state, drawSelections_state]
        exact h4
  · intro hno
    have h : w.state.selections.findIdx? (fun s => s.id == id) = none := by
      rw [List.findIdx?_eq_none_iff]
      intro x hx
      simpa using hno x hx
    unfold deleteSelection
    simp only [h]
  · rw [renderSelectionList_state]
  · intro sorted h
    unfold renderSelectionList at h
    cases hl : w.dom.redactionList with
    | none => simp [hl] at h
    | some l =>
      simp only [hl] at h
      exact (Option.some.inj h).symm

/-! ## Idempotent clear -/

/-- C27. Idempotent clear: on an empty store `clearAllSelections` returns the world as
it is whatever the confirmation dialog would answer (the dialog is not reached), and a
confirmed clear followed by another clear gives what the confirmed clear alone
gives. -/
theorem idempotent_clear (w : World) (confirmed : Bool) :
    (w.state.selections = [] → clearAllSelections w confirmed = w) ∧
    clearAllSelections (clearAllSelections w true) confirmed = clearAllSelections w true := by
  constructor
  · intro h
    simp [clearAllSelections, h]
  · by_cases h : w.state.selections.length = 0
    · simp [clearAllSelections, h]
    · have h1 : (clearAllSelections w true).state.selections = [] := by
        unfold clearAllSelections
        simp only [h, if_false, Bool.not_true, Bool.false_eq_true,
          renderSelectionList_state, drawSelections_state]
      generalize clearAllSelections w true = v at h1
      simp [clearAllSelections, h1]

/-! ## Orientation tracking of the rotate feature -/

theorem rotateSample_eval :
    rotateSample
      = { pdfFiles := [{ id := "a", rotation := 0, orientation := Orientation.portrait }],
          selectionMode := "all" } := by
  simp [rotateSample, loadPdfFile, JSNum.gt_fin]
  norm_num

/-- C28. Orientation tracking after even rotations: a file loaded as portrait is, after
two rotations to the right (through the toolbar or through its own button), at
rotation 2 and still stored as landscape; and after one rotation to the right followed
by a reset of all rotations it is at rotation 0 and stored as landscape.  The
orientation of an even rotation is thus not the load-time orientation. -/
theorem orientation_after_even_rotation :
    (loadPdfFile "a" (fin 600) (fin 800)).orientation = Orientation.portrait ∧
    (rotateSelected (rotateSelected rotateSample "right") "right").pdfFiles
      = [{ id := "a", rotation := 2, orientation := Orientation.landscape }] ∧
    (rotatePdfIndividual (rotatePdfIndividual rotateSample "a") "a").pdfFiles
      = [{ id := "a", rotation := 2, orientation := Orientation.landscape }] ∧
    (resetAllRotations (rotateSelected rotateSample "right")).pdfFiles
      = [{ id := "a", rotation := 0, orientation := Orientation.landscape }] := by
  rw [rotateSample_eval]
  refine ⟨?_, ?_, ?_, ?_⟩
  · simp [loadPdfFile, JSNum.gt_fin]
    norm_num
  · simp [rotateSelected, isSelected, updateOrientation, Int.tmod]
  · simp [rotatePdfIndividual, updateFirst, updateOrientation, Int.tmod]
  · simp [resetAllRotations, rotateSelected, isSelected, updateOrientation, Int.tmod]

/-! ## Loading a file -/

theorem pageDimAt_nil (m : Nat) : pageDimAt [] m = none := rfl

theorem pageDimAt_cons (e : Nat × PageDim) (rest : List (Nat × PageDim)) (m : Nat) :
    pageDimAt (e :: rest) m = if e.1 = m then some e.2 else pageDimAt rest m := by
  unfold pageDimAt
  by_cases h : e.1 = m
  · simp [List.find?_cons, h]
  · simp [List.find?_cons, h]

theorem pageDimAt_map_set (dims : List (Nat × PageDim)) (n m : Nat) (d : PageDim) :
    pageDimAt (dims.map (fun e => if e.1 == n then (n, d) else e)) m
      = if m = n then (pageDimAt dims n).map (fun _ => d) else pageDimAt dims m := by
  induction dims with
  | nil => simp [pageDimAt_nil]
  | cons e rest ih =>
    rw [List.map_cons, pageDimAt_cons, ih, pageDimAt_cons, pageDimAt_cons]
    by_cases he : e.1 = n
    · by_cases hm : m = n
      · subst hm; simp [he]
      · have : ¬ n = m := fun h => hm h.symm
        simp [he, hm, this]
    · by_cases hm : m = n
      · subst hm; simp [he]
      · simp [he, hm]

theorem pageDimAt_append_one (dims : List (Nat × PageDim)) (n m : Nat) (d : PageDim) :
    pageDimAt (dims ++ [(n, d)]) m
      = match pageDimAt dims m with
        | some x => some x
        | none => if m = n then some d else none := by
  induction dims with
  | nil =>
    rw [List.nil_append, pageDimAt_cons, pageDimAt_nil]
    by_cases h : n = m
    · simp [h]
    · have : ¬ m = n := fun h2 => h h2.symm
      simp [h, this, pageDimAt_nil]
  | cons e rest ih =>
    rw [List.cons_append, pageDimAt_cons, ih, pageDimAt_cons]
    by_cases he : e.1 = m
    · simp [he]
    · simp [he]

theorem any_key_eq (dims : List (Nat × PageDim)) (n : Nat) :
    dims.any (fun e => e.1 == n) = (pageDimAt dims n).isSome := by
  induction dims with
  | nil => simp [pageDimAt_nil]
  | cons e rest ih =>
    rw [List.any_cons, ih, pageDimAt_cons]
    by_cases he : e.1 = n
    · simp [he]
    · simp [he]

/-- The lookup after an assignment to `pageDimensions[n]`. -/
theorem pageDimAt_setPageDim (dims : List (Nat × PageDim)) (n m : Nat) (d : PageDim) :
    pageDimAt (setPageDim dims n d) m = if m = n then some d else pageDimAt dims m := by
  unfold setPageDim
  rw [any_key_eq]
  cases h : pageDimAt dims n with
  | none =>
    simp only [Option.isSome_none, Bool.false_eq_true, if_false]
    rw [pageDimAt_append_one]
    by_cases hm : m = n
    · subst hm; simp [h]
    · simp only [hm, if_false]
      cases pageDimAt dims m <;> rfl
  | some x =>
    simp only [Option.isSome_some, if_true]
    rw [pageDimAt_map_set, h]
    rfl


theorem dimKeys_setPageDim_new (dims : List (Nat × PageDim)) (n : Nat) (d : PageDim)
    (h : n ∉ dimKeys dims) : dimKeys (setPageDim dims n d) = dimKeys dims ++ [n] := by
  unfold setPageDim
  have hany : dims.any (fun e => e.1 == n) = false := by
    rw [Bool.eq_false_iff]
    intro hc
    apply h
    obtain ⟨e, he, hk⟩ := List.any_eq_true.mp hc
    exact List.mem_map.mpr ⟨e, he, by simpa using hk⟩
  rw [hany]
  simp [dimKeys]

/-- The loop that caches the page sizes: entries of pages it does not visit stay as they
are; when it runs to the end, every page it visited has the size the document
reports; when it stops, it stops at a page whose `getPage` rejects, with the pages
before that one cached. -/
theorem cachePageDimensions_spec (doc : PdfDoc) (failAt : Option Nat) (l : List Nat) :
    ∀ dims : List (Nat × PageDim),
    (∀ m, m ∉ l →
      pageDimAt (cachePageDimensions doc failAt l dims).1 m = pageDimAt dims m) ∧
    ((cachePageDimensions doc failAt l dims).2 = true →
      ∀ m ∈ l, ∃ page, getPage true doc m = some page ∧ failAt ≠ some m ∧
        pageDimAt (cachePageDimensions doc failAt l dims).1 m
          = some (getViewport page (fin 1))) ∧
    ((cachePageDimensions doc failAt l dims).2 = false →
      ∃ pre k post, l = pre ++ k :: post ∧
        getPage (decide (failAt ≠ some k)) doc k = none ∧
        (cachePageDimensions doc failAt pre dims).2 = true ∧
        (cachePageDimensions doc failAt l dims).1
          = (cachePageDimensions doc failAt pre dims).1) := by
  induction l with
  | nil =>
    intro dims
    refine ⟨fun m _ => rfl, fun _ m hm => by simp at hm, fun h => ?_⟩
    simp [cachePageDimensions] at h
  | cons i rest ih =>
    intro dims
    cases hg : getPage (decide (failAt ≠ some i)) doc i with
    | none =>
      have hr : cachePageDimensions doc failAt (i :: rest) dims = (dims, false) := by
        rw [cachePageDimensions, hg]
      rw [hr]
      refine ⟨fun m _ => rfl, fun h => by simp at h, fun _ => ?_⟩
      exact ⟨[], i, rest, rfl, hg, rfl, rfl⟩
    | some page =>
      have hr : cachePageDimensions doc failAt (i :: rest) dims
          = cachePageDimensions doc failAt rest
              (setPageDim dims i (getViewport page (fin 1))) := by
        rw [cachePageDimensions, hg]
      rw [hr]
      have hok : failAt ≠ some i ∧ getPage true doc i = some page := by
        by_cases hf : failAt = some i
        · simp [getPage, hf] at hg
        · refine ⟨hf, ?_⟩
          simpa [hf] using hg
      obtain ⟨ih1, ih2, ih3⟩ := ih (setPageDim dims i (getViewport page (fin 1)))
      refine ⟨?_, ?_, ?_⟩
      · intro m hm
        rw [ih1 m (fun h => hm (List.mem_cons_of_mem _ h)), pageDimAt_setPageDim]
        have : ¬ m = i := fun h => hm (h ▸ List.mem_cons_self _ _)
        rw [if_neg this]
      · intro hsucc m hm
        by_cases hmr : m ∈ rest
        · exact ih2 hsucc m hmr
        · have hmi : m = i := by
            rcases List.mem_cons.mp hm with h | h
            · exact h
            · exact absurd h hmr
          subst hmi
          refine ⟨page, hok.2, hok.1, ?_⟩
          rw [ih1 m hmr, pageDimAt_setPageDim, if_pos rfl]
      · intro hfail
        obtain ⟨pre, k, post, h1, h2, h3, h4⟩ := ih3 hfail
        refine ⟨i :: pre, k, post, by rw [h1]; rfl, h2, ?_, ?_⟩
        · rw [cachePageDimensions, hg]; exact h3
        · rw [h4]
          conv_rhs => rw [cachePageDimensions, hg]

/-- The keys after the loop ran to the end over pages that were no keys before. -/
theorem cachePageDimensions_keys (doc : PdfDoc) (failAt : Option Nat) (l : List Nat) :
    ∀ dims : List (Nat × PageDim), l.Nodup → (∀ m ∈ l, m ∉ dimKeys dims) →
      (cachePageDimensions doc failAt l dims).2 = true →
      dimKeys (cachePageDimensions doc failAt l dims).1 = dimKeys dims ++ l := by
  induction l with
  | nil => intro dims _ _ _; simp [cachePageDimensions]
  | cons i rest ih =>
    intro dims hnd hnew hsucc
    cases hg : getPage (decide (failAt ≠ some i)) doc i with
    | none =>
      rw [cachePageDimensions, hg] at hsucc
      simp at hsucc
    | some page =>
      rw [cachePageDimensions, hg] at hsucc ⊢
      have hi : i ∉ dimKeys dims := hnew i (List.mem_cons_self _ _)
      have hk := dimKeys_setPageDim_new dims i (getViewport page (fin 1)) hi
      rw [ih _ (List.nodup_cons.mp hnd).2 ?_ hsucc, hk]
      · simp
      · intro m hm
        rw [hk]
        intro hc
        rcases List.mem_append.mp hc with h | h
        · exact hnew m (List.mem_cons_of_mem _ hm) h
        · simp only [List.mem_singleton] at h
          subst h
          exact (List.nodup_cons.mp hnd).1 hm

theorem getPage_true_some (doc : PdfDoc) (m : Nat) (h1 : 1 ≤ m) (h2 : m ≤ doc.pages.length) :
    ∃ page, getPage true doc m = some page := by
  have hm : m ≠ 0 := by omega
  have hlt : m - 1 < doc.pages.length := by omega
  refine ⟨doc.pages.get ⟨m - 1, hlt⟩, ?_⟩
  simp [getPage, hm, List.get?_eq_get hlt]

/-- The loop over the pages `1..n` of a document with `n` pages stops only at the page
the environment rejects. -/
theorem cachePageDimensions_stop (doc : PdfDoc) (failAt : Option Nat)
    (dims : List (Nat × PageDim))
    (h : (cachePageDimensions doc failAt (List.range' 1 doc.pages.length) dims).2 = false) :
    ∃ k, failAt = some k ∧ 1 ≤ k ∧ k ≤ doc.pages.length ∧
      (cachePageDimensions doc failAt (List.range' 1 (k - 1)) dims).2 = true ∧
      (cachePageDimensions doc failAt (List.range' 1 doc.pages.length) dims).1
        = (cachePageDimensions doc failAt (List.range' 1 (k - 1)) dims).1 := by
  obtain ⟨pre, k, post, h1, h2, h3, h4⟩ :=
    (cachePageDimensions_spec doc failAt (List.range' 1 doc.pages.length) dims).2.2 h
  obtain ⟨j, hj, hpre, hpost⟩ := List.range'_eq_append_iff.mp h1
  obtain ⟨hk, _, _⟩ := List.range'_eq_cons_iff.mp hpost.symm
  have hkmem : k ∈ List.range' 1 doc.pages.length := by
    rw [h1]; simp
  rw [List.mem_range'_1] at hkmem
  have hjk : j = k - 1 := by omega
  rw [hjk] at hpre
  rw [hpre] at h3 h4
  by_cases hf : failAt = some k
  · exact ⟨k, hf, hkmem.1, by omega, h3, h4⟩
  · obtain ⟨page, hpage⟩ := getPage_true_some doc k hkmem.1 (by omega)
    simp [hf, hpage] at h2

theorem cachePageDimensions_run (doc : PdfDoc) (failAt : Option Nat)
    (dims : List (Nat × PageDim))
    (hf : ∀ k, failAt = some k → k < 1 ∨ doc.pages.length < k) :
    (cachePageDimensions doc failAt (List.range' 1 doc.pages.length) dims).2 = true := by
  cases h : (cachePageDimensions doc failAt (List.range' 1 doc.pages.length) dims).2 with
  | true => rfl
  | false =>
    obtain ⟨k, hk, h1, h2, _⟩ := cachePageDimensions_stop doc failAt dims h
    rcases hf k hk with h3 | h3 <;> omega

theorem handleFile_invalid (env : LoadEnv) (w : World) (hv : env.valid = false) :
    handleFile env w = w := by
  simp [handleFile, hv]

theorem handleFile_unread (env : LoadEnv) (w : World) (hv : env.valid = true)
    (hr : env.readOk = false) :
    handleFile env w = { w with state := { w.state with processing := false } } := by
  simp [handleFile, hv, hr]

theorem handleFile_unparsed (env : LoadEnv) (w : World) (hv : env.valid = true)
    (hr : env.readOk = true) (hp : env.pdfjsLoaded = false ∨ env.doc = none) :
    handleFile env w
      = { w with state :=
          { w.state with processing := false, pdfFile := some env.fileName } } := by
  rcases hp with hp | hp
  · simp [handleFile, hv, hr, hp]
  · by_cases hl : env.pdfjsLoaded = false
    · simp [handleFile, hv, hr, hl]
    · simp [handleFile, hv, hr, hl, hp]

/-- The module state after a load whose document was parsed. -/
theorem handleFile_parsed (env : LoadEnv) (w : World) (doc : PdfDoc) (hv : env.valid = true)
    (hr : env.readOk = true) (hp : env.pdfjsLoaded = true) (hd : env.doc = some doc) :
    ∃ t b, (handleFile env w).state
      = { w.state with
          processing := false, pdfFile := some env.fileName, pdfDoc := some doc,
          totalPages := doc.pages.length, currentPage := 1,
          pageDimensions := (cachePageDimensions doc env.failAt
            (List.range' 1 doc.pages.length) w.state.pageDimensions).1,
          thumbnails := t, baseScale := b } := by
  unfold handleFile
  rw [if_neg (by simp [hv])]
  simp only []
  rw [if_neg (by simp [hr]), if_neg (by simp [hp])]
  simp only [hd]
  by_cases hc : (cachePageDimensions doc env.failAt (List.range' 1 doc.pages.length)
      w.state.pageDimensions).2 = false
  · rw [if_pos hc]
    exact ⟨_, _, rfl⟩
  · rw [if_neg hc]
    obtain ⟨t, b, h⟩ := handleFile_tail_state env
      { w with state :=
          { w.state with
            processing := true, pdfFile := some env.fileName, pdfDoc := some doc,
            totalPages := doc.pages.length, currentPage := 1,
            pageDimensions := (cachePageDimensions doc env.failAt
              (List.range' 1 doc.pages.length) w.state.pageDimensions).1 } }
    simp only [h]
    exact ⟨_, _, rfl⟩

theorem handleFile_selections (env : LoadEnv) (w : World) :
    (handleFile env w).state.selections = w.state.selections := by
  obtain ⟨_, _, _, _, _, _, _, _, h⟩ := handleFile_state env w
  rw [h]

/-! ## Load entry -/

/-- The function `handleFile` does not read `processing`: applied to a world in which
the flag is set, it loads a valid file (`pdfFile`, `pdfDoc`, `totalPages`, `pageDimensions` are
written) and clears the flag. -/
theorem load_ignores_processing :
    busyWorld.state.processing = true ∧
    busyWorld.state.pdfDoc = none ∧
    (handleFile sampleLoad busyWorld).state.processing = false ∧
    (handleFile sampleLoad busyWorld).state.pdfFile = some "a.pdf" ∧
    (handleFile sampleLoad busyWorld).state.pdfDoc = some sampleDoc ∧
    (handleFile sampleLoad busyWorld).state.totalPages = 1 ∧
    (handleFile sampleLoad busyWorld).state.pageDimensions
      = [(1, { width := fin 600, height := fin 800 })] := by
  obtain ⟨t, b, h⟩ := handleFile_parsed sampleLoad busyWorld sampleDoc rfl rfl rfl rfl
  rw [h]
  refine ⟨rfl, rfl, rfl, rfl, rfl, rfl, ?_⟩
  simp [cachePageDimensions, setPageDim, sampleLoad, sampleDoc, busyWorld, initialState,
    getPage, getViewport, List.range']

/-! ## Load outcomes -/

/-- C22, counterexample.  When `getPage(2)` rejects while the sizes of the two-page
document are cached, the load is neither complete nor undone: `pdfFile`, `pdfDoc`,
`totalPages` and the entry of page 1 are those of the new file, and page 2 has no
entry. -/
theorem load_all_or_nothing_counterexample :
    (initialWorld sampleDom).state.pdfDoc = none ∧
    (initialWorld sampleDom).state.pageDimensions = [] ∧
    (handleFile failingLoad (initialWorld sampleDom)).state.pdfFile = some "a.pdf" ∧
    (handleFile failingLoad (initialWorld sampleDom)).state.pdfDoc = some twoPageDoc ∧
    (handleFile failingLoad (initialWorld sampleDom)).state.totalPages = 2 ∧
    (handleFile failingLoad (initialWorld sampleDom)).state.pageDimensions
      = [(1, { width := fin 600, height := fin 800 })] ∧
    pageDimAt (handleFile failingLoad (initialWorld sampleDom)).state.pageDimensions 2
      = none := by
  obtain ⟨t, b, h⟩ := handleFile_parsed failingLoad (initialWorld sampleDom) twoPageDoc
    rfl rfl rfl rfl
  rw [h]
  have hc : (cachePageDimensions twoPageDoc failingLoad.failAt
      (List.range' 1 twoPageDoc.pages.length) (initialWorld sampleDom).state.pageDimensions).1
      = [(1, { width := fin 600, height := fin 800 })] := by
    simp [cachePageDimensions, setPageDim, failingLoad, twoPageDoc, initialWorld,
      initialState, getPage, getViewport, List.range']
  refine ⟨rfl, rfl, rfl, rfl, rfl, ?_, ?_⟩
  · exact hc
  · show pageDimAt (cachePageDimensions twoPageDoc failingLoad.failAt
      (List.range' 1 twoPageDoc.pages.length)
      (initialWorld sampleDom).state.pageDimensions).1 2 = none
    rw [hc]
    rfl

/-! ## Render failure -/

/-- C24, counterexample.  In `zoomPending` the bitmap is 900 x 1200 and shown at
300 x 400; after a `renderPage` whose render call fails the bitmap is 1800 x 2400 and
shown at 600 x 800, while the drawing layer still has the size 300 x 400. -/
theorem render_failure_counterexample :
    zoomPending.dom.canvas
      = some { width := fin 900, height := fin 1200, styleWidth := fin 300,
               styleHeight := fin 400, transform := some { x := fin 0, y := fin 0 } } ∧
    (renderPage { getPageOk := true, renderOk := false } zoomPending).dom.canvas
      = some { width := fin 1800, height := fin 2400, styleWidth := fin 600,
               styleHeight := fin 800, transform := some { x := fin 0, y := fin 0 } } ∧
    (renderPage { getPageOk := true, renderOk := false } zoomPending).dom.drawingLayer
      = some { left := fin 40, top := fin 40, width := fin 300, height := fin 400,
               pointerEventsAuto := true, preview := none,
               transform := some { x := fin 0, y := fin 0 } } := by
  refine ⟨rfl, ?_, ?_⟩
  · simp [renderPage, zoomPending, sampleWorld, sampleDom, sampleDoc, initialState, getPage,
      getViewport, RENDER_SCALE, JSNum.fin_div_fin, JSNum.min2_fin, JSNum.fin_mul_fin,
      JSNum.fin_sub_fin]
    norm_num
  · simp [renderPage, zoomPending, sampleWorld, sampleDom, sampleDoc, initialState, getPage,
      getViewport, RENDER_SCALE, JSNum.fin_div_fin, JSNum.min2_fin, JSNum.fin_mul_fin,
      JSNum.fin_sub_fin]

/-- C24, as amended.  When the render call fails, `renderPage` returns with the
drawing layer, the selection overlay, the wrapper and the selection list as they were,
and with the module state as it was but for `baseScale` (document, selections, current
page and zoom level are kept).  The bitmap is not kept: when the page was fetched, the
bitmap has the pixel size of the new frame and the display size of the new frame, its
transform being as before. -/
theorem render_failure_frame (env : RenderEnv) (w : World) (hfail : env.renderOk = false) :
    (renderPage env w).dom.drawingLayer = w.dom.drawingLayer ∧
    (renderPage env w).dom.overlay = w.dom.overlay ∧
    (renderPage env w).dom.wrapper = w.dom.wrapper ∧
    (renderPage env w).dom.redactionList = w.dom.redactionList ∧
    (∃ b, (renderPage env w).state = { w.state with baseScale := b }) ∧
    (∀ doc page c, w.state.pdfDoc = some doc →
      1 ≤ w.state.currentPage → w.state.currentPage ≤ w.state.totalPages →
      getPage env.getPageOk doc w.state.currentPage = some page →
      w.dom.canvas = some c →
      (renderPage env w).dom.canvas
        = some { c with
            width := page.width *
              ((renderPage env w).state.baseScale * w.state.zoomLevel * RENDER_SCALE),
            height := page.height *
              ((renderPage env w).state.baseScale * w.state.zoomLevel * RENDER_SCALE),
            styleWidth := page.width *
              ((renderPage env w).state.baseScale * w.state.zoomLevel * RENDER_SCALE)
                / RENDER_SCALE,
            styleHeight := page.height *
              ((renderPage env w).state.baseScale * w.state.zoomLevel * RENDER_SCALE)
                / RENDER_SCALE }) := by
  rcases w with ⟨st, ⟨wr, cv, ov, dl, rl⟩⟩
  refine ⟨?_, ?_, ?_, ?_, renderPage_state env _, ?_⟩
  · unfold renderPage
    simp only [hfail, if_true]
    repeat' split
    all_goals rfl
  · unfold renderPage
    simp only [hfail, if_true]
    repeat' split
    all_goals rfl
  · unfold renderPage
    simp only [hfail, if_true]
    repeat' split
    all_goals rfl
  · unfold renderPage
    simp only [hfail, if_true]
    repeat' split
    all_goals rfl
  · intro doc page c hdoc h1 h2 hpage hc
    simp only at hdoc h1 h2 hpage hc
    subst hc
    have hguard : ¬ (st.currentPage < 1 ∨ st.currentPage > st.totalPages) := by omega
    unfold renderPage
    simp only [hdoc, hguard, if_false, hpage, hfail, if_true]
    cases wr <;> rfl

/-- Witness of C24: the failed render of `zoomPending` keeps the drawing layer. -/
theorem render_failure_frame_witness :
    (renderPage { getPageOk := true, renderOk := false } zoomPending).dom.drawingLayer
      = zoomPending.dom.drawingLayer ∧
    (renderPage { getPageOk := true, renderOk := false } zoomPending).dom.overlay
      = zoomPending.dom.overlay ∧
    (renderPage { getPageOk := true, renderOk := false } zoomPending).state.selections
      = zoomPending.state.selections :=
  have h := render_failure_frame { getPageOk := true, renderOk := false } zoomPending rfl
  ⟨h.1, h.2.1, by obtain ⟨b, hb⟩ := h.2.2.2.2.1; rw [hb]⟩

/-! ## Unique ids -/

/-- A pointer-up keeps the store or appends one selection, with the id that came with
the event, on the current page. -/
theorem handleDrawEnd_store (w : World) (e : MouseEv) (rect : ClientRect) (newId : String) :
    (handleDrawEnd w e rect newId).state.selections = w.state.selections ∨
    ∃ sel, sel.id = newId ∧ sel.page = w.state.currentPage ∧
      (handleDrawEnd w e rect newId).state.selections = w.state.selections ++ [sel] := by
  unfold handleDrawEnd
  split
  · split
    · exact Or.inl rfl
    · simp only []
      split
      · refine Or.inr ⟨_, ?_, ?_, addSelection_selections w _ _ _ _ newId⟩ <;> rfl
      · exact Or.inl rfl
  · exact Or.inl rfl

/-- What one operation does to the store: it keeps a sublist of the stored selections,
or it appends one selection that carries the id generated during the operation and the
number of the current page, the operation being a pointer-up. -/
theorem step_store (w : World) (op : Op) :
    (step w op).state.selections.Sublist w.state.selections ∨
    ∃ sel e rect, op = Op.drawEnd e rect sel.id ∧ op.generated w = [sel.id] ∧
      sel.page = w.state.currentPage ∧
      (step w op).state.selections = w.state.selections ++ [sel] := by
  have keep : ∀ v : World, v.state.selections = w.state.selections →
      v.state.selections.Sublist w.state.selections := by
    intro v hv
    rw [hv]
  cases op with
  | load env => exact Or.inl (keep _ (handleFile_selections env w))
  | drawStart e rect =>
    refine Or.inl (keep _ ?_)
    show (handleDrawStart w e rect).state.selections = _
    rcases handleDrawStart_state w e rect with he | ⟨_, p, he⟩ <;> rw [he]
  | drawMove e rect =>
    refine Or.inl (keep _ ?_)
    obtain ⟨⟨r, he⟩, _⟩ := handleDrawMove_frame w e rect
    show (handleDrawMove w e rect).state.selections = _
    rw [he]
  | drawEnd e rect newId =>
    rcases handleDrawEnd_store w e rect newId with h | ⟨sel, h1, h2, h3⟩
    · exact Or.inl (keep _ h)
    · subst h1
      refine Or.inr ⟨sel, e, rect, rfl, ?_, h2, h3⟩
      simp [Op.generated, h3]
  | drawCancel =>
    refine Or.inl (keep _ ?_)
    show (handleDrawCancel w).state.selections = _
    rcases handleDrawCancel_state w with he | he <;> rw [he]
  | zoomIn env => exact Or.inl (keep _ (zoomIn_selections env w))
  | zoomOut env => exact Or.inl (keep _ (zoomOut_selections env w))
  | zoomReset env => exact Or.inl (keep _ (resetZoom_selections env w))
  | panToggle => exact Or.inl (keep _ (togglePanTool_selections w))
  | panDown e => exact Or.inl (keep _ (panMouseDown_selections w e))
  | panMove e => exact Or.inl (keep _ (panMouseMove_selections w e))
  | panUp => exact Or.inl (keep _ (panMouseUp_selections w))
  | goToPage env n => exact Or.inl (keep _ (goToPage_selections env w n))
  | delete id =>
    left
    show (deleteSelection w id).state.selections.Sublist _
    unfold deleteSelection
    split
    · exact List.Sublist.refl _
    · rw [renderSelectionList_state, drawSelections_state]
      exact List.eraseIdx_sublist _ _
  | clear confirmed =>
    left
    show (clearAllSelections w confirmed).state.selections.Sublist _
    unfold clearAllSelections
    split
    · exact List.Sublist.refl _
    · split
      · exact List.Sublist.refl _
      · rw [renderSelectionList_state, drawSelections_state]
        exact List.nil_sublist _
  | save env =>
    refine Or.inl (keep _ ?_)
    obtain ⟨_, he⟩ := saveRedactedPdf_world env w
    show (saveRedactedPdf env w).world.state.selections = _
    rw [he]
  | reset => exact Or.inl (List.nil_sublist _)
  | resize cw ch => exact Or.inl (List.Sublist.refl _)

/-- Ids stay unique along a run: when the stored ids are distinct, the ids generated
during the run are distinct, and none of them is a stored id, the ids stored after the
run are distinct. -/
theorem run_unique_ids (ops : List Op) :
    ∀ w : World, (w.state.selections.map (fun s => s.id)).Nodup →
      (generatedIds w ops).Nodup →
      (∀ i ∈ generatedIds w ops, i ∉ w.state.selections.map (fun s => s.id)) →
      ((run w ops).state.selections.map (fun s => s.id)).Nodup := by
  induction ops with
  | nil => intro w h _ _; exact h
  | cons op ops ih =>
    intro w hst hgen hfresh
    show ((run (step w op) ops).state.selections.map (fun s => s.id)).Nodup
    have hgen2 : (generatedIds (step w op) ops).Nodup := (List.nodup_append.mp hgen).2.1
    rcases step_store w op with hsub | ⟨sel, e, rect, _, hg, _, happ⟩
    · refine ih _ ((hsub.map _).nodup hst) hgen2 ?_
      intro i hi hmem
      exact hfresh i (List.mem_append_right _ hi) ((hsub.map _).subset hmem)
    · have hgen' : (op.generated w ++ generatedIds (step w op) ops).Nodup := hgen
      rw [hg] at hgen'
      have hfresh' : ∀ i ∈ op.generated w ++ generatedIds (step w op) ops,
          i ∉ w.state.selections.map (fun s => s.id) := hfresh
      rw [hg] at hfresh'
      have hnew : sel.id ∉ w.state.selections.map (fun s => s.id) :=
        hfresh' sel.id (by simp)
      have hnot : sel.id ∉ generatedIds (step w op) ops := by
        have := (List.nodup_cons.mp hgen').1
        simpa using this
      refine ih _ ?_ hgen2 ?_
      · rw [happ, List.map_append, List.map_singleton]
        rw [List.nodup_append]
        refine ⟨hst, List.nodup_singleton _, ?_⟩
        intro a ha hb
        rw [List.mem_singleton] at hb
        subst hb
        exact hnew ha
      · intro i hi hmem
        rw [happ, List.map_append, List.map_singleton, List.mem_append,
          List.mem_singleton] at hmem
        rcases hmem with hmem | hmem
        · exact hfresh' i (by simp [hi]) hmem
        · subst hmem
          exact hnot hi

/-- C26. Unique ids: in every state reachable from the initial state, by any sequence
of operations of the feature (commits, deletions, clear, reset and all others), no two
stored selections have the same id, provided the ids the generator returned during the
sequence are pairwise distinct; and every operation either keeps a sublist of the
stored selections, each as it was, or appends one selection carrying the id generated
during the operation, so that no operation changes the id of a stored selection. -/
theorem unique_ids (dom : Dom) (ops : List Op)
    (hfresh : (generatedIds (initialWorld dom) ops).Nodup) :
    ((run (initialWorld dom) ops).state.selections.map (fun s => s.id)).Nodup ∧
    (∀ (w : World) (op : Op),
      (step w op).state.selections.Sublist w.state.selections ∨
      ∃ sel, op.generated w = [sel.id] ∧
        (step w op).state.selections = w.state.selections ++ [sel]) := by
  refine ⟨run_unique_ids ops (initialWorld dom) (by simp [initialWorld, initialState])
    hfresh (by intro i _; simp [initialWorld, initialState]), ?_⟩
  intro w op
  rcases step_store w op with h | ⟨sel, _, _, _, hg, _, happ⟩
  · exact Or.inl h
  · exact Or.inr ⟨sel, hg, happ⟩

/-! ## Committed selections lie inside the page -/

theorem min_add_abs_sub (a b : ℚ) : min a b + |b - a| = max a b := by
  rcases le_total a b with h | h
  · rw [min_eq_left h, max_eq_right h, abs_of_nonneg (by linarith)]; ring
  · rw [min_eq_right h, max_eq_left h, abs_of_nonpos (by linarith)]; ring

/-- A length inside `[0, D]` scaled by `S / D` lies inside `[0, S]`. -/
theorem scaled_inside (p S D : ℚ) (hS : 0 < S) (hD : 0 < D) (h0 : 0 ≤ p) (h1 : p ≤ D) :
    0 ≤ p * S / D ∧ p * S / D ≤ S := by
  constructor
  · positivity
  · rw [div_le_iff₀ hD]
    nlinarith

/-- C29, as amended.  Committed selections lie inside the page, in exact arithmetic
(which stands in for the floating-point tolerance): a gesture whose two endpoints lie
in the drawing surface `[0, Dw] x [0, Dh]` and whose sides both exceed 10 pixels, on a
current page of positive intrinsic size `(W, H)` shown at positive display size
`(Dw, Dh)`, appends one selection with `0 <= x`, `0 <= y`, `x + width <= W` and
`y + height <= H`; and the rectangle exported for it on a page of height `H` has
`0 <= H - y - height` and `(H - y - height) + height <= H`. -/
theorem committed_inside_page (w : World) (c : Canvas) (layer : DrawLayer)
    (W H Dw Dh x0 y0 x1 y1 : ℚ)
    (down : MouseEv) (rdown : ClientRect) (moves : List (MouseEv × ClientRect))
    (up : MouseEv) (rup : ClientRect) (newId : String)
    (hdim : pageDimAt w.state.pageDimensions w.state.currentPage
      = some { width := fin W, height := fin H })
    (hcanvas : w.dom.canvas = some c)
    (hcw : c.styleWidth = fin Dw) (hch : c.styleHeight = fin Dh)
    (hW : 0 < W) (hH : 0 < H) (hDw : 0 < Dw) (hDh : 0 < Dh)
    (hbutton : down.button = 0) (hpan : w.state.isPanning = false)
    (hlayer : w.dom.drawingLayer = some layer)
    (hx0 : down.clientX - rdown.left = x0) (hy0 : down.clientY - rdown.top = y0)
    (hx1 : up.clientX - rup.left = x1) (hy1 : up.clientY - rup.top = y1)
    (hx0in : 0 ≤ x0 ∧ x0 ≤ Dw) (hy0in : 0 ≤ y0 ∧ y0 ≤ Dh)
    (hx1in : 0 ≤ x1 ∧ x1 ≤ Dw) (hy1in : 0 ≤ y1 ∧ y1 ≤ Dh)
    (hwidth : 10 < |x1 - x0|) (hheight : 10 < |y1 - y0|) :
    ∃ sel,
      (drawGesture w down rdown moves up rup newId).state.selections
        = w.state.selections ++ [sel] ∧
      le (fin 0) sel.x = true ∧ le (fin 0) sel.y = true ∧
      le (sel.x + sel.width) (fin W) = true ∧ le (sel.y + sel.height) (fin H) = true ∧
      le (fin 0) (rectRequest ((sel.page : Int) - 1) (fin H) sel).y = true ∧
      le ((rectRequest ((sel.page : Int) - 1) (fin H) sel).y
          + (rectRequest ((sel.page : Int) - 1) (fin H) sel).height) (fin H) = true := by
  obtain ⟨r, l, layer1, hv, hl⟩ :=
    drawGesture_before_up w down rdown moves layer hbutton hpan hlayer
  have hstore : (drawGesture w down rdown moves up rup newId).state.selections
      = w.state.selections ++
        [{ id := newId, page := w.state.currentPage,
           x := fin (min x0 x1 * W / Dw), y := fin (min y0 y1 * H / Dh),
           width := fin (|x1 - x0| * W / Dw), height := fin (|y1 - y0| * H / Dh) }] := by
    unfold drawGesture
    rw [hv, hx0, hy0]
    rw [handleDrawEnd_selections _ up rup newId x0 y0 layer1 rfl rfl (by simp [hl])]
    rw [hx1, hy1, if_pos ⟨hwidth, hheight⟩]
    rw [addSelection_fin _ c W H Dw Dh _ _ _ _ newId (by simpa using hdim)
      (by simpa using hcanvas) hcw hch hDw.ne' hDh.ne']
  have hminx : 0 ≤ min x0 x1 ∧ min x0 x1 ≤ Dw :=
    ⟨le_min hx0in.1 hx1in.1, (min_le_left _ _).trans hx0in.2⟩
  have hminy : 0 ≤ min y0 y1 ∧ min y0 y1 ≤ Dh :=
    ⟨le_min hy0in.1 hy1in.1, (min_le_left _ _).trans hy0in.2⟩
  have hmaxx : 0 ≤ max x0 x1 ∧ max x0 x1 ≤ Dw :=
    ⟨hx0in.1.trans (le_max_left _ _), max_le hx0in.2 hx1in.2⟩
  have hmaxy : 0 ≤ max y0 y1 ∧ max y0 y1 ≤ Dh :=
    ⟨hy0in.1.trans (le_max_left _ _), max_le hy0in.2 hy1in.2⟩
  have hx := scaled_inside (min x0 x1) W Dw hW hDw hminx.1 hminx.2
  have hy := scaled_inside (min y0 y1) H Dh hH hDh hminy.1 hminy.2
  have hxw : min x0 x1 * W / Dw + |x1 - x0| * W / Dw ≤ W := by
    have h := (scaled_inside (max x0 x1) W Dw hW hDw hmaxx.1 hmaxx.2).2
    rw [← min_add_abs_sub] at h
    calc min x0 x1 * W / Dw + |x1 - x0| * W / Dw
        = (min x0 x1 + |x1 - x0|) * W / Dw := by ring
      _ ≤ W := h
  have hyh : min y0 y1 * H / Dh + |y1 - y0| * H / Dh ≤ H := by
    have h := (scaled_inside (max y0 y1) H Dh hH hDh hmaxy.1 hmaxy.2).2
    rw [← min_add_abs_sub] at h
    calc min y0 y1 * H / Dh + |y1 - y0| * H / Dh
        = (min y0 y1 + |y1 - y0|) * H / Dh := by ring
      _ ≤ H := h
  refine ⟨_, hstore, ?_, ?_, ?_, ?_, ?_, ?_⟩
  · simpa using hx.1
  · simpa using hy.1
  · simpa using hxw
  · simpa using hyh
  · simp only [rectRequest, JSNum.fin_sub_fin, JSNum.le_fin, decide_eq_true_eq]
    linarith
  · simp only [rectRequest, JSNum.fin_sub_fin, JSNum.fin_add_fin, JSNum.le_fin,
      decide_eq_true_eq]
    linarith [hy.1]

/-- Witness of C29: page 600 x 800 shown at 300 x 400; the gesture from display point
(100, 100) to (150, 160) commits a selection inside the page. -/
theorem committed_inside_page_witness :
    ∃ sel,
      (drawGesture sampleWorld { button := 0, clientX := 450, clientY := 350 }
          { left := 350, top := 250 } []
          { button := 0, clientX := 500, clientY := 410 } { left := 350, top := 250 }
          "s1").state.selections = sampleWorld.state.selections ++ [sel] ∧
      le (fin 0) sel.x = true ∧ le (fin 0) sel.y = true ∧
      le (sel.x + sel.width) (fin 600) = true ∧ le (sel.y + sel.height) (fin 800) = true ∧
      le (fin 0) (rectRequest ((sel.page : Int) - 1) (fin 800) sel).y = true ∧
      le ((rectRequest ((sel.page : Int) - 1) (fin 800) sel).y
          + (rectRequest ((sel.page : Int) - 1) (fin 800) sel).height) (fin 800) = true :=
  committed_inside_page sampleWorld _ _ 600 800 300 400 100 100 150 160
    { button := 0, clientX := 450, clientY := 350 } { left := 350, top := 250 } []
    { button := 0, clientX := 500, clientY := 410 } { left := 350, top := 250 } "s1"
    rfl rfl rfl rfl (by norm_num) (by norm_num) (by norm_num) (by norm_num) rfl rfl rfl
    (by norm_num) (by norm_num) (by norm_num) (by norm_num)
    (by norm_num) (by norm_num) (by norm_num) (by norm_num)
    (by norm_num) (by norm_num)

/-! ## The page invariant -/

theorem PageInv.of_frame {s t : State} (h : PageInv s)
    (h1 : t.currentPage = s.currentPage) (h2 : t.totalPages = s.totalPages)
    (h3 : t.selections = s.selections) (h4 : t.pdfDoc = s.pdfDoc) : PageInv t := by
  refine ⟨?_, ?_, ?_⟩
  · rw [h1, h2]; exact h.cur
  · rw [h2, h3]; exact h.sels
  · rw [h2, h4]; exact h.doc

/-- The guard of `goToPage`: a page number outside `1..totalPages` or equal to the
current one changes nothing. -/
theorem goToPage_rejected (env : RenderEnv) (w : World) (n : Nat)
    (h : n < 1 ∨ w.state.totalPages < n ∨ n = w.state.currentPage) : goToPage env w n = w := by
  unfold goToPage
  rw [if_pos h]

theorem handleFile_pageInv (env : LoadEnv) (w : World) (h : PageInv w.state)
    (hempty : w.state.selections = []) : PageInv (handleFile env w).state := by
  by_cases hv : env.valid = false
  · rw [handleFile_invalid env w hv]; exact h
  have hv : env.valid = true := by simpa using hv
  by_cases hr : env.readOk = false
  · rw [handleFile_unread env w hv hr]
    exact h.of_frame rfl rfl rfl rfl
  have hr : env.readOk = true := by simpa using hr
  by_cases hp : env.pdfjsLoaded = false ∨ env.doc = none
  · rw [handleFile_unparsed env w hv hr hp]
    exact h.of_frame rfl rfl rfl rfl
  rw [not_or] at hp
  have hl : env.pdfjsLoaded = true := by simpa using hp.1
  obtain ⟨doc, hd⟩ := Option.ne_none_iff_exists'.mp hp.2
  obtain ⟨t, b, he⟩ := handleFile_parsed env w doc hv hr hl hd
  rw [he]
  refine ⟨?_, ?_, ?_⟩
  · show 1 ≤ 1 ∧ (doc.pages.length = 0 ∨ 1 ≤ doc.pages.length)
    omega
  · intro sel hsel
    have : sel ∈ w.state.selections := hsel
    rw [hempty] at this
    simp at this
  · intro d hdoc
    have : some doc = some d := hdoc
    cases this
    rfl

/-- One operation keeps the page invariant, a load being applied to an empty store. -/
theorem step_pageInv (w : World) (op : Op) (h : PageInv w.state)
    (hload : ∀ env, op = Op.load env → w.state.selections = []) :
    PageInv (step w op).state := by
  cases op with
  | load env => exact handleFile_pageInv env w h (hload env rfl)
  | drawStart e rect =>
    show PageInv (handleDrawStart w e rect).state
    rcases handleDrawStart_state w e rect with he | ⟨_, p, he⟩ <;> rw [he] <;>
      exact h.of_frame rfl rfl rfl rfl
  | drawMove e rect =>
    obtain ⟨⟨r, he⟩, _⟩ := handleDrawMove_frame w e rect
    show PageInv (handleDrawMove w e rect).state
    rw [he]
    exact h.of_frame rfl rfl rfl rfl
  | drawEnd e rect newId =>
    show PageInv (handleDrawEnd w e rect newId).state
    have hsel := handleDrawEnd_store w e rect newId
    rcases handleDrawEnd_state w e rect newId with he | ⟨sels, he⟩
    · rw [he]; exact h
    · rw [he] at hsel ⊢
      refine ⟨h.cur, ?_, h.doc⟩
      intro sel hmem
      have hmem : sel ∈ sels := hmem
      rcases hsel with hs | ⟨s, _, hpage, hs⟩
      · have hs : sels = w.state.selections := hs
        rw [hs] at hmem
        exact h.sels sel hmem
      · have hs : sels = w.state.selections ++ [s] := hs
        rw [hs, List.mem_append, List.mem_singleton] at hmem
        rcases hmem with hmem | hmem
        · exact h.sels sel hmem
        · rw [hmem, hpage]
          exact h.cur
  | drawCancel =>
    show PageInv (handleDrawCancel w).state
    rcases handleDrawCancel_state w with he | he <;> rw [he] <;>
      exact h.of_frame rfl rfl rfl rfl
  | zoomIn env =>
    show PageInv (zoomIn env w).state
    rcases zoomIn_state env w with ⟨_, he⟩ | ⟨_, _, he⟩ <;> rw [he]
    · exact h
    · exact h.of_frame rfl rfl rfl rfl
  | zoomOut env =>
    show PageInv (zoomOut env w).state
    rcases zoomOut_state env w with ⟨_, he⟩ | ⟨_, _, he⟩ <;> rw [he]
    · exact h
    · exact h.of_frame rfl rfl rfl rfl
  | zoomReset env =>
    obtain ⟨b, he⟩ := resetZoom_state env w
    show PageInv (resetZoom env w).state
    rw [he]
    exact h.of_frame rfl rfl rfl rfl
  | panToggle =>
    show PageInv (togglePanTool w).state
    rw [togglePanTool_state]
    exact h.of_frame rfl rfl rfl rfl
  | panDown e =>
    show PageInv (panMouseDown w e).state
    rcases panMouseDown_state w e with he | ⟨_, he⟩ <;> rw [he] <;>
      exact h.of_frame rfl rfl rfl rfl
  | panMove e =>
    show PageInv (panMouseMove w e).state
    rcases panMouseMove_state w e with ⟨_, he⟩ | ⟨_, he⟩ <;> rw [he] <;>
      exact h.of_frame rfl rfl rfl rfl
  | panUp =>
    show PageInv (panMouseUp w).state
    rcases panMouseUp_state w with he | he <;> rw [he] <;>
      exact h.of_frame rfl rfl rfl rfl
  | goToPage env n =>
    show PageInv (goToPage env w n).state
    unfold goToPage
    split
    · exact h
    · rename_i hguard
      obtain ⟨b, he⟩ := renderPage_state env
        { w with state := { w.state with currentPage := n } }
      rw [he]
      refine ⟨?_, h.sels, h.doc⟩
      show 1 ≤ n ∧ (w.state.totalPages = 0 ∨ n ≤ w.state.totalPages)
      omega
  | delete id =>
    show PageInv (deleteSelection w id).state
    have hsub := step_store w (Op.delete id)
    obtain ⟨sels, he⟩ := deleteSelection_state w id
    have hsub : (deleteSelection w id).state.selections.Sublist w.state.selections := by
      rcases hsub with hs | ⟨_, _, _, hop, _⟩
      · exact hs
      · cases hop
    rw [he] at hsub ⊢
    exact ⟨h.cur, fun sel hmem => h.sels sel (hsub.subset hmem), h.doc⟩
  | clear confirmed =>
    show PageInv (clearAllSelections w confirmed).state
    have hsub := step_store w (Op.clear confirmed)
    obtain ⟨sels, he⟩ := clearAllSelections_state w confirmed
    have hsub : (clearAllSelections w confirmed).state.selections.Sublist
        w.state.selections := by
      rcases hsub with hs | ⟨_, _, _, hop, _⟩
      · exact hs
      · cases hop
    rw [he] at hsub ⊢
    exact ⟨h.cur, fun sel hmem => h.sels sel (hsub.subset hmem), h.doc⟩
  | save env =>
    obtain ⟨_, he⟩ := saveRedactedPdf_world env w
    show PageInv (saveRedactedPdf env w).world.state
    rw [he]
    exact h.of_frame rfl rfl rfl rfl
  | reset =>
    refine ⟨?_, ?_, ?_⟩
    · show 1 ≤ 1 ∧ ((0 : Nat) = 0 ∨ 1 ≤ 0)
      omega
    · intro sel hmem
      have : sel ∈ ([] : List Selection) := hmem
      simp at this
    · intro d hd
      have : (none : Option PdfDoc) = some d := hd
      cases this
  | resize cw ch => exact h

theorem initialState_pageInv : PageInv initialState := by
  refine ⟨?_, ?_, ?_⟩
  · show 1 ≤ 1 ∧ ((0 : Nat) = 0 ∨ 1 ≤ 0)
    omega
  · intro sel hmem
    have : sel ∈ ([] : List Selection) := hmem
    simp at this
  · intro d hd
    have : (none : Option PdfDoc) = some d := hd
    cases this

/-! ## Page isolation on the overlay -/

theorem selectionDiv_id (w : World) (sel : Selection) : (selectionDiv w sel).id = sel.id := rfl

/-- The overlay after a `renderPage` that paints: it exists, and its children are the
rectangles of the stored selections of the current page, in store order; wrapper,
canvas and overlay are still there, and the state is as before but for `baseScale`. -/
theorem renderPage_overlay (env : RenderEnv) (w : World) (doc : PdfDoc) (page : PageDim)
    (wr : Wrapper) (c : Canvas) (ov : Overlay)
    (hdoc : w.state.pdfDoc = some doc)
    (hcur : 1 ≤ w.state.currentPage ∧ w.state.currentPage ≤ w.state.totalPages)
    (hpage : getPage env.getPageOk doc w.state.currentPage = some page)
    (hok : env.renderOk = true)
    (hwr : w.dom.wrapper = some wr) (hc : w.dom.canvas = some c)
    (hov : w.dom.overlay = some ov) :
    ∃ c2 ov2, (renderPage env w).dom.wrapper = some wr ∧
      (renderPage env w).dom.canvas = some c2 ∧
      (renderPage env w).dom.overlay = some ov2 ∧
      ov2.children.map (fun d => d.id)
        = (pageSelections w.state.selections w.state.currentPage).map (fun s => s.id) := by
  rcases w with ⟨st, ⟨wr0, cv, ov0, dl, rl⟩⟩
  simp only at hdoc hcur hpage hwr hc hov
  subst hwr hc hov
  have hguard : ¬ (st.currentPage < 1 ∨ st.currentPage > st.totalPages) := by omega
  unfold renderPage
  simp only [hdoc, hguard, if_false, hpage, hok]
  simp [updateCanvasCursor, applyPanTransform, drawSelections, setupDrawingLayer]
  split <;> simp [Function.comp_def, selectionDiv_id]

/-- A navigation that renders and paints: the overlay shows the stored selections of
the page gone to, and the state is as before but for `currentPage` and `baseScale`. -/
theorem goToPage_overlay (env : RenderEnv) (w : World) (doc : PdfDoc) (page : PageDim)
    (wr : Wrapper) (c : Canvas) (ov : Overlay) (k : Nat)
    (hdoc : w.state.pdfDoc = some doc)
    (hk : 1 ≤ k ∧ k ≤ w.state.totalPages) (hne : k ≠ w.state.currentPage)
    (hpage : getPage env.getPageOk doc k = some page) (hok : env.renderOk = true)
    (hwr : w.dom.wrapper = some wr) (hc : w.dom.canvas = some c)
    (hov : w.dom.overlay = some ov) :
    ∃ c2 ov2 b, (goToPage env w k).dom.wrapper = some wr ∧
      (goToPage env w k).dom.canvas = some c2 ∧
      (goToPage env w k).dom.overlay = some ov2 ∧
      ov2.children.map (fun d => d.id)
        = (pageSelections w.state.selections k).map (fun s => s.id) ∧
      (goToPage env w k).state = { w.state with currentPage := k, baseScale := b } := by
  have hgo : goToPage env w k
      = renderPage env { w with state := { w.state with currentPage := k } } := by
    unfold goToPage
    rw [if_neg (by omega)]
  obtain ⟨c2, ov2, h1, h2, h3, h4⟩ := renderPage_overlay env
    { w with state := { w.state with currentPage := k } } doc page wr c ov hdoc hk hpage hok
    hwr hc hov
  obtain ⟨b, hst⟩ := renderPage_state env { w with state := { w.state with currentPage := k } }
  rw [hgo]
  exact ⟨c2, ov2, b, h1, h2, h3, h4, hst⟩

/-- C8. Page isolation: for every store and page number `n`, the stored selections with
`page = n` form a sublist of the store (store order) and are exactly the selections the
filter of `drawSelections` keeps for page `n`; `drawSelections`, with page `n` shown,
fills the overlay with the rectangles of exactly these selections, in that order;
`goToPage` never changes the store; and after going from page `n` to another page `m`
and back, each time with a render that paints, the overlay shows the selections of page
`m` and then again the same selections of page `n`. -/
theorem page_isolation (w : World) (n m : Nat) (env1 env2 : RenderEnv) :
    (w.state.selections.filter (fun s => decide (s.page = n))).Sublist w.state.selections ∧
    (∀ s, s ∈ w.state.selections.filter (fun s => decide (s.page = n))
      ↔ s ∈ w.state.selections ∧ s.page = n) ∧
    (goToPage env1 w m).state.selections = w.state.selections ∧
    (goToPage env2 (goToPage env1 w m) n).state.selections = w.state.selections ∧
    (∀ (wr : Wrapper) (c : Canvas) (ov : Overlay),
      w.state.currentPage = n → w.dom.wrapper = some wr → w.dom.canvas = some c →
      w.dom.overlay = some ov →
      ∃ ov1, (drawSelections w).dom.overlay = some ov1 ∧
        ov1.children
          = (w.state.selections.filter (fun s => decide (s.page = n))).map
              (selectionDiv w)) ∧
    (∀ (doc : PdfDoc) (pn pm : PageDim) (wr : Wrapper) (c : Canvas) (ov : Overlay),
      w.state.pdfDoc = some doc → w.state.currentPage = n → m ≠ n →
      1 ≤ n ∧ n ≤ w.state.totalPages → 1 ≤ m ∧ m ≤ w.state.totalPages →
      getPage env1.getPageOk doc m = some pm → getPage env2.getPageOk doc n = some pn →
      env1.renderOk = true → env2.renderOk = true →
      w.dom.wrapper = some wr → w.dom.canvas = some c → w.dom.overlay = some ov →
      (∃ ovm, (goToPage env1 w m).dom.overlay = some ovm ∧
        ovm.children.map (fun d => d.id)
          = (w.state.selections.filter (fun s => decide (s.page = m))).map
              (fun s => s.id)) ∧
      (∃ ov2, (goToPage env2 (goToPage env1 w m) n).dom.overlay = some ov2 ∧
        ov2.children.map (fun d => d.id)
          = (w.state.selections.filter (fun s => decide (s.page = n))).map
              (fun s => s.id))) := by
  have hfilter : ∀ k, pageSelections w.state.selections k
      = w.state.selections.filter (fun s => decide (s.page = k)) := by
    intro k
    unfold pageSelections
    congr 1
  refine ⟨List.filter_sublist _, ?_, goToPage_selections env1 w m, ?_, ?_, ?_⟩
  · intro s
    simp [List.mem_filter]
  · rw [goToPage_selections, goToPage_selections]
  · intro wr c ov hn hwr hc hov
    obtain ⟨ov1, h1, h2⟩ := drawSelections_children w ov wr c hov hwr hc
    exact ⟨ov1, h1, by rw [h2, hn, hfilter]⟩
  · intro doc pn pm wr c ov hdoc hn hnm hnr hmr hpm hpn hok1 hok2 hwr hc hov
    obtain ⟨c1, ovm, b1, hwr1, hc1, hov1, hids1, hst1⟩ := goToPage_overlay env1 w doc pm wr c
      ov m hdoc hmr (by rw [hn]; exact hnm) hpm hok1 hwr hc hov
    obtain ⟨c2, ov2, b2, _, _, hov2, hids2, _⟩ := goToPage_overlay env2 (goToPage env1 w m)
      doc pn wr c1 ovm n (by rw [hst1]; exact hdoc) (by rw [hst1]; exact hnr)
      (by rw [hst1]; exact fun h => hnm h.symm) hpn hok2 hwr1 hc1 hov1
    refine ⟨⟨ovm, hov1, ?_⟩, ⟨ov2, hov2, ?_⟩⟩
    · rw [hids1, hfilter]
    · rw [hids2, goToPage_selections, hfilter]

/-- Witness of C8: in `isolationWorld` (selection `s1` on page 1, `s2` on page 2, page 1
shown) the overlay is filled with the rectangle of `s1` alone; after going to page 2 it
shows `s2`, and back on page 1 it shows `s1` again. -/
theorem page_isolation_witness :
    (∃ ov1, (drawSelections isolationWorld).dom.overlay = some ov1 ∧
      ov1.children.map (fun d => d.id) = ["s1"]) ∧
    (∃ ovm, (goToPage { getPageOk := true, renderOk := true } isolationWorld 2).dom.overlay
        = some ovm ∧ ovm.children.map (fun d => d.id) = ["s2"]) ∧
    (∃ ov2, (goToPage { getPageOk := true, renderOk := true }
        (goToPage { getPageOk := true, renderOk := true } isolationWorld 2) 1).dom.overlay
        = some ov2 ∧ ov2.children.map (fun d => d.id) = ["s1"]) := by
  obtain ⟨_, _, _, _, hdraw, hnav⟩ := page_isolation isolationWorld 1 2
    { getPageOk := true, renderOk := true } { getPageOk := true, renderOk := true }
  obtain ⟨ov1, h1, h2⟩ := hdraw _ _ _ rfl rfl rfl rfl
  obtain ⟨⟨ovm, h3, h4⟩, ⟨ov2, h5, h6⟩⟩ := hnav twoPageDoc _ _ _ _ _
    rfl rfl (by decide) (by decide) (by decide) rfl rfl rfl rfl rfl rfl rfl
  refine ⟨⟨ov1, h1, ?_⟩, ⟨ovm, h3, ?_⟩, ⟨ov2, h5, ?_⟩⟩
  · rw [h2]; rfl
  · rw [h4]; rfl
  · rw [h6]; rfl

/-! ## Rounding to doubles -/

/-- The double operations at known values: `0.1 + 0.2` is `0.30000000000000004`,
`1 / 3` is `6004799503160661 / 2 ^ 54`, a sum of integers is exact, and the literals
`595.276` and `841.89` are the doubles nearest to them. -/
theorem Double.known_values :
    Double.add (Double.rnd (fin (1 / 10))) (Double.rnd (fin (2 / 10)))
      = fin (1351079888211149 / 4503599627370496) ∧
    Double.div (fin 1) (fin 3) = fin (6004799503160661 / 18014398509481984) ∧
    Double.add (fin 600) (fin 800) = fin 1400 ∧
    a4Page = { width := fin (5236103069887889 / 8796093022208),
               height := fin (7405342754466693 / 8796093022208) } := by
  decide!

/-! ## Commit and re-display in doubles -/

/-- C2, counterexample.  On a page of 600 x 800 shown at 300 x 400, the gesture from
display point (1, 1) to (21, 21) stores, in doubles, the width
`42.00000000000001 - 2 = 40.00000000000001` (that is `40 + 2 ^ -47`), not
`20 * 600 / 300 = 40`. -/
theorem commit_mapping_counterexample :
    doubleCommitted.state.selections
      = [{ id := "s1", page := 1, x := fin 2, y := fin 2,
           width := fin (5629499534213121 / 140737488355328), height := fin 40 }] ∧
    (5629499534213121 / 140737488355328 : ℚ) = 40 + 1 / 2 ^ 47 ∧
    (5629499534213121 / 140737488355328 : ℚ) ≠ 20 * 600 / 300 := by
  refine ⟨by decide!, by norm_num, by norm_num⟩

/-- C3, counterexample.  The rectangle drawn in that gesture is (1, 1, 20, 20); the
overlay shows the stored selection, at the same display size, in doubles, with the
width `21.000000000000004 - 1 = 20.000000000000004` (that is `20 + 2 ^ -48`), not
20. -/
theorem lossless_redisplay_counterexample :
    doubleCommitted.dom.overlay.map (fun o => o.children)
      = some [{ id := "s1", left := fin 1, top := fin 1,
                width := fin (5629499534213121 / 281474976710656), height := fin 20 }] ∧
    (5629499534213121 / 281474976710656 : ℚ) = 20 + 1 / 2 ^ 48 ∧
    (5629499534213121 / 281474976710656 : ℚ) ≠ 20 := by
  refine ⟨by decide!, by norm_num, by norm_num⟩

/-! ## The quality multiplier in doubles -/

/-- C11, counterexample.  The A4 page in a wrapper of 380 x 480 at zoom level 1.25: in
doubles the display size is `353.53549751155134 x 500` with the quality multiplier 3
and `353.5354975115514 x 500.00000000000006` with the multiplier 1, and the display
point (100, 100) is committed at `y = 168.37800000000001` with the one and at
`y = 168.378` with the other. -/
theorem quality_multiplier_counterexample :
    (Double.renderPageAt (fin 3) { getPageOk := true, renderOk := true }
        (a4World 380 480 (5 / 4))).dom.canvas.map (fun c => (c.styleWidth, c.styleHeight))
      = some (fin (6219462245528381 / 17592186044416), fin 500) ∧
    (Double.renderPageAt (fin 1) { getPageOk := true, renderOk := true }
        (a4World 380 480 (5 / 4))).dom.canvas.map (fun c => (c.styleWidth, c.styleHeight))
      = some (fin (3109731122764191 / 8796093022208),
              fin (8796093022208001 / 17592186044416)) ∧
    (Double.displayToOriginal
        (Double.renderPageAt (fin 3) { getPageOk := true, renderOk := true }
          (a4World 380 480 (5 / 4))) (fin 100) (fin 100)).y
      = fin (5924274203573355 / 35184372088832) ∧
    (Double.displayToOriginal
        (Double.renderPageAt (fin 1) { getPageOk := true, renderOk := true }
          (a4World 380 480 (5 / 4))) (fin 100) (fin 100)).y
      = fin (2962137101786677 / 17592186044416) ∧
    (6219462245528381 / 17592186044416 : ℚ) ≠ 3109731122764191 / 8796093022208 ∧
    (5924274203573355 / 35184372088832 : ℚ) ≠ 2962137101786677 / 17592186044416 := by
  refine ⟨by decide!, by decide!, by decide!, by decide!, by norm_num, by norm_num⟩

/-! ## Fit to container in doubles -/

/-- C12, counterexample.  The A4 page in a wrapper of 400 x 501 (container 320 x 421):
in doubles `baseScale` is `0.5000653291997768`, and the page height times `baseScale`,
which is also the display height at zoom level 1.0, is `421.00000000000006`, above
`501 - 80 = 421`. -/
theorem fit_to_container_counterexample :
    (Double.renderPage { getPageOk := true, renderOk := true }
        (a4World 400 501 1)).state.baseScale
      = fin (2252094030245019 / 4503599627370496) ∧
    Double.mul a4Page.height (fin (2252094030245019 / 4503599627370496))
      = fin (7406310324699137 / 17592186044416) ∧
    (Double.renderPage { getPageOk := true, renderOk := true }
        (a4World 400 501 1)).dom.canvas.map (fun c => c.styleHeight)
      = some (fin (7406310324699137 / 17592186044416)) ∧
    gt (fin (7406310324699137 / 17592186044416)) (fin 501 - fin 80) = true := by
  refine ⟨by decide!, by decide!, by decide!, by decide!⟩

/-! ## Committed selections in doubles -/

/-- C29, counterexample.  The A4 page (height `841.89`) is shown at
`282.8283980092411 x 400`.  In doubles the gesture from (0, 32) to (100, 400), inside
the surface, stores `y = 67.3512` and `height = 774.5388`, and `y + height` is
`841.8900000000001`, above the page height; the gesture from (0, 0) to (100, 32) stores
`y = 0` and `height = 67.3512`, its export rectangle has `pdfY = 774.5388`, and
`pdfY + height` is `841.8900000000001`, above the page height. -/
theorem committed_inside_page_counterexample :
    a4Rendered.dom.canvas.map (fun c => (c.styleWidth, c.styleHeight))
      = some (fin (4975569796422705 / 17592186044416), fin 400) ∧
    (a4Committed 32 400).state.selections
      = [{ id := "s1", page := 1, x := fin 0, y := fin (1184854840714671 / 17592186044416),
           width := fin (7405342754466693 / 35184372088832),
           height := fin (3406457667054679 / 4398046511104) }] ∧
    Double.add (fin (1184854840714671 / 17592186044416))
        (fin (3406457667054679 / 4398046511104))
      = fin (3702671377233347 / 4398046511104) ∧
    gt (fin (3702671377233347 / 4398046511104)) a4Page.height = true ∧
    (a4Committed 0 32).state.selections.map (fun s => Double.rectRequest 0 a4Page.height s)
      = [{ pageIndex := 0, x := fin 0, y := fin (3406457667054679 / 4398046511104),
           width := fin (7405342754466693 / 35184372088832),
           height := fin (1184854840714671 / 17592186044416) }] ∧
    Double.add (fin (3406457667054679 / 4398046511104))
        (fin (1184854840714671 / 17592186044416))
      = fin (3702671377233347 / 4398046511104) := by
  refine ⟨by decide!, by decide!, by decide!, by decide!, by decide!, by decide!⟩

/-! ## What a load leaves behind -/

/-- C22, as amended.  A file that fails validation changes nothing.  Otherwise
`handleFile` has no rollback and the fields written before the failing step stay
written: after a failed read, `pdfFile`, `pdfDoc`, `totalPages`, `currentPage` and
`pageDimensions` are as they were; after a missing renderer or a failed parse,
`pdfFile` is the new file and the other four are as they were; after a `getPage(k)`
that rejects, `pdfFile` and `pdfDoc` are the new file and document, `totalPages` is its
page count, `currentPage` is 1, the sizes of the pages before `k` are cached and every
other entry of `pageDimensions` is as it was; and when no step fails, the new document
is set with the size of every page `1..totalPages` cached and the entries of other
pages as they were. -/
theorem load_outcomes (env : LoadEnv) (w : World) :
    (env.valid = false → handleFile env w = w) ∧
    (env.valid = true → env.readOk = false →
      (handleFile env w).state.pdfFile = w.state.pdfFile ∧
      (handleFile env w).state.pdfDoc = w.state.pdfDoc ∧
      (handleFile env w).state.totalPages = w.state.totalPages ∧
      (handleFile env w).state.currentPage = w.state.currentPage ∧
      (handleFile env w).state.pageDimensions = w.state.pageDimensions) ∧
    (env.valid = true → env.readOk = true → env.pdfjsLoaded = false ∨ env.doc = none →
      (handleFile env w).state.pdfFile = some env.fileName ∧
      (handleFile env w).state.pdfDoc = w.state.pdfDoc ∧
      (handleFile env w).state.totalPages = w.state.totalPages ∧
      (handleFile env w).state.currentPage = w.state.currentPage ∧
      (handleFile env w).state.pageDimensions = w.state.pageDimensions) ∧
    (∀ doc k, env.valid = true → env.readOk = true → env.pdfjsLoaded = true →
      env.doc = some doc → env.failAt = some k → 1 ≤ k → k ≤ doc.pages.length →
      (handleFile env w).state.pdfFile = some env.fileName ∧
      (handleFile env w).state.pdfDoc = some doc ∧
      (handleFile env w).state.totalPages = doc.pages.length ∧
      (handleFile env w).state.currentPage = 1 ∧
      (∀ m, 1 ≤ m → m < k → ∃ page, getPage true doc m = some page ∧
        pageDimAt (handleFile env w).state.pageDimensions m
          = some (getViewport page (fin 1))) ∧
      (∀ m, m < 1 ∨ k ≤ m →
        pageDimAt (handleFile env w).state.pageDimensions m
          = pageDimAt w.state.pageDimensions m)) ∧
    (∀ doc, env.valid = true → env.readOk = true → env.pdfjsLoaded = true →
      env.doc = some doc → (∀ k, env.failAt = some k → k < 1 ∨ doc.pages.length < k) →
      (handleFile env w).state.pdfFile = some env.fileName ∧
      (handleFile env w).state.pdfDoc = some doc ∧
      (handleFile env w).state.totalPages = doc.pages.length ∧
      (handleFile env w).state.currentPage = 1 ∧
      (∀ m, 1 ≤ m → m ≤ doc.pages.length → ∃ page, getPage true doc m = some page ∧
        pageDimAt (handleFile env w).state.pageDimensions m
          = some (getViewport page (fin 1))) ∧
      (∀ m, m < 1 ∨ doc.pages.length < m →
        pageDimAt (handleFile env w).state.pageDimensions m
          = pageDimAt w.state.pageDimensions m)) := by
  refine ⟨handleFile_invalid env w, ?_, ?_, ?_, ?_⟩
  · intro hv hr
    rw [handleFile_unread env w hv hr]
    exact ⟨rfl, rfl, rfl, rfl, rfl⟩
  · intro hv hr hp
    rw [handleFile_unparsed env w hv hr hp]
    exact ⟨rfl, rfl, rfl, rfl, rfl⟩
  · intro doc k hv hr hl hd hk h1 h2
    obtain ⟨t, b, h⟩ := handleFile_parsed env w doc hv hr hl hd
    rw [h]
    have hc : (cachePageDimensions doc env.failAt (List.range' 1 doc.pages.length)
        w.state.pageDimensions).2 = false := by
      cases hc : (cachePageDimensions doc env.failAt (List.range' 1 doc.pages.length)
          w.state.pageDimensions).2 with
      | false => rfl
      | true =>
        obtain ⟨_, _, hne, _⟩ := (cachePageDimensions_spec doc env.failAt
          (List.range' 1 doc.pages.length) w.state.pageDimensions).2.1 hc k
          (by rw [List.mem_range'_1]; omega)
        exact absurd hk hne
    obtain ⟨k2, hk2, _, _, h3, h4⟩ :=
      cachePageDimensions_stop doc env.failAt w.state.pageDimensions hc
    have hkk : k2 = k := by
      rw [hk] at hk2
      exact (Option.some.inj hk2).symm
    subst hkk
    obtain ⟨p1, p2, _⟩ := cachePageDimensions_spec doc env.failAt
      (List.range' 1 (k2 - 1)) w.state.pageDimensions
    refine ⟨rfl, rfl, rfl, rfl, ?_, ?_⟩
    · intro m hm1 hm2
      show ∃ page, getPage true doc m = some page ∧
        pageDimAt (cachePageDimensions doc env.failAt (List.range' 1 doc.pages.length)
          w.state.pageDimensions).1 m = some (getViewport page (fin 1))
      rw [h4]
      obtain ⟨page, hp1, _, hp3⟩ := p2 h3 m (by rw [List.mem_range'_1]; omega)
      exact ⟨page, hp1, hp3⟩
    · intro m hm
      show pageDimAt (cachePageDimensions doc env.failAt (List.range' 1 doc.pages.length)
          w.state.pageDimensions).1 m = pageDimAt w.state.pageDimensions m
      rw [h4]
      exact p1 m (by rw [List.mem_range'_1]; omega)
  · intro doc hv hr hl hd hf
    obtain ⟨t, b, h⟩ := handleFile_parsed env w doc hv hr hl hd
    rw [h]
    have hc := cachePageDimensions_run doc env.failAt w.state.pageDimensions hf
    obtain ⟨s1, s2, _⟩ := cachePageDimensions_spec doc env.failAt
      (List.range' 1 doc.pages.length) w.state.pageDimensions
    refine ⟨rfl, rfl, rfl, rfl, ?_, ?_⟩
    · intro m hm1 hm2
      obtain ⟨page, hp1, _, hp3⟩ := s2 hc m (by rw [List.mem_range'_1]; omega)
      exact ⟨page, hp1, hp3⟩
    · intro m hm
      exact s1 m (by rw [List.mem_range'_1]; omega)

/-- Witness of C22: the load of `twoPageDoc` in which `getPage(2)` rejects leaves the
document set, two pages counted and the size of page 1 alone cached; the load of
`sampleDoc` in which nothing fails caches the size of its page; a failed read and a
failed parse of the same file leave `pdfDoc` unset, the second with `pdfFile` set. -/
theorem load_outcomes_witness :
    ((handleFile failingLoad (initialWorld sampleDom)).state.pdfDoc = some twoPageDoc ∧
      (handleFile failingLoad (initialWorld sampleDom)).state.totalPages = 2 ∧
      pageDimAt (handleFile failingLoad (initialWorld sampleDom)).state.pageDimensions 1
        = some { width := fin 600, height := fin 800 } ∧
      pageDimAt (handleFile failingLoad (initialWorld sampleDom)).state.pageDimensions 2
        = none) ∧
    ((handleFile sampleLoad (initialWorld sampleDom)).state.pdfDoc = some sampleDoc ∧
      pageDimAt (handleFile sampleLoad (initialWorld sampleDom)).state.pageDimensions 1
        = some { width := fin 600, height := fin 800 }) ∧
    ((handleFile { sampleLoad with readOk := false } (initialWorld sampleDom)).state.pdfFile
        = none ∧
      (handleFile { sampleLoad with readOk := false } (initialWorld sampleDom)).state.pdfDoc
        = none) ∧
    ((handleFile { sampleLoad with doc := none } (initialWorld sampleDom)).state.pdfFile
        = some "a.pdf" ∧
      (handleFile { sampleLoad with doc := none } (initialWorld sampleDom)).state.pdfDoc
        = none) := by
  have h4 := (load_outcomes failingLoad (initialWorld sampleDom)).2.2.2.1 twoPageDoc 2
    rfl rfl rfl rfl rfl (by decide) (by decide)
  have h5 := (load_outcomes sampleLoad (initialWorld sampleDom)).2.2.2.2 sampleDoc
    rfl rfl rfl rfl (by intro k hk; simp [sampleLoad] at hk)
  have h2 := (load_outcomes { sampleLoad with readOk := false } (initialWorld sampleDom)).2.1
    rfl rfl
  have h3 := (load_outcomes { sampleLoad with doc := none } (initialWorld sampleDom)).2.2.1
    rfl rfl (Or.inr rfl)
  refine ⟨⟨h4.2.1, h4.2.2.1, ?_, ?_⟩, ⟨h5.2.1, ?_⟩, ⟨h2.1, h2.2.1⟩, ⟨h3.1, h3.2.1⟩⟩
  · obtain ⟨page, hp, hd⟩ := h4.2.2.2.2.1 1 (by decide) (by decide)
    rw [hd]
    have : page = { width := fin 600, height := fin 800 } := by
      have h : getPage true twoPageDoc 1 = some { width := fin 600, height := fin 800 } := rfl
      rw [h] at hp
      exact (Option.some.inj hp).symm
    rw [this]
    simp [getViewport]
  · rw [h4.2.2.2.2.2 2 (Or.inr (le_refl 2))]
    rfl
  · obtain ⟨page, hp, hd⟩ := h5.2.2.2.2.1 1 (by decide) (by decide)
    rw [hd]
    have : page = { width := fin 600, height := fin 800 } := by
      have h : getPage true sampleDoc 1 = some { width := fin 600, height := fin 800 } := rfl
      rw [h] at hp
      exact (Option.some.inj hp).symm
    rw [this]
    simp [getViewport]

/-! ## Sessions -/

/-- What holds between the operations of a session: the page invariant, and an empty
store while the upload stage is shown. -/
theorem step_session (stage : Stage) (w : World) (op : Op)
    (h : PageInv w.state) (hempty : stage = Stage.upload → w.state.selections = [])
    (hop : stage.offers op = true) :
    PageInv (step w op).state ∧
    (stage.after w op = Stage.upload → (step w op).state.selections = []) := by
  have hload : ∀ env, op = Op.load env → w.state.selections = [] := by
    intro env he
    subst he
    cases stage
    · exact hempty rfl
    · simp [Stage.offers] at hop
  refine ⟨step_pageInv w op h hload, ?_⟩
  intro hafter
  cases op with
  | load env =>
    show (handleFile env w).state.selections = []
    rw [handleFile_selections]
    exact hload env rfl
  | reset => rfl
  | resize cw ch => exact hempty hafter
  | panMove e =>
    show (panMouseMove w e).state.selections = []
    rw [panMouseMove_selections]
    exact hempty hafter
  | panUp =>
    show (panMouseUp w).state.selections = []
    rw [panMouseUp_selections]
    exact hempty hafter
  | drawStart e rect => cases stage <;> simp [Stage.offers, Stage.after] at hop hafter
  | drawMove e rect => cases stage <;> simp [Stage.offers, Stage.after] at hop hafter
  | drawEnd e rect newId => cases stage <;> simp [Stage.offers, Stage.after] at hop hafter
  | drawCancel => cases stage <;> simp [Stage.offers, Stage.after] at hop hafter
  | zoomIn env => cases stage <;> simp [Stage.offers, Stage.after] at hop hafter
  | zoomOut env => cases stage <;> simp [Stage.offers, Stage.after] at hop hafter
  | zoomReset env => cases stage <;> simp [Stage.offers, Stage.after] at hop hafter
  | panToggle => cases stage <;> simp [Stage.offers, Stage.after] at hop hafter
  | panDown e => cases stage <;> simp [Stage.offers, Stage.after] at hop hafter
  | goToPage env n => cases stage <;> simp [Stage.offers, Stage.after] at hop hafter
  | delete id => cases stage <;> simp [Stage.offers, Stage.after] at hop hafter
  | clear confirmed => cases stage <;> simp [Stage.offers, Stage.after] at hop hafter
  | save env => cases stage <;> simp [Stage.offers, Stage.after] at hop hafter

theorem run_session (ops : List Op) :
    ∀ (stage : Stage) (w : World), PageInv w.state →
      (stage = Stage.upload → w.state.selections = []) →
      session stage w ops = true → PageInv (run w ops).state := by
  induction ops with
  | nil => intro _ w h _ _; exact h
  | cons op ops ih =>
    intro stage w h hempty hs
    have hs2 : (stage.offers op && session (stage.after w op) (step w op) ops) = true := hs
    rw [Bool.and_eq_true] at hs2
    obtain ⟨h1, h2⟩ := step_session stage w op h hempty hs2.1
    exact ih (stage.after w op) (step w op) h1 h2 hs2.2

/-! ## Page indices stay valid -/

/-- C30. Page indices stay valid: in every state reached from the initial state by a
session of the feature (loads, navigation, drawing, deletion, clear, zoom, pan, save,
reset, each started from the stage that offers it) in which a document with at least
one page is loaded, `1 <= currentPage <= totalPages` and every stored selection has
`1 <= page <= totalPages`, so that `page - 1` is an index of a page of a document with
`totalPages` pages; and `goToPage` with a page number outside `1..totalPages` or equal
to the current page changes nothing. -/
theorem page_indices_valid (dom : Dom) (ops : List Op) (doc : PdfDoc)
    (hsession : session Stage.upload (initialWorld dom) ops = true)
    (hdoc : (run (initialWorld dom) ops).state.pdfDoc = some doc)
    (hpages : 1 ≤ doc.pages.length) :
    1 ≤ (run (initialWorld dom) ops).state.currentPage ∧
    (run (initialWorld dom) ops).state.currentPage
      ≤ (run (initialWorld dom) ops).state.totalPages ∧
    (∀ sel ∈ (run (initialWorld dom) ops).state.selections,
      1 ≤ sel.page ∧ sel.page ≤ (run (initialWorld dom) ops).state.totalPages ∧
      ∀ heights : List JSNum,
        heights.length = (run (initialWorld dom) ops).state.totalPages →
        (libPageHeight heights ((sel.page : Int) - 1)).isSome = true) ∧
    (∀ (env : RenderEnv) (w : World) (n : Nat),
      n < 1 ∨ w.state.totalPages < n ∨ n = w.state.currentPage → goToPage env w n = w) := by
  have hinv := run_session ops Stage.upload (initialWorld dom) initialState_pageInv
    (fun _ => rfl) hsession
  have htotal := hinv.doc doc hdoc
  have hpos : (run (initialWorld dom) ops).state.totalPages ≠ 0 := by omega
  refine ⟨hinv.cur.1, ?_, ?_, goToPage_rejected⟩
  · rcases hinv.cur.2 with h | h
    · exact absurd h hpos
    · exact h
  · intro sel hsel
    obtain ⟨h1, h2⟩ := hinv.sels sel hsel
    have h3 : sel.page ≤ (run (initialWorld dom) ops).state.totalPages := by
      rcases h2 with h | h
      · exact absurd h hpos
      · exact h
    refine ⟨h1, h3, ?_⟩
    intro heights hlen
    unfold libPageHeight
    have hnn : ¬ ((sel.page : Int) - 1 < 0) := by omega
    rw [if_neg hnn]
    have hidx : ((sel.page : Int) - 1).toNat < heights.length := by omega
    rw [List.get?_eq_get hidx]
    rfl

theorem twoCommitOps_eval :
    session Stage.upload (initialWorld sampleDom) twoCommitOps = true ∧
    (run (initialWorld sampleDom) twoCommitOps).state.pdfDoc = some twoPageDoc ∧
    (run (initialWorld sampleDom) twoCommitOps).state.selections.map (fun s => (s.id, s.page))
      = [("s1", 2), ("s2", 2)] ∧
    generatedIds (initialWorld sampleDom) twoCommitOps = ["s1", "s2"] := by
  decide!

/-- Witness of C30: the session `twoCommitOps` loads a two-page document, stores two
selections on page 2 and returns to page 1; the current page is 1 of 2 and both
selections have a page between 1 and 2. -/
theorem page_indices_valid_witness :
    (run (initialWorld sampleDom) twoCommitOps).state.selections.map (fun s => (s.id, s.page))
      = [("s1", 2), ("s2", 2)] ∧
    1 ≤ (run (initialWorld sampleDom) twoCommitOps).state.currentPage ∧
    (run (initialWorld sampleDom) twoCommitOps).state.currentPage
      ≤ (run (initialWorld sampleDom) twoCommitOps).state.totalPages ∧
    (run (initialWorld sampleDom) twoCommitOps).state.selections.all
      (fun sel => decide (1 ≤ sel.page ∧
        sel.page ≤ (run (initialWorld sampleDom) twoCommitOps).state.totalPages)) = true := by
  have h := page_indices_valid sampleDom twoCommitOps twoPageDoc twoCommitOps_eval.1
    twoCommitOps_eval.2.1 (by decide)
  refine ⟨twoCommitOps_eval.2.2.1, h.1, h.2.1, ?_⟩
  rw [List.all_eq_true]
  intro sel hsel
  exact decide_eq_true ⟨(h.2.2.1 sel hsel).1, (h.2.2.1 sel hsel).2.1⟩

/-! ## Loading after a failed load -/

/-- A load that ends a session starts from an empty store. -/
theorem session_load_empty (ops : List Op) (env : LoadEnv) :
    ∀ (stage : Stage) (w : World), PageInv w.state →
      (stage = Stage.upload → w.state.selections = []) →
      session stage w (ops ++ [Op.load env]) = true →
      (run w ops).state.selections = [] := by
  induction ops with
  | nil =>
    intro stage w _ hempty hs
    cases stage
    · exact hempty rfl
    · simp [session, Stage.offers] at hs
  | cons op ops ih =>
    intro stage w h hempty hs
    have hs2 : (stage.offers op &&
        session (stage.after w op) (step w op) (ops ++ [Op.load env])) = true := hs
    rw [Bool.and_eq_true] at hs2
    obtain ⟨h1, h2⟩ := step_session stage w op h hempty hs2.1
    exact ih (stage.after w op) (step w op) h1 h2 hs2.2

theorem reloadOps_session : session Stage.upload (initialWorld sampleDom) reloadOps = true := by
  decide!

/-- C23, counterexample.  The session `reloadOps`: a two-page document is loaded with a
selection on page 2; the feature goes back to the upload stage; a load of a three-page
file fails at `getPage(3)`; the one-page `sampleDoc` is then loaded with success.
After it `totalPages` is 1 and the store is empty, but `pageDimensions` holds entries
for the pages 1 and 2, the second being page 2 of the file that failed to load. -/
theorem load_resets_counterexample :
    session Stage.upload (initialWorld sampleDom) reloadOps = true ∧
    (run (initialWorld sampleDom) twoPageOps).state.pdfDoc = some twoPageDoc ∧
    (run (initialWorld sampleDom) twoPageOps).state.selections.map (fun s => (s.id, s.page))
      = [("s1", 2)] ∧
    (run (initialWorld sampleDom) reloadOps).state.pdfDoc = some sampleDoc ∧
    (run (initialWorld sampleDom) reloadOps).state.totalPages = 1 ∧
    (run (initialWorld sampleDom) reloadOps).state.selections = [] ∧
    dimKeys (run (initialWorld sampleDom) reloadOps).state.pageDimensions = [1, 2] ∧
    pageDimAt (run (initialWorld sampleDom) reloadOps).state.pageDimensions 2
      = some { width := fin 800, height := fin 600 } := by
  decide!

/-- C23, as amended.  A new file is chosen on the upload stage, which the feature shows
together with `resetState`; `handleFile` itself leaves the selection store as it is and
only writes entries of `pageDimensions`.  In every session the store is empty after a
load, so no selection of a previous document remains; and after `resetState` and a load
that directly follows it and in which every step succeeds, `pageDimensions` holds
exactly the entries of the pages `1..totalPages` of the new document, each with the
size the document reports. -/
theorem reset_then_load (env : LoadEnv) (w : World) (doc : PdfDoc)
    (hv : env.valid = true) (hr : env.readOk = true) (hp : env.pdfjsLoaded = true)
    (hd : env.doc = some doc)
    (hf : ∀ k, env.failAt = some k → k < 1 ∨ doc.pages.length < k) :
    (handleFile env w).state.selections = w.state.selections ∧
    (∀ (dom : Dom) (ops : List Op),
      session Stage.upload (initialWorld dom) (ops ++ [Op.load env]) = true →
      (run (initialWorld dom) (ops ++ [Op.load env])).state.selections = []) ∧
    (handleFile env { w with state := resetState w.state }).state.pdfDoc = some doc ∧
    (handleFile env { w with state := resetState w.state }).state.totalPages
      = doc.pages.length ∧
    (handleFile env { w with state := resetState w.state }).state.selections = [] ∧
    dimKeys (handleFile env { w with state := resetState w.state }).state.pageDimensions
      = List.range' 1 doc.pages.length ∧
    (∀ m, 1 ≤ m → m ≤ doc.pages.length → ∃ page, getPage true doc m = some page ∧
      pageDimAt (handleFile env { w with state := resetState w.state }).state.pageDimensions m
        = some (getViewport page (fin 1))) := by
  refine ⟨handleFile_selections env w, ?_, ?_⟩
  · intro dom ops hs
    have hempty := session_load_empty ops env Stage.upload (initialWorld dom)
      initialState_pageInv (fun _ => rfl) hs
    show (List.foldl step (initialWorld dom) (ops ++ [Op.load env])).state.selections = []
    rw [List.foldl_append]
    show (handleFile env (run (initialWorld dom) ops)).state.selections = []
    rw [handleFile_selections]
    exact hempty
  obtain ⟨t, b, h⟩ := handleFile_parsed env { w with state := resetState w.state } doc
    hv hr hp hd
  rw [h]
  have hrun := cachePageDimensions_run doc env.failAt [] hf
  refine ⟨rfl, rfl, rfl, ?_, ?_⟩
  · show dimKeys (cachePageDimensions doc env.failAt (List.range' 1 doc.pages.length) []).1 = _
    rw [cachePageDimensions_keys doc env.failAt _ [] (List.nodup_range' 1 _)
      (by intro m _; simp [dimKeys]) hrun]
    simp [dimKeys]
  · intro m hm1 hm2
    obtain ⟨page, hp1, _, hp3⟩ := (cachePageDimensions_spec doc env.failAt
      (List.range' 1 doc.pages.length) []).2.1 hrun m (by rw [List.mem_range'_1]; omega)
    exact ⟨page, hp1, hp3⟩

/-- Witness of C23: `sampleDoc` loaded after a reset of `twoPageStore`, in which a
two-page document and a selection on page 2 are loaded, gives an empty store and the one
entry of page 1; and the store is empty after the session `reloadOps`, which ends in
that load. -/
theorem reset_then_load_witness :
    (handleFile sampleLoad { twoPageStore with state := resetState twoPageStore.state }
      ).state.selections = [] ∧
    dimKeys (handleFile sampleLoad
      { twoPageStore with state := resetState twoPageStore.state }).state.pageDimensions
      = [1] ∧
    (run (initialWorld sampleDom) reloadOps).state.selections = [] := by
  have h := reset_then_load sampleLoad twoPageStore sampleDoc rfl rfl rfl rfl
    (by intro k hk; simp [sampleLoad] at hk)
  exact ⟨h.2.2.2.2.1, h.2.2.2.2.2.1,
    h.2.1 sampleDom
      (twoPageOps ++ [Op.reset,
        Op.load { sampleLoad with doc := some threePageDoc, failAt := some 3 }])
      reloadOps_session⟩

/-! ## Unique ids in a session with two commits -/

/-- Witness of C26: the session `twoCommitOps` generates the ids `s1` and `s2` and
stores two selections, whose ids are distinct. -/
theorem unique_ids_witness :
    generatedIds (initialWorld sampleDom) twoCommitOps = ["s1", "s2"] ∧
    (run (initialWorld sampleDom) twoCommitOps).state.selections.map (fun s => s.id)
      = ["s1", "s2"] ∧
    ((run (initialWorld sampleDom) twoCommitOps).state.selections.map
      (fun s => s.id)).Nodup :=
  ⟨twoCommitOps_eval.2.2.2,
   by have h := twoCommitOps_eval.2.2.1
      have h2 := congrArg (List.map Prod.fst) h
      simpa [List.map_map, Function.comp_def] using h2,
   (unique_ids sampleDom twoCommitOps (by rw [twoCommitOps_eval.2.2.2]; decide)).1⟩

/-! ## The processing flag between operations -/

/-- An operation that starts with `processing` cleared ends with it cleared: every
handler runs to its end before the next one starts, and `handleFile` and
`saveRedactedPdf` clear the flag in their `finally` clause. -/
theorem step_idle (w : World) (op : Op) (h : w.state.processing = false) :
    (step w op).state.processing = false := by
  cases op with
  | load env =>
    show (handleFile env w).state.processing = false
    by_cases hv : env.valid = false
    · rw [handleFile_invalid env w hv]; exact h
    have hv : env.valid = true := by simpa using hv
    by_cases hr : env.readOk = false
    · rw [handleFile_unread env w hv hr]
    have hr : env.readOk = true := by simpa using hr
    by_cases hp : env.pdfjsLoaded = false ∨ env.doc = none
    · rw [handleFile_unparsed env w hv hr hp]
    rw [not_or] at hp
    have hl : env.pdfjsLoaded = true := by simpa using hp.1
    obtain ⟨doc, hd⟩ := Option.ne_none_iff_exists'.mp hp.2
    obtain ⟨t, b, he⟩ := handleFile_parsed env w doc hv hr hl hd
    rw [he]
  | drawStart e rect =>
    show (handleDrawStart w e rect).state.processing = false
    rcases handleDrawStart_state w e rect with he | ⟨_, p, he⟩ <;> rw [he] <;> exact h
  | drawMove e rect =>
    obtain ⟨⟨r, he⟩, _⟩ := handleDrawMove_frame w e rect
    show (handleDrawMove w e rect).state.processing = false
    rw [he]
    exact h
  | drawEnd e rect newId =>
    show (handleDrawEnd w e rect newId).state.processing = false
    rcases handleDrawEnd_state w e rect newId with he | ⟨_, he⟩ <;> rw [he] <;> exact h
  | drawCancel =>
    show (handleDrawCancel w).state.processing = false
    rcases handleDrawCancel_state w with he | he <;> rw [he] <;> exact h
  | zoomIn env =>
    show (zoomIn env w).state.processing = false
    rcases zoomIn_state env w with ⟨_, he⟩ | ⟨_, _, he⟩ <;> rw [he] <;> exact h
  | zoomOut env =>
    show (zoomOut env w).state.processing = false
    rcases zoomOut_state env w with ⟨_, he⟩ | ⟨_, _, he⟩ <;> rw [he] <;> exact h
  | zoomReset env =>
    obtain ⟨b, he⟩ := resetZoom_state env w
    show (resetZoom env w).state.processing = false
    rw [he]
    exact h
  | panToggle =>
    show (togglePanTool w).state.processing = false
    rw [togglePanTool_state]
    exact h
  | panDown e =>
    show (panMouseDown w e).state.processing = false
    rcases panMouseDown_state w e with he | ⟨_, he⟩ <;> rw [he] <;> exact h
  | panMove e =>
    show (panMouseMove w e).state.processing = false
    rcases panMouseMove_state w e with ⟨_, he⟩ | ⟨_, he⟩ <;> rw [he] <;> exact h
  | panUp =>
    show (panMouseUp w).state.processing = false
    rcases panMouseUp_state w with he | he <;> rw [he] <;> exact h
  | goToPage env n =>
    obtain ⟨_, _, he⟩ := goToPage_state env w n
    show (goToPage env w n).state.processing = false
    rw [he]
    exact h
  | delete id =>
    obtain ⟨_, he⟩ := deleteSelection_state w id
    show (deleteSelection w id).state.processing = false
    rw [he]
    exact h
  | clear confirmed =>
    obtain ⟨_, he⟩ := clearAllSelections_state w confirmed
    show (clearAllSelections w confirmed).state.processing = false
    rw [he]
    exact h
  | save env =>
    show (saveRedactedPdf env w).world.state.processing = false
    unfold saveRedactedPdf
    by_cases hl : w.state.selections.length = 0
    · simp [hl, h]
    · simp only [hl, h, or_false, Bool.false_eq_true, if_false]
      repeat' split
      all_goals rfl
  | reset => rfl
  | resize cw ch => exact h

/-- In every state reached from the initial state by a sequence of operations the
`processing` flag is cleared: between two operations nothing is in flight. -/
theorem run_idle (ops : List Op) :
    ∀ w : World, w.state.processing = false → (run w ops).state.processing = false := by
  induction ops with
  | nil => intro w h; exact h
  | cons op ops ih => intro w h; exact ih (step w op) (step_idle w op h)

end PdfRedact
